import Mathlib

/-!
# Identifier engines of `schigh/tools`: `pkg/cuid` and the vendored `ntwrk1/guid`

A shallow embedding of the two identifier families and of the Go library
routines they are built on (`strconv.FormatInt`, `strconv.ParseInt`,
`encoding/binary.PutVarint`, `encoding/binary.Varint`).

Conventions of the embedding:

* a Go `byte` is a natural number; a `[]byte` and a `string` are both
  `List Nat` (a Go string is a byte sequence);
* `int32` and `int64` values are integers, reduced with `wrap32` / `wrap64`
  where the Go operation can overflow;
* a Go call that can panic returns an `Option`, `none` being the panic;
* a Go `(T, error)` result is a pair `T × Option E`, `none` being `nil`.
-/

namespace Go

/-- Two's-complement reduction to `int32`. -/
def wrap32 (x : Int) : Int := (x + 2147483648) % 4294967296 - 2147483648

/-- Two's-complement reduction to `int64`. -/
def wrap64 (x : Int) : Int :=
  (x + 9223372036854775808) % 18446744073709551616 - 9223372036854775808

/-- The `int32` range. -/
def isInt32 (x : Int) : Prop := -2147483648 ≤ x ∧ x ≤ 2147483647

instance (x : Int) : Decidable (isInt32 x) :=
  inferInstanceAs (Decidable (-2147483648 ≤ x ∧ x ≤ 2147483647))

/-- The ASCII bytes of a string literal. -/
def ascii (s : String) : List Nat := s.toList.map Char.toNat

/-! ## `strconv` -/

/-- The errors of `strconv`: `ErrSyntax` and `ErrRange`. -/
inductive NumError where
  | errSyntax
  | errRange
  deriving DecidableEq, Repr

/-- The digit table `"0123456789abcdefghijklmnopqrstuvwxyz"[d]`. -/
def digitByte (d : Nat) : Nat := if d < 10 then 48 + d else 87 + d

/-- The general-case loop of `strconv.formatBits` for base 36, the buffer being
filled from its end:
`for u >= b { i--; q := u / b; a[i] = digits[u-q*b]; u = q }; i--; a[i] = digits[u]`.
The first argument bounds the number of iterations. -/
def formatBits : Nat → Nat → List Nat → List Nat
  | 0, u, acc => digitByte u :: acc
  | fuel + 1, u, acc =>
    if 36 ≤ u then formatBits fuel (u / 36) (digitByte (u - u / 36 * 36) :: acc)
    else digitByte u :: acc

/-- `strconv.FormatInt(i, 36)` for an `int64` value: the digits of `|i|`,
preceded by `-` when `i` is negative. -/
def FormatInt (i : Int) : List Nat :=
  if i < 0 then 45 :: formatBits 64 (-i).toNat [] else formatBits 64 i.toNat []

/-- `lower(c)` of `strconv`: `c | ('x' - 'X')` on a byte. -/
def lower (c : Nat) : Nat := c ||| 32

/-- The digit switch of `strconv.ParseUint`: `c - '0'` for a decimal digit,
`lower(c) - 'a' + 10` for a letter of either case, `none` for the default
branch (a syntax error). -/
def digitVal (c : Nat) : Option Nat :=
  if 48 ≤ c ∧ c ≤ 57 then some (c - 48)
  else if 97 ≤ lower c ∧ lower c ≤ 122 then some (lower c - 97 + 10)
  else none

/-- The loop of `strconv.ParseUint(s, 36, 64)` over the bytes of `s`;
`cutoff = maxUint64/36 + 1` and `maxVal = 1<<64 - 1`. -/
def parseUintLoop : List Nat → Nat → Except NumError Nat
  | [], n => .ok n
  | c :: cs, n =>
    match digitVal c with
    | none => .error .errSyntax
    | some d =>
      if 36 ≤ d then .error .errSyntax
      else if 18446744073709551615 / 36 + 1 ≤ n then .error .errRange
      else
        let n36 := n * 36 % 18446744073709551616
        let n1 := (n36 + d) % 18446744073709551616
        if n1 < n36 ∨ 18446744073709551615 < n1 then .error .errRange
        else parseUintLoop cs n1

/-- `strconv.ParseUint(s, 36, 64)`. -/
def ParseUint (s : List Nat) : Except NumError Nat :=
  if s = [] then .error .errSyntax else parseUintLoop s 0

/-- `strconv.ParseInt(s, 36, 64)`: an optional sign, then `ParseUint`, then
the range check against `1 << 63`. -/
def ParseInt (s : List Nat) : Except NumError Int :=
  match s with
  | [] => .error .errSyntax
  | c :: cs =>
    let neg := c = 45
    let body := if c = 43 ∨ c = 45 then cs else s
    match ParseUint body with
    | .error e => .error e
    | .ok un =>
      if ¬ neg ∧ 9223372036854775808 ≤ un then .error .errRange
      else if neg ∧ 9223372036854775808 < un then .error .errRange
      else if neg then .ok (-(un : Int)) else .ok (un : Int)

/-- The big-endian base-36 value of a digit list, continuing from `n`. -/
def beVal (n : Nat) (ds : List Nat) : Nat := ds.foldl (fun a d => a * 36 + d) n

/-! ## `encoding/binary` varints -/

/-- `binary.PutUvarint(buf, x)`, by recursion on the part of the buffer not yet
written: `for x >= 0x80 { buf[i] = byte(x) | 0x80; x >>= 7; i++ }; buf[i] = byte(x)`.
`none` is the index-out-of-range panic of a buffer that is too short. -/
def PutUvarint : List Nat → Nat → Option (List Nat)
  | [], _ => none
  | _ :: rest, x =>
    if 128 ≤ x then (PutUvarint rest (x >>> 7)).map (fun r => (x % 256 ||| 128) :: r)
    else some (x % 256 :: rest)

/-- `binary.PutVarint(buf, x)`: zig-zag, then `PutUvarint`:
`ux := uint64(x) << 1; if x < 0 { ux = ^ux }`. -/
def PutVarint (buf : List Nat) (x : Int) : Option (List Nat) :=
  let ux : Nat := (x % 18446744073709551616).toNat * 2 % 18446744073709551616
  PutUvarint buf (if x < 0 then 18446744073709551615 - ux else ux)

/-- The loop of `binary.Uvarint(buf)` from index `i`, with the accumulated
value `x` and shift `s`; the result is `0` on overflow and on a buffer that
ends inside a value. -/
def uvarintLoop : List Nat → Nat → Nat → Nat → Nat
  | [], _, _, _ => 0
  | b :: rest, i, x, s =>
    if i = 10 then 0
    else if b < 128 then
      if i = 9 ∧ 1 < b then 0 else x ||| (b <<< s) % 18446744073709551616
    else uvarintLoop rest (i + 1) (x ||| ((b &&& 127) <<< s) % 18446744073709551616) (s + 7)

/-- `binary.Uvarint(buf)`, the value only. -/
def Uvarint (buf : List Nat) : Nat := uvarintLoop buf 0 0 0

/-- `binary.Varint(buf)`, the value only:
`x := int64(ux >> 1); if ux&1 != 0 { x = ^x }`. -/
def Varint (buf : List Nat) : Int :=
  let ux := Uvarint buf
  let x : Int := wrap64 ((ux >>> 1 : Nat) : Int)
  if ux &&& 1 ≠ 0 then -x - 1 else x

/-- The sub-slice `b[lo:hi]`. -/
def slice (b : List Nat) (lo hi : Nat) : List Nat := (b.drop lo).take (hi - lo)

/-- The array `b` after the sub-slice `b[lo:hi]` has been overwritten by `f`. -/
def splice (b : List Nat) (lo hi : Nat) (f : List Nat) : List Nat :=
  b.take lo ++ f ++ b.drop hi

/-- `time.Duration(t.UnixNano()).Milliseconds()` for a time given by its Unix
nanoseconds: division by `1e6`, truncated toward zero. -/
def milliseconds (unixNano : Int) : Int := Int.tdiv unixNano 1000000

/-- `time.Unix(0, t*1e6).UnixNano()`: the `int64` product. -/
def unixNanoOfMillis (t : Int) : Int := wrap64 (t * 1000000)

end Go

/-! ## `vendor/github.com/ntwrk1/guid` -/

namespace guid

open Go

def byteSize : Nat := 26
def blockSize : Nat := 4
def tsStart : Nat := 2
def tsEnd : Nat := tsStart + 2 * blockSize
def fpStart : Nat := tsEnd
def fpEnd : Nat := fpStart + blockSize
def icStart : Nat := fpEnd
def icEnd : Nat := icStart + blockSize
def dcStart : Nat := icEnd
def dcEnd : Nat := dcStart + blockSize
def rdStart : Nat := dcEnd
def rdEnd : Nat := rdStart + blockSize
def maxInt : Int := 1679616
def i32Buff : Nat := 1048576

/-- The type `GUID [byteSize]byte`, as the list of its bytes. -/
abbrev GUID := List Nat

/-- The zero value `GUID{}`. -/
def GUID.zero : GUID := List.replicate byteSize 0

/-- The errors returned by the package: one per `fmt.Errorf` site, and the
error of the random source handed through by `Generate`. -/
inductive Error where
  | badLength
  | badTime (e : NumError)
  | badFingerprint (e : NumError)
  | badIncr (e : NumError)
  | badDecr (e : NumError)
  | badRandom (e : NumError)
  | jsonTooShort
  | jsonParse (e : Error)
  | reader (msg : String)
  deriving DecidableEq, Repr

/-- A `GUID` given by its six fields: prefix, timestamp, fingerprint,
increasing counter, decreasing counter, random. -/
def GUID.mk6 (p t f i d r : List Nat) : GUID := p ++ t ++ f ++ i ++ d ++ r

/-- The widths of the six fields of a `GUID`. -/
def Widths (p t f i d r : List Nat) : Prop :=
  p.length = 2 ∧ t.length = 8 ∧ f.length = 4 ∧ i.length = 4 ∧ d.length = 4 ∧ r.length = 4

/-- The function `filter(v int32) int64`. -/
def filter (v : Int) : Int :=
  let v := if v < 0 then wrap32 (-v) else v
  if maxInt ≤ v then Int.tmod v maxInt else v

/-- The function `leftPad(in string, size int) string`. -/
def leftPad (inp : List Nat) (size : Nat) : List Nat :=
  let l := inp.length
  if size ≤ l ∨ size ≤ 0 then inp else List.replicate (size - l) 48 ++ inp

/-- The function `isValidPrefixByte`. -/
def isValidPrefixByte (b : Nat) : Bool := (48 ≤ b && b ≤ 57) || (97 ≤ b && b ≤ 122)

/-- The method `GUID.PrefixBytes`. -/
def GUID.PrefixBytes (g : GUID) : Nat × Nat := (g.getD 0 0, g.getD 1 0)

/-- The method `GUID.SetTime`, the time being given by its Unix nanoseconds. -/
def GUID.SetTime (g : GUID) (unixNano : Int) : Option GUID :=
  (PutVarint (slice g tsStart tsEnd) (milliseconds unixNano)).map (splice g tsStart tsEnd)

/-- The method `GUID.SetFingerprint`. -/
def GUID.SetFingerprint (g : GUID) (v : Int) : Option GUID :=
  (PutVarint (slice g fpStart fpEnd) (filter v)).map (splice g fpStart fpEnd)

/-- The method `GUID.Fingerprint`. -/
def GUID.Fingerprint (g : GUID) : Int := wrap32 (Varint (slice g fpStart fpEnd))

/-- The method `GUID.SetCounters`. -/
def GUID.SetCounters (g : GUID) (incr decr : Int) : Option GUID :=
  ((PutVarint (slice g icStart icEnd) (filter incr)).map (splice g icStart icEnd)).bind
    fun g => (PutVarint (slice g dcStart dcEnd) (filter decr)).map (splice g dcStart dcEnd)

/-- The method `GUID.Counters`. -/
def GUID.Counters (g : GUID) : Int × Int :=
  (wrap32 (Varint (slice g icStart icEnd)), wrap32 (Varint (slice g dcStart dcEnd)))

/-- The method `GUID.SetRandom`. -/
def GUID.SetRandom (g : GUID) (v : Int) : Option GUID :=
  (PutVarint (slice g rdStart rdEnd) (filter v)).map (splice g rdStart rdEnd)

/-- The method `GUID.Random`. -/
def GUID.Random (g : GUID) : Int := wrap32 (Varint (slice g rdStart rdEnd))

/-- The method `GUID.String`. -/
def GUID.String (g : GUID) : List Nat :=
  let nanos := Varint (slice g tsStart tsEnd)
  let fingerprint := Varint (slice g fpStart fpEnd)
  let incr := Varint (slice g icStart icEnd)
  let decr := Varint (slice g dcStart dcEnd)
  let random := Varint (slice g rdStart rdEnd)
  slice g 0 2
    ++ leftPad (FormatInt nanos) (blockSize * 2)
    ++ leftPad (FormatInt fingerprint) blockSize
    ++ leftPad (FormatInt incr) blockSize
    ++ leftPad (FormatInt decr) blockSize
    ++ leftPad (FormatInt random) blockSize

/-- The function `Parse(in []byte) (GUID, error)`; the outer `none` is a panic
of one of the setters. -/
def Parse (inp : List Nat) : Option (GUID × Option Error) :=
  if inp.length ≠ byteSize then some (GUID.zero, some .badLength) else
  let g := (GUID.zero.set 0 (inp.getD 0 0)).set 1 (inp.getD 1 0)
  match ParseInt (slice inp tsStart tsEnd) with
  | .error e => some (GUID.zero, some (.badTime e))
  | .ok t =>
  (GUID.SetTime g (unixNanoOfMillis t)).bind fun g =>
  match ParseInt (slice inp fpStart fpEnd) with
  | .error e => some (GUID.zero, some (.badFingerprint e))
  | .ok fp =>
  (GUID.SetFingerprint g (wrap32 fp)).bind fun g =>
  match ParseInt (slice inp icStart icEnd) with
  | .error e => some (GUID.zero, some (.badIncr e))
  | .ok incr =>
  match ParseInt (slice inp dcStart dcEnd) with
  | .error e => some (GUID.zero, some (.badDecr e))
  | .ok decr =>
  (GUID.SetCounters g (wrap32 incr) (wrap32 decr)).bind fun g =>
  match ParseInt (slice inp rdStart rdEnd) with
  | .error e => some (GUID.zero, some (.badRandom e))
  | .ok r =>
  (GUID.SetRandom g (wrap32 r)).bind fun g => some (g, none)

/-- The function `ParseString`. -/
def ParseString (s : List Nat) : Option (GUID × Option Error) := Parse s

/-- The method `GUID.MarshalJSON`; `none` is the panic of `s[i]` on a string
shorter than `byteSize`. -/
def GUID.MarshalJSON (g : GUID) : Option (List Nat × Option Error) :=
  let s := GUID.String g
  if s.length < byteSize then none else some (34 :: s.take byteSize ++ [34], none)

/-- The method `(*GUID).UnmarshalJSON`: the receiver after the call and the
error returned. -/
def GUID.UnmarshalJSON (g : GUID) (b : List Nat) : Option (GUID × Option Error) :=
  let lb := b.length
  if lb ≤ 1 then some (g, some .jsonTooShort) else
  (Parse (slice b 1 (lb - 1))).map fun r =>
    match r with
    | (_, some e) => (g, some (.jsonParse e))
    | (gg, none) => (gg, none)

/-- The method `GUID.MarshalBinary`. -/
def GUID.MarshalBinary (g : GUID) : List Nat × Option Error := (g, none)

/-- The method `(*GUID).UnmarshalBinary`: the receiver after the call and the
error returned. -/
def GUID.UnmarshalBinary (g : GUID) (data : List Nat) : Option (GUID × Option Error) :=
  (Parse data).map fun r =>
    match r with
    | (_, some e) => (g, some e)
    | (gg, none) => (gg, none)

/-- The method `GUID.GobEncode`. -/
def GUID.GobEncode (g : GUID) : List Nat × Option Error := GUID.MarshalBinary g

/-- The method `(*GUID).GobDecode`. -/
def GUID.GobDecode (g : GUID) (data : List Nat) : Option (GUID × Option Error) :=
  GUID.UnmarshalBinary g data

/-- The value `TestGUID`. -/
def TestGUID : GUID :=
  [0x74, 0x65,
   0xa8, 0xd9, 0xac, 0xde, 0xb2, 0x83, 0x1, 0x0,
   0xda, 0xc0, 0xa7, 0x1,
   0xc8, 0xd3, 0x4, 0x0,
   0xc4, 0xa5, 0xa5, 0x1,
   0xa0, 0x87, 0xa4, 0x1]

/-- The outcome of one `Read(b[:])` on the random source: the buffer after the
call and the error returned. -/
abbrev ReadResult := List Nat × Option String

/-- The unsigned 32-bit pattern of an `int32`. -/
def toU32 (x : Int) : Nat := (x % 4294967296).toNat

/-- The operator `^` on `int32`. -/
def xor32 (a b : Int) : Int := wrap32 ((toU32 a ^^^ toU32 b : Nat) : Int)

/-- The function `randomInt32(reader io.Reader) (int32, error)`. -/
def randomInt32 (rd : ReadResult) : Int × Option Error :=
  match rd.2 with
  | some msg => (0, some (.reader msg))
  | none =>
    let b := fun i => rd.1.getD i 0
    let s0 : Int := (((b 0 + b 1 + b 2 + b 3 + b 4 + b 5 + b 6 + b 7) % 256 ||| i32Buff : Nat) : Int)
    let s1 : Int :=
      (((b 8 + b 9 + b 10 + b 11 + b 12 + b 13 + b 14 + b 15) % 256 ||| i32Buff : Nat) : Int)
    let s1 := xor32 s1 (wrap32 (s1 * 2 ^ 17))
    let s1 := xor32 (xor32 (xor32 s1 s0) (s1 / 2 ^ 7)) (s0 / 2 ^ 16)
    (wrap32 (s0 + Int.tmod s1 maxInt), none)

/-- The state of a `stdGenerator`; its random source and clock are given to
`Generate` as the values they yield during the call. -/
structure stdGenerator where
  Fingerprint : Int
  IncrCounter : Int
  DecrCounter : Int
  deriving DecidableEq, Repr

/-- The method `(*stdGenerator).Generate`: the generator after the call, and
the returned pair, `none` being a panic of one of the setters. `now` is the
Unix time in nanoseconds read from `g.Now()`, `rd` the outcome of the read on
`g.Random`, `globalPrefix` the package variable. -/
def stdGenerator.Generate (g : stdGenerator) (now : Int) (rd : ReadResult)
    (globalPrefix : Nat × Nat) : stdGenerator × Option (GUID × Option Error) :=
  let incr := g.IncrCounter
  let ic := wrap32 (g.IncrCounter + 1)
  let g := { g with IncrCounter := if maxInt < ic then 0 else ic }
  match randomInt32 rd with
  | (_, some err) => (g, some (GUID.zero, some err))
  | (r, none) =>
    let decr := g.DecrCounter
    let dc := wrap32 (g.DecrCounter - 1)
    let g := { g with DecrCounter := if dc < 0 then wrap32 maxInt else dc }
    let v := (((GUID.SetTime GUID.zero now).bind fun v => GUID.SetCounters v incr decr).bind
      fun v => GUID.SetFingerprint v g.Fingerprint).bind fun v => GUID.SetRandom v r
    (g, v.map fun v => ((v.set 0 globalPrefix.1).set 1 globalPrefix.2, none))

end guid

/-! ## `pkg/cuid` -/

namespace cuid

open Go

def prefixByte : Nat := 99
def padding : List Nat := List.replicate 9 48
def blockSize : Nat := 4
def maxInt : Int := 1679616

/-- The type `CUID [25]byte`, as the list of its bytes. -/
abbrev CUID := List Nat

/-- The zero value `CUID{}`. -/
def CUID.zero : CUID := List.replicate 25 0

/-- The errors returned by the package: one per `fmt.Errorf` site, and the
error of the random source handed through by `Generate`. -/
inductive Error where
  | badLength (got : Nat)
  | badPrefix (got : Nat)
  | badTime (e : NumError)
  | badCounter (e : NumError)
  | badFingerprint (e : NumError)
  | badRandom (e : NumError)
  | reader (msg : String)
  deriving DecidableEq, Repr

/-- The function `leftpad(value string, size int) string`; `none` is the panic
of the slice expression `value[len(value)-size:]` with a negative bound. -/
def leftpad (value : List Nat) (size : Nat) : Option (List Nat) :=
  if value.length = size then some value else
  let value := if value.length < size then padding ++ value else value
  if value.length < size then none else some (value.drop (value.length - size))

/-- The method `CUID.SetTime`, the time being given by its Unix nanoseconds. -/
def CUID.SetTime (c : CUID) (unixNano : Int) : Option CUID :=
  (PutVarint (slice c 1 9) (milliseconds unixNano)).map (splice c 1 9)

/-- The method `CUID.Time`, as Unix nanoseconds: `time.Unix(0, msec*1e6)`. -/
def CUID.Time (c : CUID) : Int := unixNanoOfMillis (Varint (slice c 1 9))

/-- The method `CUID.Counter`. -/
def CUID.Counter (c : CUID) : Int := wrap32 (Varint (slice c 9 13))

/-- The method `CUID.SetCounter`. -/
def CUID.SetCounter (c : CUID) (v : Int) : Option CUID :=
  (PutVarint (slice c 9 13) v).map (splice c 9 13)

/-- The method `CUID.Fingerprint`. -/
def CUID.Fingerprint (c : CUID) : Int := wrap32 (Varint (slice c 13 17))

/-- The method `CUID.SetFingerprint`. -/
def CUID.SetFingerprint (c : CUID) (v : Int) : Option CUID :=
  (PutVarint (slice c 13 17) v).map (splice c 13 17)

/-- The method `CUID.Random`. -/
def CUID.Random (c : CUID) : Int × Int :=
  (wrap32 (Varint (slice c 17 21)), wrap32 (Varint (slice c 21 25)))

/-- The method `CUID.SetRandom`. -/
def CUID.SetRandom (c : CUID) (first second : Int) : Option CUID :=
  ((PutVarint (slice c 17 21) first).map (splice c 17 21)).bind
    fun c => (PutVarint (slice c 21 25) second).map (splice c 21 25)

/-- The method `CUID.String`; `none` is a panic of `leftpad`. -/
def CUID.String (c : CUID) : Option (List Nat) :=
  let nanos := Varint (slice c 1 9)
  let counter := Varint (slice c 9 13)
  let fingerprint := Varint (slice c 13 17)
  let rand1 := Varint (slice c 17 21)
  let rand2 := Varint (slice c 21 25)
  (leftpad (FormatInt nanos) (blockSize * 2)).bind fun s1 =>
  (leftpad (FormatInt counter) blockSize).bind fun s2 =>
  (leftpad (FormatInt fingerprint) blockSize).bind fun s3 =>
  (leftpad (FormatInt rand1) blockSize).bind fun s4 =>
  (leftpad (FormatInt rand2) blockSize).bind fun s5 =>
  some (ascii "c" ++ s1 ++ s2 ++ s3 ++ s4 ++ s5)

/-- The function `ParseBytes(b []byte) (CUID, error)`; the outer `none` is a
panic of one of the setters. -/
def ParseBytes (b : List Nat) : Option (CUID × Option Error) :=
  if b.length ≠ 25 then some (CUID.zero, some (.badLength b.length)) else
  if b.getD 0 0 ≠ prefixByte then some (CUID.zero, some (.badPrefix (b.getD 0 0))) else
  let c := CUID.zero.set 0 prefixByte
  match ParseInt (slice b 1 9) with
  | .error e => some (CUID.zero, some (.badTime e))
  | .ok t =>
  (CUID.SetTime c (unixNanoOfMillis t)).bind fun c =>
  match ParseInt (slice b 9 13) with
  | .error e => some (CUID.zero, some (.badCounter e))
  | .ok counter =>
  (CUID.SetCounter c (wrap32 counter)).bind fun c =>
  match ParseInt (slice b 13 17) with
  | .error e => some (CUID.zero, some (.badFingerprint e))
  | .ok fprint =>
  (CUID.SetFingerprint c (wrap32 fprint)).bind fun c =>
  match ParseInt (slice b 17 21) with
  | .error e => some (CUID.zero, some (.badRandom e))
  | .ok rand1 =>
  match ParseInt (slice b 21 25) with
  | .error e => some (CUID.zero, some (.badRandom e))
  | .ok rand2 =>
  (CUID.SetRandom c (wrap32 rand1) (wrap32 rand2)).bind fun c => some (c, none)

/-- The function `ParseString`. -/
def ParseString (s : List Nat) : Option (CUID × Option Error) := ParseBytes s

/-- The function `IsCUID`; `none` is a panic inside `ParseString`. -/
def IsCUID (s : List Nat) : Option Bool := (ParseString s).map fun r => r.2.isNone

/-- The outcome of one `Read(b)` on the random source: the buffer after the
call and the error returned. -/
abbrev ReadResult := List Nat × Option String

/-- The method `(*Generator).randomInt32`: the four bytes read are decoded
with `binary.Varint`. -/
def randomInt32 (rd : ReadResult) : Int × Option Error :=
  match rd.2 with
  | some msg => (0, some (.reader msg))
  | none =>
    let v := Varint (rd.1.take 4)
    let v := if v < 0 then wrap64 (-v) else v
    (wrap32 (wrap64 (v * maxInt) / 2 ^ 32), none)

/-- The state of a `Generator`; its random source and clock are given to
`Generate` as the values they yield during the call. -/
structure Generator where
  Fingerprint : Int
  Counter : Int
  deriving DecidableEq, Repr

/-- The method `(*Generator).Generate`: the generator after the call, and the
returned pair, `none` being a panic of one of the setters. `now` is the Unix
time in nanoseconds read from `g.Now()`, `rd1` and `rd2` the outcomes of the
two reads on `g.Random` (the second is not made when the first fails). -/
def Generator.Generate (g : Generator) (now : Int) (rd1 rd2 : ReadResult) :
    Generator × Option (CUID × Option Error) :=
  let c := g.Counter
  let n := wrap32 (g.Counter + 1)
  let g := { g with Counter := if maxInt < n then 0 else n }
  match randomInt32 rd1 with
  | (_, some err) => (g, some (CUID.zero, some err))
  | (rand1, none) =>
  match randomInt32 rd2 with
  | (_, some err) => (g, some (CUID.zero, some err))
  | (rand2, none) =>
    let v := (((CUID.SetTime CUID.zero now).bind fun v => CUID.SetCounter v c).bind
      fun v => CUID.SetFingerprint v g.Fingerprint).bind fun v => CUID.SetRandom v rand1 rand2
    (g, v.map fun v => (v.set 0 prefixByte, none))

/-- The counters a generator can hold after any number of `Generate` calls on
a generator created with `Counter: 0`. -/
inductive CounterReached : Int → Prop where
  | init : CounterReached 0
  | step (g : Generator) (now : Int) (rd1 rd2 : ReadResult) :
      CounterReached g.Counter → CounterReached (g.Generate now rd1 rd2).1.Counter

end cuid

/-! ## Fixed-width base-36 text, package variables, successive calls -/

namespace Go

/-- The `w` low-order base-36 digits of `v`, most significant first. -/
def digitsFixed : Nat → Nat → List Nat
  | 0, _ => []
  | w + 1, v => digitsFixed w (v / 36) ++ [v % 36]

/-- The `w`-character base-36 text of `v`: its `w` low-order digits, most
significant first, over the alphabet `0-9a-z`. -/
def base36 (w v : Nat) : List Nat := (digitsFixed w v).map digitByte

end Go

namespace guid

open Go

/-- The package variables `globalPrefix` and `prefixOnce`; of the `sync.Once`,
whether `Do` has already been entered. -/
structure Globals where
  globalPrefix : Nat × Nat
  prefixOnce : Bool
  deriving DecidableEq, Repr

/-- The package variables at start-up: `globalPrefix = [2]byte{'n', 'w'}`. -/
def Globals.init : Globals := ⟨(110, 119), false⟩

/-- The function `SetGlobalPrefixBytes`: the package variables after the call
and whether the call panicked. `prefixOnce.Do` runs its function on the first
call only, and counts a call whose function panics as done. -/
def SetGlobalPrefixBytes (s : Globals) (b1 b2 : Nat) : Globals × Bool :=
  if s.prefixOnce then (s, false)
  else if !(isValidPrefixByte b1 && isValidPrefixByte b2) then
    ({ s with prefixOnce := true }, true)
  else ({ globalPrefix := (b1, b2), prefixOnce := true }, false)

/-- The package variables after a sequence of `SetGlobalPrefixBytes` calls,
each made in the state its predecessor left (a panic being recovered). -/
def setPrefixCalls (s : Globals) : List (Nat × Nat) → Globals
  | [] => s
  | b :: rest => setPrefixCalls (SetGlobalPrefixBytes s b.1 b.2).1 rest

/-- Successive `Generate` calls on one generator, each given its clock reading
and the outcome of its read: the pairs returned, in order. -/
def GenerateAll (globalPrefix : Nat × Nat) :
    stdGenerator → List (Int × ReadResult) → List (Option (GUID × Option Error))
  | _, [] => []
  | g, c :: rest =>
    (g.Generate c.1 c.2 globalPrefix).2 ::
      GenerateAll globalPrefix (g.Generate c.1 c.2 globalPrefix).1 rest

/-- The increasing-counter block of the text of a returned GUID. -/
def incrText (r : Option (GUID × Option Error)) : Option (List Nat) :=
  r.map fun v => slice (GUID.String v.1) icStart icEnd

end guid

namespace cuid

open Go

/-- A `CUID` given by its six fields: prefix byte, timestamp, counter,
fingerprint, first and second random value. -/
def CUID.mk6 (p t c f r1 r2 : List Nat) : CUID := p ++ t ++ c ++ f ++ r1 ++ r2

/-- The widths of the six fields of a `CUID`. -/
def Widths (p t c f r1 r2 : List Nat) : Prop :=
  p.length = 1 ∧ t.length = 8 ∧ c.length = 4 ∧ f.length = 4 ∧ r1.length = 4 ∧ r2.length = 4

/-- Successive `Generate` calls on one generator, each given its clock reading
and the outcomes of its two reads: the pairs returned, in order. -/
def GenerateAll : Generator → List (Int × ReadResult × ReadResult) →
    List (Option (CUID × Option Error))
  | _, [] => []
  | g, c :: rest =>
    (g.Generate c.1 c.2.1 c.2.2).2 :: GenerateAll (g.Generate c.1 c.2.1 c.2.2).1 rest

/-- The counter block of the text of a returned CUID. -/
def counterText (r : Option (CUID × Option Error)) : Option (List Nat) :=
  r.bind fun v => (CUID.String v.1).map fun s => slice s 9 13

end cuid

/-! ## Slug, and the reduction of a 32-bit integer -/

namespace cuid

open Go

/-- The method `CUID.Slug`; `none` is the panic of a slice expression whose
bound is out of range (`nanosStr[len(nanosStr)-2:]` on a text of one
character, `fingerprintStr[0:1]` on an empty one). -/
def CUID.Slug (c : CUID) : Option (List Nat) :=
  let nanos := Varint (slice c 1 9)
  let counter := Varint (slice c 9 13)
  let fingerprint := Varint (slice c 13 17)
  let rand1 := Varint (slice c 17 21)
  let nanosStr := FormatInt nanos
  if nanosStr.length < 2 then none else
  let nanosStr := nanosStr.drop (nanosStr.length - 2)
  let counterStr := FormatInt counter
  let counterStr := if 4 < counterStr.length then counterStr.drop (counterStr.length - 4)
    else counterStr
  let fingerprintStr := FormatInt fingerprint
  if fingerprintStr.length < 1 then none else
  let fingerprintStr := fingerprintStr.take 1 ++ fingerprintStr.drop (fingerprintStr.length - 1)
  let randStr := FormatInt rand1
  let randStr := if 2 < randStr.length then randStr.drop (randStr.length - 2) else randStr
  some (nanosStr ++ counterStr ++ fingerprintStr ++ randStr)

/-- In the words of the specification, not of the code: the signed 32-bit
integer whose four bytes are `b`, least significant byte first. -/
def int32LittleEndian (b : List Nat) : Int :=
  wrap32 ((b.getD 0 0 + 256 * b.getD 1 0 + 65536 * b.getD 2 0 + 16777216 * b.getD 3 0 : Nat) : Int)

/-- In the words of the specification, not of the code: the signed 32-bit
integer whose four bytes are `b`, most significant byte first. -/
def int32BigEndian (b : List Nat) : Int :=
  wrap32 ((16777216 * b.getD 0 0 + 65536 * b.getD 1 0 + 256 * b.getD 2 0 + b.getD 3 0 : Nat) : Int)

/-- In the words of the specification, not of the code: the multiply-shift
reduction `(abs(v) * maxInt) >> 32`. -/
def multiplyShift (v : Int) : Int := (v.natAbs : Int) * maxInt / 2 ^ 32

end cuid

/-! # Theorems

## The library routines -/

namespace Go

theorem wrap32_eq {x : Int} (h : isInt32 x) : wrap32 x = x := by
  unfold isInt32 at h; unfold wrap32; omega

theorem wrap64_eq {x : Int} (h1 : -9223372036854775808 ≤ x) (h2 : x ≤ 9223372036854775807) :
    wrap64 x = x := by
  unfold wrap64; omega

theorem beVal_nil (n : Nat) : beVal n [] = n := rfl

theorem beVal_cons (n d : Nat) (ds : List Nat) : beVal n (d :: ds) = beVal (n * 36 + d) ds := rfl

theorem beVal_append (n : Nat) (xs ys : List Nat) :
    beVal n (xs ++ ys) = beVal (beVal n xs) ys := by
  simp [beVal, List.foldl_append]

theorem le_beVal (ds : List Nat) : ∀ n, n ≤ beVal n ds := by
  induction ds with
  | nil => intro n; simp [beVal]
  | cons d ds ih =>
    intro n
    have := ih (n * 36 + d)
    rw [beVal_cons]; omega

theorem beVal_replicate_zero (k : Nat) : beVal 0 (List.replicate k 0) = 0 := by
  induction k with
  | zero => rfl
  | succ k ih => rw [List.replicate_succ, beVal_cons]; simpa using ih

theorem digitVal_digitByte : ∀ d < 36, digitVal (digitByte d) = some d := by decide

theorem digitByte_ne_sign : ∀ d < 36, digitByte d ≠ 43 ∧ digitByte d ≠ 45 := by decide

theorem formatBits_spec (fuel : Nat) : ∀ (u : Nat) (acc : List Nat), u < 36 ^ (fuel + 1) →
    ∃ ds : List Nat, formatBits fuel u acc = ds.map digitByte ++ acc ∧ (∀ d ∈ ds, d < 36) ∧
      beVal 0 ds = u ∧ 1 ≤ ds.length ∧ ∀ w, 1 ≤ w → u < 36 ^ w → ds.length ≤ w := by
  induction fuel with
  | zero =>
    intro u acc hu
    refine ⟨[u], by simp [formatBits], ?_, by simp [beVal], by simp, ?_⟩
    · intro d hd; simp at hd; subst hd; simpa using hu
    · intro w hw _; simpa using hw
  | succ fuel ih =>
    intro u acc hu
    by_cases h36 : 36 ≤ u
    · have hq : u / 36 < 36 ^ (fuel + 1) := by
        rw [Nat.div_lt_iff_lt_mul (by norm_num)]
        calc u < 36 ^ (fuel + 1 + 1) := hu
          _ = 36 ^ (fuel + 1) * 36 := by rw [pow_succ]
      obtain ⟨ds, h1, h2, h3, h4, h5⟩ := ih (u / 36) (digitByte (u - u / 36 * 36) :: acc) hq
      refine ⟨ds ++ [u - u / 36 * 36], ?_, ?_, ?_, ?_, ?_⟩
      · simp [formatBits, h36, h1]
      · intro d hd
        rcases List.mem_append.1 hd with h | h
        · exact h2 d h
        · simp at h; omega
      · rw [beVal_append, h3, beVal_cons, beVal_nil]; omega
      · simp
      · intro w hw huw
        have hw2 : 2 ≤ w := by
          by_contra hlt
          have : w = 1 := by omega
          subst this; simp at huw; omega
        obtain ⟨k, rfl⟩ : ∃ k, w = k + 1 := ⟨w - 1, by omega⟩
        have : u / 36 < 36 ^ k := by
          rw [Nat.div_lt_iff_lt_mul (by norm_num)]
          calc u < 36 ^ (k + 1) := huw
            _ = 36 ^ k * 36 := by rw [pow_succ]
        have := h5 k (by omega) this
        simp; omega
    · refine ⟨[u], by simp [formatBits, h36], ?_, by simp [beVal], by simp, ?_⟩
      · intro d hd; simp at hd; omega
      · intro w hw _; simpa using hw

theorem parseUintLoop_digits (ds : List Nat) : ∀ n, (∀ d ∈ ds, d < 36) →
    beVal n ds < 18446744073709551616 →
    parseUintLoop (ds.map digitByte) n = .ok (beVal n ds) := by
  induction ds with
  | nil => intro n _ _; rfl
  | cons d ds ih =>
    intro n hd hv
    have hd36 : d < 36 := hd d (by simp)
    rw [beVal_cons] at hv ⊢
    have hle := le_beVal ds (n * 36 + d)
    have e1 : n * 36 % 18446744073709551616 = n * 36 := by omega
    have e2 : (n * 36 + d) % 18446744073709551616 = n * 36 + d := by omega
    have := ih (n * 36 + d) (fun x hx => hd x (by simp [hx])) hv
    simp only [List.map_cons, parseUintLoop, digitVal_digitByte d hd36, e1, e2]
    rw [if_neg (by omega), if_neg (by omega), if_neg (by omega)]
    exact this

end Go
namespace Go

theorem ParseInt_digits (ds : List Nat) (hne : ds ≠ []) (hd : ∀ d ∈ ds, d < 36)
    (hv : beVal 0 ds < 9223372036854775808) :
    ParseInt (ds.map digitByte) = .ok (beVal 0 ds : Int) := by
  obtain ⟨d, rest, rfl⟩ := List.exists_cons_of_ne_nil hne
  have hd36 : d < 36 := hd d (by simp)
  have hs := digitByte_ne_sign d hd36
  have hp := parseUintLoop_digits (d :: rest) 0 hd (by omega)
  simp only [List.map_cons] at hp
  simp only [List.map_cons, ParseInt, ParseUint, hs.1, hs.2, or_self, if_false]
  rw [if_neg (by simp), hp]
  simp only [eq_self_iff_true, not_false_eq_true, true_and, false_and, if_false]
  rw [if_neg (by omega)]

/-- The digits printed by `FormatInt` for a value below `36 ^ 13`. -/
theorem FormatInt_spec (v : Int) (h0 : 0 ≤ v) (hv : v < 36 ^ 13) :
    ∃ ds : List Nat, FormatInt v = ds.map digitByte ∧ (∀ d ∈ ds, d < 36) ∧
      (beVal 0 ds : Int) = v ∧ 1 ≤ ds.length ∧ ∀ w, 1 ≤ w → v < 36 ^ w → ds.length ≤ w := by
  have hlt : v.toNat < 36 ^ (64 + 1) := by
    have h1 : v.toNat < 36 ^ 13 := by
      have : ((v.toNat : Nat) : Int) < ((36 ^ 13 : Nat) : Int) := by
        rw [Int.toNat_of_nonneg h0]; exact_mod_cast hv
      exact_mod_cast this
    exact lt_of_lt_of_le h1 (Nat.pow_le_pow_right (by norm_num) (by norm_num))
  obtain ⟨ds, h1, h2, h3, h4, h5⟩ := formatBits_spec 64 v.toNat [] hlt
  refine ⟨ds, ?_, h2, ?_, h4, ?_⟩
  · simp [FormatInt, not_lt.2 h0, h1]
  · rw [h3, Int.toNat_of_nonneg h0]
  · intro w hw hvw
    apply h5 w hw
    have : ((v.toNat : Nat) : Int) < ((36 ^ w : Nat) : Int) := by
      rw [Int.toNat_of_nonneg h0]; exact_mod_cast hvw
    exact_mod_cast this

end Go

namespace guid
open Go

/-- An in-band value is printed by `leftPad (FormatInt v) w` on exactly `w`
characters, which `ParseInt` reads back as `v`. -/
theorem leftPad_FormatInt (v : Int) (w : Nat) (hw1 : 1 ≤ w) (hw : w ≤ 12) (h0 : 0 ≤ v)
    (hv : v < 36 ^ w) :
    (leftPad (FormatInt v) w).length = w ∧ ParseInt (leftPad (FormatInt v) w) = .ok v ∧
      ∀ b ∈ leftPad (FormatInt v) w, isValidPrefixByte b = true := by
  have h13 : v < 36 ^ 13 :=
    lt_of_lt_of_le hv (pow_le_pow_right₀ (by norm_num) (by omega))
  obtain ⟨ds, h1, h2, h3, h4, h5⟩ := FormatInt_spec v h0 h13
  have hlen := h5 w hw1 hv
  have hpad : leftPad (FormatInt v) w = (List.replicate (w - ds.length) 0 ++ ds).map digitByte := by
    rw [h1]
    unfold leftPad
    by_cases hc : w ≤ ds.length
    · have : w - ds.length = 0 := by omega
      simp [hc, this]
    · simp [hc, digitByte]
      omega
  have hds : ∀ d ∈ List.replicate (w - ds.length) 0 ++ ds, d < 36 := by
    intro d hd
    rcases List.mem_append.1 hd with h | h
    · rw [List.mem_replicate] at h; omega
    · exact h2 d h
  have hval : beVal 0 (List.replicate (w - ds.length) 0 ++ ds) = beVal 0 ds := by
    rw [beVal_append, beVal_replicate_zero]
  refine ⟨?_, ?_, ?_⟩
  · rw [hpad]; simp; omega
  · rw [hpad, ParseInt_digits _ ?_ hds ?_, hval, h3]
    · intro hnil
      have := congrArg List.length hnil
      rw [List.length_append, List.length_replicate, List.length_nil] at this
      omega
    · rw [hval]
      have : v < 36 ^ 12 := lt_of_lt_of_le hv (pow_le_pow_right₀ (by norm_num) hw)
      have : ((beVal 0 ds : Nat) : Int) < 9223372036854775808 := by rw [h3]; omega
      exact_mod_cast this
  · rw [hpad]
    intro b hb
    obtain ⟨d, hd, rfl⟩ := List.mem_map.1 hb
    have : ∀ d < 36, isValidPrefixByte (digitByte d) = true := by decide
    exact this d (hds d hd)

end guid
namespace Go

set_option maxRecDepth 100000 in
theorem or_128_byte : ∀ y < 256, 128 ≤ (y ||| 128) ∧ (y ||| 128) &&& 127 = y % 128 := by
  decide

theorem or_eq_add_mul (acc m s : Nat) (h : acc < 2 ^ s) : acc ||| m * 2 ^ s = acc + m * 2 ^ s := by
  rw [Nat.lor_comm, Nat.mul_comm m, ← Nat.mul_add_lt_is_or h, Nat.add_comm]

theorem PutUvarint_length (buf : List Nat) : ∀ (x : Nat) (out : List Nat),
    PutUvarint buf x = some out → out.length = buf.length := by
  induction buf with
  | nil => intro x out h; simp [PutUvarint] at h
  | cons b rest ih =>
    intro x out h
    unfold PutUvarint at h
    split at h
    · cases hr : PutUvarint rest (x >>> 7) with
      | none => simp [hr] at h
      | some r =>
        simp [hr] at h
        subst h
        simp [ih _ _ hr]
    · simp at h; subst h; simp

theorem PutUvarint_lt (buf : List Nat) : ∀ (x : Nat) (out : List Nat),
    PutUvarint buf x = some out → x < 128 ^ buf.length := by
  induction buf with
  | nil => intro x out h; simp [PutUvarint] at h
  | cons b rest ih =>
    intro x out h
    unfold PutUvarint at h
    split at h
    · cases hr : PutUvarint rest (x >>> 7) with
      | none => simp [hr] at h
      | some r =>
        have := ih _ _ hr
        rw [Nat.shiftRight_eq_div_pow] at this
        rw [List.length_cons, pow_succ]
        have h2 : x / 2 ^ 7 < 128 ^ rest.length := this
        rw [Nat.div_lt_iff_lt_mul (by norm_num)] at h2
        simpa using h2
    · rw [List.length_cons, pow_succ]
      have : 0 < 128 ^ rest.length := pow_pos (by norm_num) _
      nlinarith

theorem uvarintLoop_PutUvarint (buf : List Nat) : ∀ (x i acc s : Nat) (out : List Nat),
    PutUvarint buf x = some out → i + buf.length ≤ 9 → acc < 2 ^ s →
    acc + x * 2 ^ s < 18446744073709551616 →
    uvarintLoop out i acc s = acc + x * 2 ^ s := by
  induction buf with
  | nil => intro x i acc s out h; simp [PutUvarint] at h
  | cons b rest ih =>
    intro x i acc s out h hi hacc hx
    have hi10 : i ≠ 10 := by simp at hi; omega
    have hi9 : i ≠ 9 := by simp at hi; omega
    unfold PutUvarint at h
    split at h
    · rename_i h128
      cases hr : PutUvarint rest (x >>> 7) with
      | none => simp [hr] at h
      | some r =>
        simp [hr] at h
        subst h
        have hb := or_128_byte (x % 256) (Nat.mod_lt _ (by norm_num))
        have hmod : x % 256 % 128 = x % 128 := by omega
        have hsplit : x = x / 128 * 128 + x % 128 := by omega
        have hpow : (2 : Nat) ^ (s + 7) = 2 ^ s * 128 := by rw [pow_add]; norm_num
        have hle : x % 128 * 2 ^ s ≤ x * 2 ^ s :=
          Nat.mul_le_mul_right _ (Nat.mod_le _ _)
        have hsm : x % 128 * 2 ^ s % 18446744073709551616 = x % 128 * 2 ^ s :=
          Nat.mod_eq_of_lt (by omega)
        have hexp : x * 2 ^ s = x % 128 * 2 ^ s + x / 128 * 2 ^ (s + 7) := by
          rw [hpow]
          calc x * 2 ^ s = (x / 128 * 128 + x % 128) * 2 ^ s := by rw [← hsplit]
            _ = x % 128 * 2 ^ s + x / 128 * (2 ^ s * 128) := by ring
        have hacc2 : acc + x % 128 * 2 ^ s < 2 ^ (s + 7) := by
          rw [hpow]
          have : x % 128 < 128 := Nat.mod_lt _ (by norm_num)
          nlinarith
        rw [uvarintLoop, if_neg hi10, if_neg (by omega), hb.2, hmod, Nat.shiftLeft_eq, hsm,
          or_eq_add_mul _ _ _ hacc]
        rw [Nat.shiftRight_eq_div_pow] at hr
        rw [ih (x / 2 ^ 7) (i + 1) _ (s + 7) r hr (by simp at hi ⊢; omega) hacc2 (by
          show acc + x % 128 * 2 ^ s + x / 128 * 2 ^ (s + 7) < 18446744073709551616
          omega)]
        show acc + x % 128 * 2 ^ s + x / 128 * 2 ^ (s + 7) = acc + x * 2 ^ s
        omega
    · rename_i h128
      simp at h
      subst h
      have hx256 : x % 256 = x := by omega
      have hsm : x * 2 ^ s % 18446744073709551616 = x * 2 ^ s := Nat.mod_eq_of_lt (by omega)
      rw [hx256, uvarintLoop, if_neg hi10, if_pos (by omega), if_neg (by omega),
        Nat.shiftLeft_eq, hsm, or_eq_add_mul _ _ _ hacc]

theorem Uvarint_PutUvarint (buf : List Nat) (x : Nat) (out : List Nat)
    (h : PutUvarint buf x = some out) (hlen : buf.length ≤ 9) (hx : x < 18446744073709551616) :
    Uvarint out = x := by
  have := uvarintLoop_PutUvarint buf x 0 0 0 out h (by omega) (by norm_num) (by simpa using hx)
  simpa [Uvarint] using this

/-- Reading back a value written by `PutVarint` into a buffer of at most nine
bytes gives the value written. -/
theorem Varint_PutVarint (buf : List Nat) (v : Int) (out : List Nat)
    (h : PutVarint buf v = some out) (hlen : buf.length ≤ 9)
    (h1 : -9223372036854775808 ≤ v) (h2 : v ≤ 9223372036854775807) :
    Varint out = v := by
  unfold PutVarint at h
  by_cases hneg : v < 0
  · simp only [hneg, if_true] at h
    have hux : 18446744073709551615 -
        (v % 18446744073709551616).toNat * 2 % 18446744073709551616 = (-2 * v - 1).toNat := by
      omega
    rw [hux] at h
    have hU := Uvarint_PutUvarint buf _ out h hlen (by omega)
    unfold Varint
    simp only [hU, Nat.shiftRight_eq_div_pow, Nat.and_one_is_mod]
    have hodd : (-2 * v - 1).toNat % 2 = 1 := by omega
    rw [if_pos (by omega), wrap64_eq (by omega) (by omega)]
    omega
  · simp only [hneg, if_false] at h
    have hux : (v % 18446744073709551616).toNat * 2 % 18446744073709551616 = (2 * v).toNat := by
      omega
    rw [hux] at h
    have hU := Uvarint_PutUvarint buf _ out h hlen (by omega)
    unfold Varint
    simp only [hU, Nat.shiftRight_eq_div_pow, Nat.and_one_is_mod]
    have heven : (2 * v).toNat % 2 = 0 := by omega
    rw [if_neg (by omega), wrap64_eq (by omega) (by omega)]
    omega

theorem PutVarint_length (buf : List Nat) (v : Int) (out : List Nat)
    (h : PutVarint buf v = some out) : out.length = buf.length :=
  PutUvarint_length buf _ out h

end Go
namespace Go

theorem milliseconds_eq (n : Int) (h : 0 ≤ n) : milliseconds n = n / 1000000 := by
  unfold milliseconds
  exact Int.tdiv_eq_ediv h (by norm_num)

theorem milliseconds_unixNanoOfMillis (t : Int) (h0 : 0 ≤ t) (h1 : t < 36 ^ 8) :
    milliseconds (unixNanoOfMillis t) = t := by
  have h1 : t < 2821109907456 := by simpa using h1
  unfold unixNanoOfMillis
  rw [wrap64_eq (by omega) (by omega), milliseconds_eq _ (by omega)]
  omega

theorem slice_mid (a b c : List Nat) (lo hi : Nat) (ha : a.length = lo)
    (hb : lo + b.length = hi) : slice (a ++ b ++ c) lo hi = b := by
  subst ha
  have : hi - a.length = b.length := by omega
  simp [slice, this, List.append_assoc]

theorem splice_mid (a b c f : List Nat) (lo hi : Nat) (ha : a.length = lo)
    (hb : lo + b.length = hi) : splice (a ++ b ++ c) lo hi f = a ++ f ++ c := by
  subst ha
  have h1 : (a ++ b ++ c).take a.length = a := by simp [List.append_assoc]
  have h2 : (a ++ b ++ c).drop hi = c := by
    have : hi = (a ++ b).length := by simp; omega
    rw [this, List.drop_left]
  simp only [splice, h1, h2]

end Go

namespace guid
open Go

theorem filter_inBand (v : Int) (h0 : 0 ≤ v) (h1 : v < maxInt) : filter v = v := by
  unfold filter
  simp only [not_lt.2 h0, if_false]
  rw [if_neg (by omega)]

theorem filter_range (v : Int) (hv : isInt32 v) (hmin : v ≠ -2147483648) :
    0 ≤ filter v ∧ filter v < maxInt := by
  unfold isInt32 at hv
  have hpos : (0 : Int) < maxInt := by unfold maxInt; norm_num
  have key : ∀ a : Int, 0 ≤ a →
      0 ≤ (if maxInt ≤ a then Int.tmod a maxInt else a) ∧
        (if maxInt ≤ a then Int.tmod a maxInt else a) < maxInt := by
    intro a ha
    by_cases hc : maxInt ≤ a
    · rw [if_pos hc]
      exact ⟨Int.tmod_nonneg _ ha, Int.tmod_lt_of_pos _ hpos⟩
    · rw [if_neg hc]; exact ⟨ha, by omega⟩
  unfold filter
  by_cases hneg : v < 0
  · have : wrap32 (-v) = -v := wrap32_eq ⟨by omega, by omega⟩
    simp only [hneg, if_true, this]
    exact key (-v) (by omega)
  · simp only [hneg, if_false]
    exact key v (by omega)

theorem filter_minInt : filter (-2147483648) = -2147483648 := by decide

end guid
namespace guid
open Go

section layout

variable {p t f i d r : List Nat}

theorem mk6_length (h : Widths p t f i d r) : (GUID.mk6 p t f i d r).length = 26 := by
  obtain ⟨h1, h2, h3, h4, h5, h6⟩ := h
  simp [GUID.mk6, h1, h2, h3, h4, h5, h6]

theorem slice_pfx (h : Widths p t f i d r) : slice (GUID.mk6 p t f i d r) 0 2 = p := by
  obtain ⟨h1, h2, h3, h4, h5, h6⟩ := h
  have e : GUID.mk6 p t f i d r = [] ++ p ++ (t ++ f ++ i ++ d ++ r) := by
    simp [GUID.mk6, List.append_assoc]
  rw [e]; exact slice_mid _ _ _ _ _ rfl (by simp [h1])

theorem slice_ts (h : Widths p t f i d r) : slice (GUID.mk6 p t f i d r) tsStart tsEnd = t := by
  obtain ⟨h1, h2, h3, h4, h5, h6⟩ := h
  have e : GUID.mk6 p t f i d r = p ++ t ++ (f ++ i ++ d ++ r) := by
    simp [GUID.mk6, List.append_assoc]
  rw [e]; exact slice_mid _ _ _ _ _ h1 (by rw [h2]; rfl)

theorem slice_fp (h : Widths p t f i d r) : slice (GUID.mk6 p t f i d r) fpStart fpEnd = f := by
  obtain ⟨h1, h2, h3, h4, h5, h6⟩ := h
  have e : GUID.mk6 p t f i d r = (p ++ t) ++ f ++ (i ++ d ++ r) := by
    simp [GUID.mk6, List.append_assoc]
  rw [e]; exact slice_mid _ _ _ _ _ (by simp [h1, h2]; rfl) (by rw [h3]; rfl)

theorem slice_ic (h : Widths p t f i d r) : slice (GUID.mk6 p t f i d r) icStart icEnd = i := by
  obtain ⟨h1, h2, h3, h4, h5, h6⟩ := h
  have e : GUID.mk6 p t f i d r = (p ++ t ++ f) ++ i ++ (d ++ r) := by
    simp [GUID.mk6, List.append_assoc]
  rw [e]; exact slice_mid _ _ _ _ _ (by simp [h1, h2, h3]; rfl) (by rw [h4]; rfl)

theorem slice_dc (h : Widths p t f i d r) : slice (GUID.mk6 p t f i d r) dcStart dcEnd = d := by
  obtain ⟨h1, h2, h3, h4, h5, h6⟩ := h
  have e : GUID.mk6 p t f i d r = (p ++ t ++ f ++ i) ++ d ++ r := by
    simp [GUID.mk6, List.append_assoc]
  rw [e]; exact slice_mid _ _ _ _ _ (by simp [h1, h2, h3, h4]; rfl) (by rw [h5]; rfl)

theorem slice_rd (h : Widths p t f i d r) : slice (GUID.mk6 p t f i d r) rdStart rdEnd = r := by
  obtain ⟨h1, h2, h3, h4, h5, h6⟩ := h
  have e : GUID.mk6 p t f i d r = (p ++ t ++ f ++ i ++ d) ++ r ++ [] := by
    simp [GUID.mk6, List.append_assoc]
  rw [e]; exact slice_mid _ _ _ _ _ (by simp [h1, h2, h3, h4, h5]; rfl) (by rw [h6]; rfl)

theorem splice_ts (h : Widths p t f i d r) (x : List Nat) :
    splice (GUID.mk6 p t f i d r) tsStart tsEnd x = GUID.mk6 p x f i d r := by
  obtain ⟨h1, h2, h3, h4, h5, h6⟩ := h
  have e : GUID.mk6 p t f i d r = p ++ t ++ (f ++ i ++ d ++ r) := by
    simp [GUID.mk6, List.append_assoc]
  rw [e, splice_mid _ _ _ _ tsStart tsEnd h1 (by rw [h2]; rfl)]
  simp [GUID.mk6, List.append_assoc]

theorem splice_fp (h : Widths p t f i d r) (x : List Nat) :
    splice (GUID.mk6 p t f i d r) fpStart fpEnd x = GUID.mk6 p t x i d r := by
  obtain ⟨h1, h2, h3, h4, h5, h6⟩ := h
  have e : GUID.mk6 p t f i d r = (p ++ t) ++ f ++ (i ++ d ++ r) := by
    simp [GUID.mk6, List.append_assoc]
  rw [e, splice_mid _ _ _ _ fpStart fpEnd (by simp [h1, h2]; rfl) (by rw [h3]; rfl)]
  simp [GUID.mk6, List.append_assoc]

theorem splice_ic (h : Widths p t f i d r) (x : List Nat) :
    splice (GUID.mk6 p t f i d r) icStart icEnd x = GUID.mk6 p t f x d r := by
  obtain ⟨h1, h2, h3, h4, h5, h6⟩ := h
  have e : GUID.mk6 p t f i d r = (p ++ t ++ f) ++ i ++ (d ++ r) := by
    simp [GUID.mk6, List.append_assoc]
  rw [e, splice_mid _ _ _ _ icStart icEnd (by simp [h1, h2, h3]; rfl) (by rw [h4]; rfl)]
  simp [GUID.mk6, List.append_assoc]

theorem splice_dc (h : Widths p t f i d r) (x : List Nat) :
    splice (GUID.mk6 p t f i d r) dcStart dcEnd x = GUID.mk6 p t f i x r := by
  obtain ⟨h1, h2, h3, h4, h5, h6⟩ := h
  have e : GUID.mk6 p t f i d r = (p ++ t ++ f ++ i) ++ d ++ r := by
    simp [GUID.mk6, List.append_assoc]
  rw [e, splice_mid _ _ _ _ dcStart dcEnd (by simp [h1, h2, h3, h4]; rfl) (by rw [h5]; rfl)]
  rfl

theorem splice_rd (h : Widths p t f i d r) (x : List Nat) :
    splice (GUID.mk6 p t f i d r) rdStart rdEnd x = GUID.mk6 p t f i d x := by
  obtain ⟨h1, h2, h3, h4, h5, h6⟩ := h
  have e : GUID.mk6 p t f i d r = (p ++ t ++ f ++ i ++ d) ++ r ++ [] := by
    simp [GUID.mk6, List.append_assoc]
  rw [e, splice_mid _ _ _ _ rdStart rdEnd (by simp [h1, h2, h3, h4, h5]; rfl) (by rw [h6]; rfl)]
  simp [GUID.mk6, List.append_assoc]

end layout

/-- Every array of 26 bytes is the concatenation of its six fields. -/
theorem exists_mk6 (g : GUID) (h : g.length = 26) :
    ∃ p t f i d r, Widths p t f i d r ∧ g = GUID.mk6 p t f i d r := by
  refine ⟨g.take 2, (g.drop 2).take 8, (g.drop 10).take 4, (g.drop 14).take 4,
    (g.drop 18).take 4, g.drop 22, ?_, ?_⟩
  · simp [Widths, h]
  · have e : ∀ (l : List Nat) (a b : Nat), l.drop a = (l.drop a).take b ++ l.drop (a + b) := by
      intro l a b
      rw [← List.drop_drop, List.take_append_drop]
    unfold GUID.mk6
    rw [List.append_assoc, List.append_assoc, List.append_assoc, List.append_assoc,
      ← e g 18 4, ← e g 14 4, ← e g 10 4, ← e g 2 8, List.take_append_drop]

theorem zero_eq_mk6 : GUID.zero = GUID.mk6 [0, 0] (List.replicate 8 0) (List.replicate 4 0)
    (List.replicate 4 0) (List.replicate 4 0) (List.replicate 4 0) := by decide

end guid
namespace guid
open Go

section setters

variable {p t f i d r : List Nat}

theorem SetTime_mk6 (h : Widths p t f i d r) (n : Int) :
    GUID.SetTime (GUID.mk6 p t f i d r) n =
      (PutVarint t (milliseconds n)).map fun x => GUID.mk6 p x f i d r := by
  unfold GUID.SetTime
  rw [slice_ts h]
  congr 1
  funext x
  exact splice_ts h x

theorem SetFingerprint_mk6 (h : Widths p t f i d r) (v : Int) :
    GUID.SetFingerprint (GUID.mk6 p t f i d r) v =
      (PutVarint f (filter v)).map fun x => GUID.mk6 p t x i d r := by
  unfold GUID.SetFingerprint
  rw [slice_fp h]
  congr 1
  funext x
  exact splice_fp h x

theorem SetRandom_mk6 (h : Widths p t f i d r) (v : Int) :
    GUID.SetRandom (GUID.mk6 p t f i d r) v =
      (PutVarint r (filter v)).map fun x => GUID.mk6 p t f i d x := by
  unfold GUID.SetRandom
  rw [slice_rd h]
  congr 1
  funext x
  exact splice_rd h x

theorem SetCounters_mk6 (h : Widths p t f i d r) (a b : Int) :
    GUID.SetCounters (GUID.mk6 p t f i d r) a b =
      (PutVarint i (filter a)).bind fun x =>
        (PutVarint d (filter b)).map fun y => GUID.mk6 p t f x y r := by
  unfold GUID.SetCounters
  rw [slice_ic h]
  cases hx : PutVarint i (filter a) with
  | none => rfl
  | some x =>
    have hw : Widths p t f x d r := by
      obtain ⟨h1, h2, h3, h4, h5, h6⟩ := h
      exact ⟨h1, h2, h3, by rw [PutVarint_length _ _ _ hx, h4], h5, h6⟩
    simp only [Option.map_some', Option.some_bind, splice_ic h]
    rw [slice_dc hw]
    congr 1
    funext y
    exact splice_dc hw y

theorem String_mk6 (h : Widths p t f i d r) :
    GUID.String (GUID.mk6 p t f i d r) =
      GUID.mk6 p (leftPad (FormatInt (Varint t)) 8) (leftPad (FormatInt (Varint f)) 4)
        (leftPad (FormatInt (Varint i)) 4) (leftPad (FormatInt (Varint d)) 4)
        (leftPad (FormatInt (Varint r)) 4) := by
  unfold GUID.String
  rw [slice_pfx h, slice_ts h, slice_fp h, slice_ic h, slice_dc h, slice_rd h]
  rfl

end setters

/-- The bytes assembled by the setter chain of `Generate` on `GUID{}`. -/
theorem generate_chain (now incr decr fp r : Int) :
    ((((GUID.SetTime GUID.zero now).bind fun v => GUID.SetCounters v incr decr).bind
      fun v => GUID.SetFingerprint v fp).bind fun v => GUID.SetRandom v r) =
    (PutVarint (List.replicate 8 0) (milliseconds now)).bind fun T =>
    (PutVarint (List.replicate 4 0) (filter incr)).bind fun I =>
    (PutVarint (List.replicate 4 0) (filter decr)).bind fun D =>
    (PutVarint (List.replicate 4 0) (filter fp)).bind fun F =>
    (PutVarint (List.replicate 4 0) (filter r)).bind fun R =>
      some (GUID.mk6 [0, 0] T F I D R) := by
  have hw0 : Widths [0, 0] (List.replicate 8 0) (List.replicate 4 0) (List.replicate 4 0)
      (List.replicate 4 0) (List.replicate 4 0) := by simp [Widths]
  rw [zero_eq_mk6, SetTime_mk6 hw0]
  cases hT : PutVarint (List.replicate 8 0) (milliseconds now) with
  | none => rfl
  | some T =>
    have hw1 : Widths [0, 0] T (List.replicate 4 0) (List.replicate 4 0)
        (List.replicate 4 0) (List.replicate 4 0) := by
      simp [Widths, PutVarint_length _ _ _ hT]
    simp only [Option.map_some', Option.some_bind, SetCounters_mk6 hw1]
    cases hI : PutVarint (List.replicate 4 0) (filter incr) with
    | none => rfl
    | some I =>
      simp only [Option.some_bind]
      cases hD : PutVarint (List.replicate 4 0) (filter decr) with
      | none => rfl
      | some D =>
        have hw2 : Widths [0, 0] T (List.replicate 4 0) I D (List.replicate 4 0) := by
          simp [Widths, PutVarint_length _ _ _ hT, PutVarint_length _ _ _ hI,
            PutVarint_length _ _ _ hD]
        simp only [Option.map_some', Option.some_bind, SetFingerprint_mk6 hw2]
        cases hF : PutVarint (List.replicate 4 0) (filter fp) with
        | none => rfl
        | some F =>
          have hw3 : Widths [0, 0] T F I D (List.replicate 4 0) := by
            simp [Widths, PutVarint_length _ _ _ hT, PutVarint_length _ _ _ hI,
              PutVarint_length _ _ _ hD, PutVarint_length _ _ _ hF]
          simp only [Option.map_some', Option.some_bind, SetRandom_mk6 hw3]
          cases hR : PutVarint (List.replicate 4 0) (filter r) with
          | none => rfl
          | some R => rfl

end guid
namespace guid
open Go

theorem filter_wrap32_inBand (v : Int) (h0 : 0 ≤ v) (h1 : v < maxInt) : filter (wrap32 v) = v := by
  have h1' : v < 1679616 := h1
  rw [wrap32_eq ⟨by omega, by omega⟩, filter_inBand v h0 h1]

/-- What `Parse` computes on a text whose five blocks parse to in-band values. -/
theorem Parse_mk6 (a b : Nat) (s1 s2 s3 s4 s5 : List Nat)
    (hw : Widths [a, b] s1 s2 s3 s4 s5) (ms vf vi vd vr : Int)
    (h1 : ParseInt s1 = .ok ms) (h2 : ParseInt s2 = .ok vf) (h3 : ParseInt s3 = .ok vi)
    (h4 : ParseInt s4 = .ok vd) (h5 : ParseInt s5 = .ok vr)
    (hms : 0 ≤ ms ∧ ms < 36 ^ 8) (hvf : 0 ≤ vf ∧ vf < maxInt) (hvi : 0 ≤ vi ∧ vi < maxInt)
    (hvd : 0 ≤ vd ∧ vd < maxInt) (hvr : 0 ≤ vr ∧ vr < maxInt) :
    Parse (GUID.mk6 [a, b] s1 s2 s3 s4 s5) =
      (PutVarint (List.replicate 8 0) ms).bind fun T =>
      (PutVarint (List.replicate 4 0) vf).bind fun F =>
      (PutVarint (List.replicate 4 0) vi).bind fun I =>
      (PutVarint (List.replicate 4 0) vd).bind fun D =>
      (PutVarint (List.replicate 4 0) vr).bind fun R =>
        some (GUID.mk6 [a, b] T F I D R, none) := by
  have hw0 : Widths [a, b] (List.replicate 8 0) (List.replicate 4 0) (List.replicate 4 0)
      (List.replicate 4 0) (List.replicate 4 0) := by simp [Widths]
  have hg0 : (GUID.zero.set 0 ((GUID.mk6 [a, b] s1 s2 s3 s4 s5).getD 0 0)).set 1
      ((GUID.mk6 [a, b] s1 s2 s3 s4 s5).getD 1 0) =
      GUID.mk6 [a, b] (List.replicate 8 0) (List.replicate 4 0) (List.replicate 4 0)
        (List.replicate 4 0) (List.replicate 4 0) := by
    simp [GUID.mk6, GUID.zero, byteSize, List.replicate]
  unfold Parse
  rw [if_neg (by rw [mk6_length hw]; decide), hg0, slice_ts hw, slice_fp hw, slice_ic hw,
    slice_dc hw, slice_rd hw, h1, h2, h3, h4, h5]
  simp only [SetTime_mk6 hw0, milliseconds_unixNanoOfMillis ms hms.1 hms.2]
  cases hT : PutVarint (List.replicate 8 0) ms with
  | none => rfl
  | some T =>
    have hw1 : Widths [a, b] T (List.replicate 4 0) (List.replicate 4 0)
        (List.replicate 4 0) (List.replicate 4 0) := by
      simp [Widths, PutVarint_length _ _ _ hT]
    simp only [Option.map_some', Option.some_bind, SetFingerprint_mk6 hw1,
      filter_wrap32_inBand vf hvf.1 hvf.2]
    cases hF : PutVarint (List.replicate 4 0) vf with
    | none => rfl
    | some F =>
      have hw2 : Widths [a, b] T F (List.replicate 4 0)
          (List.replicate 4 0) (List.replicate 4 0) := by
        simp [Widths, PutVarint_length _ _ _ hT, PutVarint_length _ _ _ hF]
      simp only [Option.map_some', Option.some_bind, SetCounters_mk6 hw2,
        filter_wrap32_inBand vi hvi.1 hvi.2, filter_wrap32_inBand vd hvd.1 hvd.2]
      cases hI : PutVarint (List.replicate 4 0) vi with
      | none => rfl
      | some I =>
        simp only [Option.some_bind]
        cases hD : PutVarint (List.replicate 4 0) vd with
        | none => rfl
        | some D =>
          have hw3 : Widths [a, b] T F I D (List.replicate 4 0) := by
            simp [Widths, PutVarint_length _ _ _ hT, PutVarint_length _ _ _ hF,
              PutVarint_length _ _ _ hI, PutVarint_length _ _ _ hD]
          simp only [Option.map_some', Option.some_bind, SetRandom_mk6 hw3,
            filter_wrap32_inBand vr hvr.1 hvr.2]
          cases hR : PutVarint (List.replicate 4 0) vr with
          | none => rfl
          | some R => rfl

/-- The text of a `GUID` whose fields were written from in-band values has 26
characters and parses back to the same 26 bytes. -/
theorem Parse_String_canonical (a b : Nat) (ms vf vi vd vr : Int) (T F I D R : List Nat)
    (hT : PutVarint (List.replicate 8 0) ms = some T)
    (hF : PutVarint (List.replicate 4 0) vf = some F)
    (hI : PutVarint (List.replicate 4 0) vi = some I)
    (hD : PutVarint (List.replicate 4 0) vd = some D)
    (hR : PutVarint (List.replicate 4 0) vr = some R)
    (hms : 0 ≤ ms ∧ ms < 36 ^ 8) (hvf : 0 ≤ vf ∧ vf < maxInt) (hvi : 0 ≤ vi ∧ vi < maxInt)
    (hvd : 0 ≤ vd ∧ vd < maxInt) (hvr : 0 ≤ vr ∧ vr < maxInt) :
    (GUID.String (GUID.mk6 [a, b] T F I D R)).length = 26 ∧
      Parse (GUID.String (GUID.mk6 [a, b] T F I D R)) =
        some (GUID.mk6 [a, b] T F I D R, none) := by
  have hmax : maxInt = 36 ^ 4 := by unfold maxInt; norm_num
  have h8 : (36 : Int) ^ 8 = 2821109907456 := by norm_num
  have hw : Widths [a, b] T F I D R := by
    simp [Widths, PutVarint_length _ _ _ hT, PutVarint_length _ _ _ hF,
      PutVarint_length _ _ _ hI, PutVarint_length _ _ _ hD, PutVarint_length _ _ _ hR]
  have band : ∀ v : Int, 0 ≤ v ∧ v < maxInt →
      -9223372036854775808 ≤ v ∧ v ≤ 9223372036854775807 := by
    intro v hv; have := hv.2; unfold maxInt at this; omega
  have eT := Varint_PutVarint _ ms T hT (by simp) (by omega) (by omega)
  have eF := Varint_PutVarint _ vf F hF (by simp) (band vf hvf).1 (band vf hvf).2
  have eI := Varint_PutVarint _ vi I hI (by simp) (band vi hvi).1 (band vi hvi).2
  have eD := Varint_PutVarint _ vd D hD (by simp) (band vd hvd).1 (band vd hvd).2
  have eR := Varint_PutVarint _ vr R hR (by simp) (band vr hvr).1 (band vr hvr).2
  have pT := leftPad_FormatInt ms 8 (by norm_num) (by norm_num) hms.1 hms.2
  have pF := leftPad_FormatInt vf 4 (by norm_num) (by norm_num) hvf.1 (hmax ▸ hvf.2)
  have pI := leftPad_FormatInt vi 4 (by norm_num) (by norm_num) hvi.1 (hmax ▸ hvi.2)
  have pD := leftPad_FormatInt vd 4 (by norm_num) (by norm_num) hvd.1 (hmax ▸ hvd.2)
  have pR := leftPad_FormatInt vr 4 (by norm_num) (by norm_num) hvr.1 (hmax ▸ hvr.2)
  rw [String_mk6 hw, eT, eF, eI, eD, eR]
  have hws : Widths [a, b] (leftPad (FormatInt ms) 8) (leftPad (FormatInt vf) 4)
      (leftPad (FormatInt vi) 4) (leftPad (FormatInt vd) 4) (leftPad (FormatInt vr) 4) :=
    ⟨rfl, pT.1, pF.1, pI.1, pD.1, pR.1⟩
  refine ⟨mk6_length hws, ?_⟩
  rw [Parse_mk6 a b _ _ _ _ _ hws ms vf vi vd vr pT.2.1 pF.2.1 pI.2.1 pD.2.1 pR.2.1
    hms hvf hvi hvd hvr, hT, hF, hI, hD, hR]
  rfl

end guid
namespace guid
open Go

theorem wrap32_isInt32 (x : Int) : isInt32 (wrap32 x) := by
  unfold isInt32 wrap32; omega

theorem randomInt32_isInt32 (rd : ReadResult) : isInt32 (randomInt32 rd).1 := by
  unfold randomInt32
  cases rd.2 with
  | some msg => exact ⟨by norm_num, by norm_num⟩
  | none => exact wrap32_isInt32 _

theorem PutVarint_minInt32 : PutVarint (List.replicate 4 0) (-2147483648) = none := by decide

/-- A value that `filter` hands to a four-byte field without a panic of
`PutVarint` is in band. -/
theorem filter_of_put (v : Int) (hv : isInt32 v) (out : List Nat)
    (h : PutVarint (List.replicate 4 0) (filter v) = some out) :
    0 ≤ filter v ∧ filter v < maxInt := by
  by_cases hmin : v = -2147483648
  · subst hmin
    rw [filter_minInt, PutVarint_minInt32] at h
    exact absurd h (by simp)
  · exact filter_range v hv hmin

/-- The shape of a successful `Generate`. -/
theorem Generate_ok (g : stdGenerator) (now : Int) (rd : ReadResult) (pfx : Nat × Nat)
    (g' : stdGenerator) (v : GUID)
    (h : g.Generate now rd pfx = (g', some (v, none))) :
    ∃ r T F I D R, randomInt32 rd = (r, none) ∧
      PutVarint (List.replicate 8 0) (milliseconds now) = some T ∧
      PutVarint (List.replicate 4 0) (filter g.Fingerprint) = some F ∧
      PutVarint (List.replicate 4 0) (filter g.IncrCounter) = some I ∧
      PutVarint (List.replicate 4 0) (filter g.DecrCounter) = some D ∧
      PutVarint (List.replicate 4 0) (filter r) = some R ∧
      v = GUID.mk6 [pfx.1, pfx.2] T F I D R := by
  unfold stdGenerator.Generate at h
  rcases hr : randomInt32 rd with ⟨r, e⟩
  rw [hr] at h
  cases e with
  | some err => simp at h
  | none =>
    simp only [generate_chain] at h
    refine ⟨r, ?_⟩
    cases hT : PutVarint (List.replicate 8 0) (milliseconds now) with
    | none => simp [-List.reduceReplicate, hT] at h
    | some T =>
      cases hI : PutVarint (List.replicate 4 0) (filter g.IncrCounter) with
      | none => simp [-List.reduceReplicate, hT, hI] at h
      | some I =>
        cases hD : PutVarint (List.replicate 4 0) (filter g.DecrCounter) with
        | none => simp [-List.reduceReplicate, hT, hI, hD] at h
        | some D =>
          cases hF : PutVarint (List.replicate 4 0) (filter g.Fingerprint) with
          | none => simp [-List.reduceReplicate, hT, hI, hD, hF] at h
          | some F =>
            cases hR : PutVarint (List.replicate 4 0) (filter r) with
            | none => simp [-List.reduceReplicate, hT, hI, hD, hF, hR] at h
            | some R =>
              simp [-List.reduceReplicate, hT, hI, hD, hF, hR] at h
              refine ⟨T, F, I, D, R, rfl, rfl, rfl, rfl, rfl, rfl, ?_⟩
              rw [← h.2]
              simp [GUID.mk6]

/-- Round trip of a generated `GUID` through its text, with the length of the
text. -/
theorem Generate_roundtrip (g : stdGenerator) (hfp : isInt32 g.Fingerprint)
    (hic : isInt32 g.IncrCounter) (hdc : isInt32 g.DecrCounter) (now : Int)
    (hnow : 0 ≤ now ∧ now ≤ (36 ^ 8 - 1) * 1000000) (rd : ReadResult) (pfx : Nat × Nat)
    (g' : stdGenerator) (v : GUID)
    (h : g.Generate now rd pfx = (g', some (v, none))) :
    (GUID.String v).length = 26 ∧ Parse (GUID.String v) = some (v, none) := by
  obtain ⟨r, T, F, I, D, R, hr, hT, hF, hI, hD, hR, rfl⟩ := Generate_ok g now rd pfx g' v h
  have hri : isInt32 r := by
    have := randomInt32_isInt32 rd
    rwa [hr] at this
  have hms : 0 ≤ milliseconds now ∧ milliseconds now < 36 ^ 8 := by
    have h1 := hnow.1
    have h2 : now ≤ 2821109907455 * 1000000 := by
      have := hnow.2; norm_num at this ⊢; exact this
    rw [milliseconds_eq now h1]
    have h8 : (36 : Int) ^ 8 = 2821109907456 := by norm_num
    rw [h8]
    omega
  exact Parse_String_canonical pfx.1 pfx.2 _ _ _ _ _ T F I D R hT hF hI hD hR hms
    (filter_of_put _ hfp F hF) (filter_of_put _ hic I hI) (filter_of_put _ hdc D hD)
    (filter_of_put _ hri R hR)

end guid
/-! ## The claims -/

namespace guid
open Go

/-- C1: every GUID that `stdGenerator.Generate` returns without error, for a
clock reading between the Unix epoch and `36^8 - 1` milliseconds after it, is
parsed back by `ParseString` from its `String()` with no error, and the parsed
value has the same 26 bytes. -/
theorem generate_parseString_roundtrip (g : stdGenerator) (hfp : isInt32 g.Fingerprint)
    (hic : isInt32 g.IncrCounter) (hdc : isInt32 g.DecrCounter) (now : Int)
    (hnow : 0 ≤ now ∧ now ≤ (36 ^ 8 - 1) * 1000000) (rd : ReadResult) (pfx : Nat × Nat)
    (g' : stdGenerator) (v : GUID)
    (h : g.Generate now rd pfx = (g', some (v, none))) :
    ParseString (GUID.String v) = some (v, none) ∧ v.length = 26 := by
  have hrt := Generate_roundtrip g hfp hic hdc now hnow rd pfx g' v h
  refine ⟨hrt.2, ?_⟩
  obtain ⟨r, T, F, I, D, R, _, hT, hF, hI, hD, hR, rfl⟩ := Generate_ok g now rd pfx g' v h
  exact mk6_length ⟨rfl, by rw [PutVarint_length _ _ _ hT]; rfl,
    by rw [PutVarint_length _ _ _ hF]; rfl, by rw [PutVarint_length _ _ _ hI]; rfl,
    by rw [PutVarint_length _ _ _ hD]; rfl, by rw [PutVarint_length _ _ _ hR]; rfl⟩

/-- Witness of C1: the generator with fingerprint 5 and counters 7 and 9, at
2021-01-01T00:00:00Z, with an all-zero random block and the prefix `nw`. -/
theorem generate_parseString_roundtrip_witness :
    ParseString (GUID.String
        [110, 119, 128, 192, 243, 179, 215, 93, 0, 0, 10, 0, 0, 0, 14, 0, 0, 0, 18, 0, 0, 0,
          160, 128, 129, 1]) =
      some ([110, 119, 128, 192, 243, 179, 215, 93, 0, 0, 10, 0, 0, 0, 14, 0, 0, 0, 18, 0, 0, 0,
          160, 128, 129, 1], none) ∧
    List.length [110, 119, 128, 192, 243, 179, 215, 93, 0, 0, 10, 0, 0, 0, 14, 0, 0, 0, 18, 0,
      0, 0, 160, 128, 129, 1] = 26 :=
  generate_parseString_roundtrip ⟨5, 7, 9⟩ (by decide) (by decide) (by decide)
    1609459200000000000 (by norm_num) (List.replicate 16 0, none) (110, 119) ⟨5, 8, 8⟩ _
    (by decide)

end guid
namespace cuid
open Go

theorem Generate_counter (g : Generator) (now : Int) (rd1 rd2 : ReadResult) :
    (g.Generate now rd1 rd2).1.Counter =
      if maxInt < wrap32 (g.Counter + 1) then 0 else wrap32 (g.Counter + 1) := by
  unfold Generator.Generate
  split
  · rfl
  · split <;> rfl

theorem counterReached_le (n : Nat) (h : n ≤ 1679616) : CounterReached (n : Int) := by
  induction n with
  | zero => exact CounterReached.init
  | succ n ih =>
    have hstep := CounterReached.step ⟨0, (n : Int)⟩ 0 ([], none) ([], none) (ih (by omega))
    rw [Generate_counter] at hstep
    have hw : wrap32 ((n : Int) + 1) = (n : Int) + 1 := wrap32_eq ⟨by omega, by omega⟩
    simp only [hw] at hstep
    rw [if_neg (by unfold maxInt; omega)] at hstep
    exact_mod_cast hstep

/-- C2, evaluated where it fails: the counter `36^4 = 1679616` is reached from
0 by `Generate` calls; the CUID then generated (fingerprint 0, clock at the
epoch, all-zero random bytes) has the counter bytes `80 84 cd 01`, its
`String()` shows the counter as `0000`, and `ParseString` returns a CUID with
counter bytes `00 00 00 00`, which differs from the generated one. -/
theorem generate_roundtrip_fails_at_maxInt :
    CounterReached 1679616 ∧
    (Generator.Generate ⟨0, 1679616⟩ 0 ([0, 0, 0, 0], none) ([0, 0, 0, 0], none)).2 =
      some (99 :: List.replicate 8 0 ++ [128, 132, 205, 1] ++ List.replicate 12 0, none) ∧
    CUID.String (99 :: List.replicate 8 0 ++ [128, 132, 205, 1] ++ List.replicate 12 0) =
      some (ascii "c000000000000000000000000") ∧
    ParseString (ascii "c000000000000000000000000") = some (99 :: List.replicate 24 0, none) ∧
    (99 :: List.replicate 24 0 : CUID) ≠
      99 :: List.replicate 8 0 ++ [128, 132, 205, 1] ++ List.replicate 12 0 :=
  ⟨counterReached_le 1679616 (le_refl _), by decide, by decide, by decide, by decide⟩

end cuid

namespace guid
open Go

theorem Generate_incrCounter (g : stdGenerator) (now : Int) (rd : ReadResult)
    (pfx : Nat × Nat) :
    (g.Generate now rd pfx).1.IncrCounter =
      if maxInt < wrap32 (g.IncrCounter + 1) then 0 else wrap32 (g.IncrCounter + 1) := by
  unfold stdGenerator.Generate
  split <;> rfl

/-- C3, evaluated where it fails: in both generators a `Generate` call made
with the increasing counter at `36^4 - 1 = 1679615` leaves it at
`36^4 = 1679616`, not at 0, whatever the other inputs of the call are; the
reset to 0 happens one call later. -/
theorem incr_counter_after_max_minus_one (fp dc now : Int) (rd : ReadResult) (pfx : Nat × Nat)
    (fp' now' : Int) (rd1 rd2 : cuid.ReadResult) :
    (stdGenerator.Generate ⟨fp, 1679615, dc⟩ now rd pfx).1.IncrCounter = 1679616 ∧
    (cuid.Generator.Generate ⟨fp', 1679615⟩ now' rd1 rd2).1.Counter = 1679616 ∧
    (stdGenerator.Generate ⟨fp, 1679616, dc⟩ now rd pfx).1.IncrCounter = 0 ∧
    (cuid.Generator.Generate ⟨fp', 1679616⟩ now' rd1 rd2).1.Counter = 0 := by
  rw [Generate_incrCounter, Generate_incrCounter, cuid.Generate_counter, cuid.Generate_counter]
  dsimp only
  decide

/-- C4, evaluated where it fails: a successful `Generate` call made with
`DecrCounter` at 0 (fingerprint 0, clock at the epoch, all-zero random block)
leaves `DecrCounter` at `maxInt = 36^4 = 1679616`, not at `36^4 - 1`. -/
theorem decr_counter_after_zero :
    stdGenerator.Generate ⟨0, 0, 0⟩ 0 (List.replicate 16 0, none) (110, 119) =
      (⟨0, 1, 1679616⟩,
        some ([110, 119] ++ List.replicate 20 0 ++ [160, 128, 129, 1], none)) := by
  decide

/-- C5, evaluated where it fails: texts with an upper-case letter, a `+` or a
`-` at a field position are parsed without error by both families, and
`IsCUID` accepts them. -/
theorem parse_accepts_uppercase_and_signs :
    cuid.ParseBytes (ascii "c0000000A0000000000000000") =
      some ([99, 20] ++ List.replicate 23 0, none) ∧
    cuid.IsCUID (ascii "c+000000A000000000000-zzz") = some true ∧
    Parse (ascii "nw0000000A0000+000-00000ZZ") =
      some ([110, 119, 20] ++ List.replicate 19 0 ++ [158, 20, 0, 0], none) := by
  decide

/-- C6, evaluated where it fails: `Parse` never looks at the two prefix bytes;
whatever they are, the text they start is parsed without error when its
24 field characters are `0`, and the bytes are copied into the result. -/
theorem parse_accepts_any_prefix (a b : Nat) :
    Parse (a :: b :: List.replicate 24 48) = some (a :: b :: List.replicate 24 0, none) ∧
    GUID.PrefixBytes (a :: b :: List.replicate 24 0) = (a, b) ∧
    isValidPrefixByte 33 = false := by
  refine ⟨?_, rfl, by decide⟩
  have hw : Widths [a, b] (List.replicate 8 48) (List.replicate 4 48) (List.replicate 4 48)
      (List.replicate 4 48) (List.replicate 4 48) := by simp [Widths]
  have h8 : ParseInt (List.replicate 8 48) = .ok 0 := by rfl
  have h4 : ParseInt (List.replicate 4 48) = .ok 0 := by rfl
  have hz : (0 : Int) ≤ 0 ∧ (0 : Int) < maxInt := by decide
  have := Parse_mk6 a b _ _ _ _ _ hw 0 0 0 0 0 h8 h4 h4 h4 h4 (by norm_num) hz hz hz hz
  have p8 : PutVarint (List.replicate 8 0) 0 = some (List.replicate 8 0) := by decide
  have p4 : PutVarint (List.replicate 4 0) 0 = some (List.replicate 4 0) := by decide
  rw [p8, p4] at this
  exact this

/-- C7: `cuid.ParseBytes` returns its length error, with the zero CUID and
without panicking, for every byte string whose length is not 25, and
`guid.Parse` does so for every byte string whose length is not 26. -/
theorem parse_rejects_wrong_length (b c : List Nat) (hb : b.length ≠ 25) (hc : c.length ≠ 26) :
    cuid.ParseBytes b = some (cuid.CUID.zero, some (.badLength b.length)) ∧
    Parse c = some (GUID.zero, some .badLength) := by
  constructor
  · unfold cuid.ParseBytes; rw [if_pos hb]
  · unfold Parse; rw [if_pos (show c.length ≠ byteSize from hc)]

/-- Witness of C7: the empty byte string for both parsers. -/
theorem parse_rejects_wrong_length_witness :
    cuid.ParseBytes [] = some (cuid.CUID.zero, some (.badLength 0)) ∧
    Parse [] = some (GUID.zero, some .badLength) :=
  parse_rejects_wrong_length [] [] (by decide) (by decide)

/-- C8, evaluated where it fails: `UnmarshalBinary` and `GobDecode` hand the
raw bytes of `MarshalBinary` / `GobEncode` to `Parse`, which reads text; on the
bytes of `TestGUID`, and on those of a generated GUID, they return the
time-field syntax error and leave the receiver unchanged. -/
theorem binary_roundtrip_fails (recv : GUID) :
    GUID.UnmarshalBinary recv (GUID.MarshalBinary TestGUID).1 =
      some (recv, some (.badTime .errSyntax)) ∧
    GUID.GobDecode recv (GUID.GobEncode TestGUID).1 = some (recv, some (.badTime .errSyntax)) ∧
    (stdGenerator.Generate ⟨5, 7, 9⟩ 1609459200000000000 (List.replicate 16 0, none)
        (110, 119)).2 =
      some ([110, 119, 128, 192, 243, 179, 215, 93, 0, 0, 10, 0, 0, 0, 14, 0, 0, 0, 18, 0,
        0, 0, 160, 128, 129, 1], none) ∧
    GUID.UnmarshalBinary recv (GUID.MarshalBinary
        [110, 119, 128, 192, 243, 179, 215, 93, 0, 0, 10, 0, 0, 0, 14, 0, 0, 0, 18, 0,
          0, 0, 160, 128, 129, 1]).1 = some (recv, some (.badTime .errSyntax)) := by
  have h1 : Parse TestGUID = some (GUID.zero, some (.badTime .errSyntax)) := by decide
  have h2 : Parse [110, 119, 128, 192, 243, 179, 215, 93, 0, 0, 10, 0, 0, 0, 14, 0, 0, 0, 18,
      0, 0, 0, 160, 128, 129, 1] = some (GUID.zero, some (.badTime .errSyntax)) := by decide
  refine ⟨?_, ?_, by decide, ?_⟩
  · simp [GUID.UnmarshalBinary, GUID.MarshalBinary, h1]
  · simp [GUID.GobDecode, GUID.GobEncode, GUID.UnmarshalBinary, GUID.MarshalBinary, h1]
  · simp [GUID.UnmarshalBinary, GUID.MarshalBinary, h2]

end guid
namespace guid
open Go

/-- C9: for every GUID that `stdGenerator.Generate` returns without error with
a clock reading between the epoch and `36^8 - 1` ms, `MarshalJSON` returns the
28 bytes `"` + `String()` + `"`, and `UnmarshalJSON` applied to those bytes
returns no error and sets the receiver to the same GUID. -/
theorem json_roundtrip (g : stdGenerator) (hfp : isInt32 g.Fingerprint)
    (hic : isInt32 g.IncrCounter) (hdc : isInt32 g.DecrCounter) (now : Int)
    (hnow : 0 ≤ now ∧ now ≤ (36 ^ 8 - 1) * 1000000) (rd : ReadResult) (pfx : Nat × Nat)
    (g' : stdGenerator) (v : GUID)
    (h : g.Generate now rd pfx = (g', some (v, none))) (recv : GUID) :
    GUID.MarshalJSON v = some (34 :: GUID.String v ++ [34], none) ∧
    (34 :: GUID.String v ++ [34]).length = 28 ∧
    GUID.UnmarshalJSON recv (34 :: GUID.String v ++ [34]) = some (v, none) := by
  obtain ⟨hlen, hparse⟩ := Generate_roundtrip g hfp hic hdc now hnow rd pfx g' v h
  have htake : (GUID.String v).take byteSize = GUID.String v :=
    List.take_of_length_le (by rw [hlen]; decide)
  have hslice : slice (34 :: GUID.String v ++ [34]) 1 ((34 :: GUID.String v ++ [34]).length - 1)
      = GUID.String v := by
    have := slice_mid [34] (GUID.String v) [34] 1 27 rfl (by rw [hlen])
    simpa [hlen] using this
  refine ⟨?_, by simp [hlen], ?_⟩
  · unfold GUID.MarshalJSON
    simp only [htake]
    rw [if_neg (by rw [hlen]; decide)]
  · unfold GUID.UnmarshalJSON
    simp only [hslice, hparse]
    rw [if_neg (by simp [hlen])]
    rfl

/-- Witness of C9: the generator with fingerprint 5 and counters 7 and 9, at
2021-01-01T00:00:00Z, with an all-zero random block and the prefix `nw`. -/
theorem json_roundtrip_witness :
    GUID.MarshalJSON [110, 119, 128, 192, 243, 179, 215, 93, 0, 0, 10, 0, 0, 0, 14, 0, 0, 0,
        18, 0, 0, 0, 160, 128, 129, 1] =
      some (34 :: GUID.String [110, 119, 128, 192, 243, 179, 215, 93, 0, 0, 10, 0, 0, 0, 14,
        0, 0, 0, 18, 0, 0, 0, 160, 128, 129, 1] ++ [34], none) ∧
    (34 :: GUID.String [110, 119, 128, 192, 243, 179, 215, 93, 0, 0, 10, 0, 0, 0, 14,
        0, 0, 0, 18, 0, 0, 0, 160, 128, 129, 1] ++ [34]).length = 28 ∧
    GUID.UnmarshalJSON GUID.zero
        (34 :: GUID.String [110, 119, 128, 192, 243, 179, 215, 93, 0, 0, 10, 0, 0, 0, 14,
          0, 0, 0, 18, 0, 0, 0, 160, 128, 129, 1] ++ [34]) =
      some ([110, 119, 128, 192, 243, 179, 215, 93, 0, 0, 10, 0, 0, 0, 14, 0, 0, 0, 18, 0,
        0, 0, 160, 128, 129, 1], none) :=
  json_roundtrip ⟨5, 7, 9⟩ (by decide) (by decide) (by decide)
    1609459200000000000 (by norm_num) (List.replicate 16 0, none) (110, 119) ⟨5, 8, 8⟩ _
    (by decide) GUID.zero

/-- C10, evaluated where it fails: the GUID generated at the clock reading
`36^8` ms after the epoch has 26 bytes and a `String()` of 27 characters, the
timestamp being printed whole, on 9 characters, where the fixed-width text
keeps the trailing 8 (as `cuid.leftpad` does on the same value). `Parse`
rejects this text with the length error, and `MarshalJSON` drops its last
character, so that `UnmarshalJSON` returns another GUID with a nil error. The
26-byte value whose fingerprint field holds `36^4` is printed on 27 characters
too. -/
theorem string_exceeds_width :
    (stdGenerator.Generate ⟨5, 7, 9⟩ (2821109907456 * 1000000) (List.replicate 16 0, none)
        (110, 119)).2 =
      some ([110, 119, 128, 128, 136, 244, 154, 164, 1, 0, 10, 0, 0, 0, 14, 0, 0, 0, 18, 0,
        0, 0, 160, 128, 129, 1], none) ∧
    GUID.String [110, 119, 128, 128, 136, 244, 154, 164, 1, 0, 10, 0, 0, 0, 14, 0, 0, 0, 18,
        0, 0, 0, 160, 128, 129, 1] = ascii "nw100000000000500070009mnf4" ∧
    (GUID.String [110, 119, 128, 128, 136, 244, 154, 164, 1, 0, 10, 0, 0, 0, 14, 0, 0, 0, 18,
        0, 0, 0, 160, 128, 129, 1]).length = 27 ∧
    leftPad (FormatInt 2821109907456) (blockSize * 2) = ascii "100000000" ∧
    cuid.leftpad (FormatInt 2821109907456) (cuid.blockSize * 2) = some (ascii "00000000") ∧
    Parse (ascii "nw100000000000500070009mnf4") = some (GUID.zero, some .badLength) ∧
    GUID.MarshalJSON [110, 119, 128, 128, 136, 244, 154, 164, 1, 0, 10, 0, 0, 0, 14, 0, 0, 0,
        18, 0, 0, 0, 160, 128, 129, 1] =
      some (34 :: ascii "nw100000000000500070009mnf" ++ [34], none) ∧
    GUID.UnmarshalJSON GUID.zero (34 :: ascii "nw100000000000500070009mnf" ++ [34]) =
      some ([110, 119, 128, 128, 242, 237, 199, 4, 0, 0, 0, 0, 0, 0, 128, 189, 28, 0, 128, 239,
        39, 0, 214, 235, 54, 0], none) ∧
    GUID.String ([110, 119] ++ List.replicate 8 0 ++ [128, 132, 205, 1] ++ List.replicate 12 0) =
      ascii "nw0000000010000000000000000" ∧
    leftPad (FormatInt 1679616) blockSize = ascii "10000" := by
  decide

/-- A GUID of 26 bytes whose timestamp field decodes to a value of `[0, 36^8)`
and whose four other fields decode to values of `[0, 36^4)` has a text of 26
characters, the timestamp on 8 characters and every other field on 4. -/
theorem String_length_of_inBand (g : GUID) (hlen : g.length = 26)
    (hts : 0 ≤ Varint (slice g tsStart tsEnd) ∧ Varint (slice g tsStart tsEnd) < 36 ^ 8)
    (hfp : 0 ≤ Varint (slice g fpStart fpEnd) ∧ Varint (slice g fpStart fpEnd) < 36 ^ 4)
    (hic : 0 ≤ Varint (slice g icStart icEnd) ∧ Varint (slice g icStart icEnd) < 36 ^ 4)
    (hdc : 0 ≤ Varint (slice g dcStart dcEnd) ∧ Varint (slice g dcStart dcEnd) < 36 ^ 4)
    (hrd : 0 ≤ Varint (slice g rdStart rdEnd) ∧ Varint (slice g rdStart rdEnd) < 36 ^ 4) :
    (GUID.String g).length = 26 ∧
    (leftPad (FormatInt (Varint (slice g tsStart tsEnd))) (blockSize * 2)).length = 8 ∧
    (leftPad (FormatInt (Varint (slice g fpStart fpEnd))) blockSize).length = 4 ∧
    (leftPad (FormatInt (Varint (slice g icStart icEnd))) blockSize).length = 4 ∧
    (leftPad (FormatInt (Varint (slice g dcStart dcEnd))) blockSize).length = 4 ∧
    (leftPad (FormatInt (Varint (slice g rdStart rdEnd))) blockSize).length = 4 := by
  obtain ⟨p, t, f, i, d, r, hw, rfl⟩ := exists_mk6 g hlen
  rw [slice_ts hw] at hts ⊢
  rw [slice_fp hw] at hfp ⊢
  rw [slice_ic hw] at hic ⊢
  rw [slice_dc hw] at hdc ⊢
  rw [slice_rd hw] at hrd ⊢
  have pT := (leftPad_FormatInt _ 8 (by norm_num) (by norm_num) hts.1 hts.2).1
  have pF := (leftPad_FormatInt _ 4 (by norm_num) (by norm_num) hfp.1 hfp.2).1
  have pI := (leftPad_FormatInt _ 4 (by norm_num) (by norm_num) hic.1 hic.2).1
  have pD := (leftPad_FormatInt _ 4 (by norm_num) (by norm_num) hdc.1 hdc.2).1
  have pR := (leftPad_FormatInt _ 4 (by norm_num) (by norm_num) hrd.1 hrd.2).1
  refine ⟨?_, pT, pF, pI, pD, pR⟩
  rw [String_mk6 hw]
  exact mk6_length ⟨hw.1, pT, pF, pI, pD, pR⟩

end guid
namespace Go

theorem beVal_concat (n d : Nat) (xs : List Nat) : beVal n (xs ++ [d]) = beVal n xs * 36 + d := by
  rw [beVal_append, beVal_cons, beVal_nil]

theorem digitsFixed_length (w : Nat) : ∀ v, (digitsFixed w v).length = w := by
  induction w with
  | zero => intro v; rfl
  | succ w ih => intro v; simp [digitsFixed, ih]

theorem digitsFixed_lt (w : Nat) : ∀ v, ∀ d ∈ digitsFixed w v, d < 36 := by
  induction w with
  | zero => intro v d hd; simp [digitsFixed] at hd
  | succ w ih =>
    intro v d hd
    simp only [digitsFixed, List.mem_append, List.mem_singleton] at hd
    rcases hd with h | h
    · exact ih _ d h
    · omega

/-- The `k` low-order digits of the value of a digit list are its last `k`
digits, padded with zeros on the left when the list is shorter. -/
theorem digitsFixed_beVal (k : Nat) : ∀ ds : List Nat, (∀ d ∈ ds, d < 36) →
    digitsFixed k (beVal 0 ds) = List.replicate (k - ds.length) 0 ++ ds.drop (ds.length - k) := by
  induction k with
  | zero => intro ds _; simp [digitsFixed]
  | succ k ih =>
    intro ds hds
    rcases List.eq_nil_or_concat ds with rfl | ⟨L, b, rfl⟩
    · have := ih [] (by simp)
      simp only [beVal_nil, List.length_nil, Nat.sub_zero, List.drop_nil, List.append_nil] at this ⊢
      simp only [digitsFixed, Nat.zero_div, Nat.zero_mod, this]
      exact (List.replicate_succ' k 0).symm
    · simp only [List.concat_eq_append] at hds ⊢
      have hb : b < 36 := hds b (by simp)
      have hL : ∀ d ∈ L, d < 36 := fun d hd => hds d (by simp [hd])
      have h1 : (beVal 0 L * 36 + b) / 36 = beVal 0 L := by omega
      have h2 : (beVal 0 L * 36 + b) % 36 = b := by omega
      rw [beVal_concat]
      simp only [digitsFixed, h1, h2, ih L hL, List.length_append, List.length_singleton]
      have e1 : k + 1 - (L.length + 1) = k - L.length := by omega
      have e2 : L.length + 1 - (k + 1) = L.length - k := by omega
      rw [e1, e2, List.drop_append_of_le_length (by omega), List.append_assoc]

theorem beVal_lt (ds : List Nat) : (∀ d ∈ ds, d < 36) → beVal 0 ds < 36 ^ ds.length := by
  induction ds using List.reverseRecOn with
  | nil => intro _; simp [beVal]
  | append_singleton L b ih =>
    intro h
    have hb : b < 36 := h b (by simp)
    have := ih (fun d hd => h d (by simp [hd]))
    rw [beVal_concat, List.length_append, List.length_singleton, pow_succ]
    omega

theorem digitByte_of_valid : ∀ c < 123, (48 ≤ c ∧ c ≤ 57) ∨ (97 ≤ c ∧ c ≤ 122) →
    ∃ d, d < 36 ∧ c = digitByte d := by
  intro c _ h
  rcases h with h | h
  · exact ⟨c - 48, by omega, by unfold digitByte; rw [if_pos (by omega)]; omega⟩
  · exact ⟨c - 87, by omega, by unfold digitByte; rw [if_neg (by omega)]; omega⟩

/-- A text over `0-9a-z` is the image of a list of base-36 digits. -/
theorem exists_digits (s : List Nat)
    (h : ∀ c ∈ s, (48 ≤ c ∧ c ≤ 57) ∨ (97 ≤ c ∧ c ≤ 122)) :
    ∃ ds : List Nat, s = ds.map digitByte ∧ (∀ d ∈ ds, d < 36) ∧ ds.length = s.length := by
  induction s with
  | nil => exact ⟨[], rfl, by simp, rfl⟩
  | cons c s ih =>
    obtain ⟨ds, h1, h2, h3⟩ := ih (fun x hx => h x (by simp [hx]))
    have hc := h c (by simp)
    obtain ⟨d, hd, hcd⟩ := digitByte_of_valid c (by omega) hc
    refine ⟨d :: ds, by simp [hcd, h1], ?_, by simp [h3]⟩
    intro x hx
    rcases List.mem_cons.1 hx with rfl | hx
    · exact hd
    · exact h2 x hx

theorem PutUvarint_isSome (buf : List Nat) : ∀ x : Nat, buf ≠ [] → x < 128 ^ buf.length →
    ∃ out, PutUvarint buf x = some out := by
  induction buf with
  | nil => intro x h; exact absurd rfl h
  | cons b rest ih =>
    intro x _ hx
    unfold PutUvarint
    by_cases h128 : 128 ≤ x
    · rw [if_pos h128]
      have hrest : rest ≠ [] := by
        rintro rfl
        simp at hx; omega
      have hlt : x >>> 7 < 128 ^ rest.length := by
        rw [Nat.shiftRight_eq_div_pow, Nat.div_lt_iff_lt_mul (by norm_num)]
        rw [List.length_cons, pow_succ] at hx
        simpa using hx
      obtain ⟨r, hr⟩ := ih (x >>> 7) hrest hlt
      exact ⟨_, by rw [hr]; rfl⟩
    · rw [if_neg h128]; exact ⟨_, rfl⟩

/-- The value decoded by `Uvarint` from a buffer of at most nine bytes is below
`128 ^ length`. -/
theorem uvarintLoop_lt (buf : List Nat) : ∀ (i acc s : Nat), acc < 2 ^ s →
    uvarintLoop buf i acc s < 2 ^ (s + 7 * buf.length) ∨ uvarintLoop buf i acc s = 0 := by
  induction buf with
  | nil => intro i acc s _; right; rfl
  | cons b rest ih =>
    intro i acc s hacc
    unfold uvarintLoop
    by_cases hi : i = 10
    · right; rw [if_pos hi]
    · rw [if_neg hi]
      have hpow : (2 : Nat) ^ (s + 7) = 2 ^ s * 128 := by rw [pow_add]; norm_num
      have hmono : (2 : Nat) ^ (s + 7) ≤ 2 ^ (s + 7 * (b :: rest).length) :=
        Nat.pow_le_pow_right (by norm_num) (by simp)
      by_cases hb : b < 128
      · rw [if_pos hb]
        by_cases h9 : i = 9 ∧ 1 < b
        · right; rw [if_pos h9]
        · rw [if_neg h9]
          left
          have hle : b <<< s % 18446744073709551616 ≤ b * 2 ^ s := by
            rw [Nat.shiftLeft_eq]; exact Nat.mod_le _ _
          have hor : acc ||| b <<< s % 18446744073709551616 < 2 ^ (s + 7) := by
            apply Nat.or_lt_two_pow
            · exact lt_of_lt_of_le hacc (Nat.pow_le_pow_right (by norm_num) (by omega))
            · rw [hpow]
              have : 0 < 2 ^ s := pow_pos (by norm_num) _
              nlinarith
          exact lt_of_lt_of_le hor hmono
      · rw [if_neg hb]
        have h127 : b &&& 127 < 128 := by
          have := @Nat.and_le_right b 127
          omega
        have hle : (b &&& 127) <<< s % 18446744073709551616 ≤ (b &&& 127) * 2 ^ s := by
          rw [Nat.shiftLeft_eq]; exact Nat.mod_le _ _
        have hor : acc ||| (b &&& 127) <<< s % 18446744073709551616 < 2 ^ (s + 7) := by
          apply Nat.or_lt_two_pow
          · exact lt_of_lt_of_le hacc (Nat.pow_le_pow_right (by norm_num) (by omega))
          · rw [hpow]
            have : 0 < 2 ^ s := pow_pos (by norm_num) _
            nlinarith
        rcases ih (i + 1) _ (s + 7) hor with h | h
        · left
          have e : s + 7 + 7 * rest.length = s + 7 * (b :: rest).length := by
            simp; omega
          rwa [e] at h
        · right; exact h

theorem Uvarint_lt (buf : List Nat) : Uvarint buf < 128 ^ buf.length := by
  have h128 : (128 : Nat) ^ buf.length = 2 ^ (0 + 7 * buf.length) := by
    rw [Nat.zero_add, pow_mul]; norm_num
  rcases uvarintLoop_lt buf 0 0 0 (by norm_num) with h | h
  · rw [h128]; exact h
  · unfold Uvarint; rw [h]; exact pow_pos (by norm_num) _

end Go
namespace Go

theorem map_digitByte_replicate (k : Nat) (ds : List Nat) :
    List.replicate k 48 ++ ds.map digitByte = (List.replicate k 0 ++ ds).map digitByte := by
  simp [digitByte]

theorem PutVarint_isSome (buf : List Nat) (v : Int) (hbuf : buf ≠ []) (h0 : 0 ≤ v)
    (hv : 2 * v < 128 ^ buf.length) (h64 : v < 9223372036854775808) :
    ∃ out, PutVarint buf v = some out := by
  unfold PutVarint
  simp only [show ¬ v < 0 from by omega, if_false]
  have hux : (v % 18446744073709551616).toNat * 2 % 18446744073709551616 = (2 * v).toNat := by
    omega
  rw [hux]
  apply PutUvarint_isSome buf _ hbuf
  have : (((2 * v).toNat : Nat) : Int) < ((128 ^ buf.length : Nat) : Int) := by
    rw [Int.toNat_of_nonneg (by omega)]; exact_mod_cast hv
  exact_mod_cast this

end Go

namespace guid
open Go

/-- The text of an in-band value is its fixed-width base-36 text. -/
theorem leftPad_FormatInt_base36 (v : Int) (w : Nat) (hw1 : 1 ≤ w) (hw : w ≤ 12) (h0 : 0 ≤ v)
    (hv : v < 36 ^ w) : leftPad (FormatInt v) w = base36 w v.toNat := by
  have h13 : v < 36 ^ 13 :=
    lt_of_lt_of_le hv (pow_le_pow_right₀ (by norm_num) (by omega))
  obtain ⟨ds, h1, h2, h3, h4, h5⟩ := FormatInt_spec v h0 h13
  have hlen := h5 w hw1 hv
  have hval : beVal 0 ds = v.toNat := by
    have : ((beVal 0 ds : Nat) : Int) = ((v.toNat : Nat) : Int) := by
      rw [h3, Int.toNat_of_nonneg h0]
    exact_mod_cast this
  have hfix := digitsFixed_beVal w ds h2
  have e0 : ds.length - w = 0 := by omega
  rw [e0, List.drop_zero, hval] at hfix
  unfold base36
  rw [hfix, h1, ← map_digitByte_replicate]
  unfold leftPad
  by_cases hc : w ≤ ds.length
  · have : w - ds.length = 0 := by omega
    simp [hc, this]
  · simp only [List.length_map]
    rw [if_neg (by omega)]

end guid

namespace cuid
open Go

/-- The function `leftpad` returns, for a size of at most nine more than the
length of its input, the last `size` characters of the input, preceded by
zeros when the input is shorter. -/
theorem leftpad_eq (value : List Nat) (size : Nat) (h : size ≤ value.length + 9) :
    leftpad value size =
      some (List.replicate (size - value.length) 48 ++ value.drop (value.length - size)) := by
  unfold leftpad
  by_cases h1 : value.length = size
  · rw [if_pos h1]
    have e1 : size - value.length = 0 := by omega
    have e2 : value.length - size = 0 := by omega
    simp [e1, e2]
  · rw [if_neg h1]
    by_cases h2 : value.length < size
    · have e2 : value.length - size = 0 := by omega
      have hlen : (padding ++ value).length = 9 + value.length := by
        simp [padding]; omega
      simp only [h2, if_true, hlen, e2, List.drop_zero]
      rw [if_neg (by omega)]
      have hsplit : padding = List.replicate (9 - (size - value.length)) 48 ++
          List.replicate (size - value.length) 48 := by
        unfold padding
        rw [← List.replicate_add]
        congr 1
        omega
      have hd : 9 + value.length - size = (List.replicate (9 - (size - value.length)) 48).length := by
        simp; omega
      rw [hsplit, List.append_assoc, hd, List.drop_left]
    · simp only [h2, if_false]
      have e1 : size - value.length = 0 := by omega
      simp [e1]

theorem leftpad_length (value : List Nat) (size : Nat) (h : size ≤ value.length + 9) :
    ∃ r, leftpad value size = some r ∧ r.length = size := by
  refine ⟨_, leftpad_eq value size h, ?_⟩
  simp
  omega

/-- The text that `leftpad` makes of a non-negative value is the fixed-width
base-36 text of its low-order digits. -/
theorem leftpad_FormatInt_base36 (v : Int) (w : Nat) (hw : w ≤ 9) (h0 : 0 ≤ v)
    (hv : v < 36 ^ 13) : leftpad (FormatInt v) w = some (base36 w v.toNat) := by
  obtain ⟨ds, h1, h2, h3, h4, _⟩ := FormatInt_spec v h0 hv
  have hval : beVal 0 ds = v.toNat := by
    have : ((beVal 0 ds : Nat) : Int) = ((v.toNat : Nat) : Int) := by
      rw [h3, Int.toNat_of_nonneg h0]
    exact_mod_cast this
  have hfix := digitsFixed_beVal w ds h2
  rw [hval] at hfix
  rw [leftpad_eq _ _ (by omega), h1]
  unfold base36
  rw [hfix, List.length_map, ← List.map_drop, map_digitByte_replicate]

end cuid
namespace cuid
open Go

section layout

variable {p t c f r1 r2 : List Nat}

theorem cuid_mk6_length (h : Widths p t c f r1 r2) : (CUID.mk6 p t c f r1 r2).length = 25 := by
  obtain ⟨h1, h2, h3, h4, h5, h6⟩ := h
  simp [CUID.mk6, h1, h2, h3, h4, h5, h6]

theorem slice_time (h : Widths p t c f r1 r2) : slice (CUID.mk6 p t c f r1 r2) 1 9 = t := by
  obtain ⟨h1, h2, h3, h4, h5, h6⟩ := h
  have e : CUID.mk6 p t c f r1 r2 = p ++ t ++ (c ++ f ++ r1 ++ r2) := by
    simp [CUID.mk6, List.append_assoc]
  rw [e]; exact slice_mid _ _ _ _ _ h1 (by rw [h2])

theorem slice_counter (h : Widths p t c f r1 r2) :
    slice (CUID.mk6 p t c f r1 r2) 9 13 = c := by
  obtain ⟨h1, h2, h3, h4, h5, h6⟩ := h
  have e : CUID.mk6 p t c f r1 r2 = (p ++ t) ++ c ++ (f ++ r1 ++ r2) := by
    simp [CUID.mk6, List.append_assoc]
  rw [e]; exact slice_mid _ _ _ _ _ (by simp [h1, h2]) (by rw [h3])

theorem slice_fingerprint (h : Widths p t c f r1 r2) :
    slice (CUID.mk6 p t c f r1 r2) 13 17 = f := by
  obtain ⟨h1, h2, h3, h4, h5, h6⟩ := h
  have e : CUID.mk6 p t c f r1 r2 = (p ++ t ++ c) ++ f ++ (r1 ++ r2) := by
    simp [CUID.mk6, List.append_assoc]
  rw [e]; exact slice_mid _ _ _ _ _ (by simp [h1, h2, h3]) (by rw [h4])

theorem slice_rand1 (h : Widths p t c f r1 r2) :
    slice (CUID.mk6 p t c f r1 r2) 17 21 = r1 := by
  obtain ⟨h1, h2, h3, h4, h5, h6⟩ := h
  have e : CUID.mk6 p t c f r1 r2 = (p ++ t ++ c ++ f) ++ r1 ++ r2 := by
    simp [CUID.mk6, List.append_assoc]
  rw [e]; exact slice_mid _ _ _ _ _ (by simp [h1, h2, h3, h4]) (by rw [h5])

theorem slice_rand2 (h : Widths p t c f r1 r2) :
    slice (CUID.mk6 p t c f r1 r2) 21 25 = r2 := by
  obtain ⟨h1, h2, h3, h4, h5, h6⟩ := h
  have e : CUID.mk6 p t c f r1 r2 = (p ++ t ++ c ++ f ++ r1) ++ r2 ++ [] := by
    simp [CUID.mk6, List.append_assoc]
  rw [e]; exact slice_mid _ _ _ _ _ (by simp [h1, h2, h3, h4, h5]) (by rw [h6])

theorem splice_time (h : Widths p t c f r1 r2) (x : List Nat) :
    splice (CUID.mk6 p t c f r1 r2) 1 9 x = CUID.mk6 p x c f r1 r2 := by
  obtain ⟨h1, h2, h3, h4, h5, h6⟩ := h
  have e : CUID.mk6 p t c f r1 r2 = p ++ t ++ (c ++ f ++ r1 ++ r2) := by
    simp [CUID.mk6, List.append_assoc]
  rw [e, splice_mid _ _ _ _ 1 9 h1 (by rw [h2])]
  simp [CUID.mk6, List.append_assoc]

theorem splice_counter (h : Widths p t c f r1 r2) (x : List Nat) :
    splice (CUID.mk6 p t c f r1 r2) 9 13 x = CUID.mk6 p t x f r1 r2 := by
  obtain ⟨h1, h2, h3, h4, h5, h6⟩ := h
  have e : CUID.mk6 p t c f r1 r2 = (p ++ t) ++ c ++ (f ++ r1 ++ r2) := by
    simp [CUID.mk6, List.append_assoc]
  rw [e, splice_mid _ _ _ _ 9 13 (by simp [h1, h2]) (by rw [h3])]
  simp [CUID.mk6, List.append_assoc]

theorem splice_fingerprint (h : Widths p t c f r1 r2) (x : List Nat) :
    splice (CUID.mk6 p t c f r1 r2) 13 17 x = CUID.mk6 p t c x r1 r2 := by
  obtain ⟨h1, h2, h3, h4, h5, h6⟩ := h
  have e : CUID.mk6 p t c f r1 r2 = (p ++ t ++ c) ++ f ++ (r1 ++ r2) := by
    simp [CUID.mk6, List.append_assoc]
  rw [e, splice_mid _ _ _ _ 13 17 (by simp [h1, h2, h3]) (by rw [h4])]
  simp [CUID.mk6, List.append_assoc]

theorem splice_rand1 (h : Widths p t c f r1 r2) (x : List Nat) :
    splice (CUID.mk6 p t c f r1 r2) 17 21 x = CUID.mk6 p t c f x r2 := by
  obtain ⟨h1, h2, h3, h4, h5, h6⟩ := h
  have e : CUID.mk6 p t c f r1 r2 = (p ++ t ++ c ++ f) ++ r1 ++ r2 := by
    simp [CUID.mk6, List.append_assoc]
  rw [e, splice_mid _ _ _ _ 17 21 (by simp [h1, h2, h3, h4]) (by rw [h5])]
  rfl

theorem splice_rand2 (h : Widths p t c f r1 r2) (x : List Nat) :
    splice (CUID.mk6 p t c f r1 r2) 21 25 x = CUID.mk6 p t c f r1 x := by
  obtain ⟨h1, h2, h3, h4, h5, h6⟩ := h
  have e : CUID.mk6 p t c f r1 r2 = (p ++ t ++ c ++ f ++ r1) ++ r2 ++ [] := by
    simp [CUID.mk6, List.append_assoc]
  rw [e, splice_mid _ _ _ _ 21 25 (by simp [h1, h2, h3, h4, h5]) (by rw [h6])]
  simp [CUID.mk6, List.append_assoc]

theorem CUID_SetTime_mk6 (h : Widths p t c f r1 r2) (n : Int) :
    CUID.SetTime (CUID.mk6 p t c f r1 r2) n =
      (PutVarint t (milliseconds n)).map fun x => CUID.mk6 p x c f r1 r2 := by
  unfold CUID.SetTime
  rw [slice_time h]
  congr 1
  funext x
  exact splice_time h x

theorem CUID_SetCounter_mk6 (h : Widths p t c f r1 r2) (v : Int) :
    CUID.SetCounter (CUID.mk6 p t c f r1 r2) v =
      (PutVarint c v).map fun x => CUID.mk6 p t x f r1 r2 := by
  unfold CUID.SetCounter
  rw [slice_counter h]
  congr 1
  funext x
  exact splice_counter h x

theorem CUID_SetFingerprint_mk6 (h : Widths p t c f r1 r2) (v : Int) :
    CUID.SetFingerprint (CUID.mk6 p t c f r1 r2) v =
      (PutVarint f v).map fun x => CUID.mk6 p t c x r1 r2 := by
  unfold CUID.SetFingerprint
  rw [slice_fingerprint h]
  congr 1
  funext x
  exact splice_fingerprint h x

theorem CUID_SetRandom_mk6 (h : Widths p t c f r1 r2) (a b : Int) :
    CUID.SetRandom (CUID.mk6 p t c f r1 r2) a b =
      (PutVarint r1 a).bind fun x =>
        (PutVarint r2 b).map fun y => CUID.mk6 p t c f x y := by
  unfold CUID.SetRandom
  rw [slice_rand1 h]
  cases hx : PutVarint r1 a with
  | none => rfl
  | some x =>
    have hw : Widths p t c f x r2 := by
      obtain ⟨h1, h2, h3, h4, h5, h6⟩ := h
      exact ⟨h1, h2, h3, h4, by rw [PutVarint_length _ _ _ hx, h5], h6⟩
    simp only [Option.map_some', Option.some_bind, splice_rand1 h]
    rw [slice_rand2 hw]
    congr 1
    funext y
    exact splice_rand2 hw y

end layout

/-- Every array of 25 bytes is the concatenation of its six fields. -/
theorem exists_cuid_mk6 (c : CUID) (h : c.length = 25) :
    ∃ p t k f r1 r2, Widths p t k f r1 r2 ∧ c = CUID.mk6 p t k f r1 r2 := by
  refine ⟨c.take 1, (c.drop 1).take 8, (c.drop 9).take 4, (c.drop 13).take 4,
    (c.drop 17).take 4, c.drop 21, ?_, ?_⟩
  · simp [Widths, h]
  · have e : ∀ (l : List Nat) (a b : Nat), l.drop a = (l.drop a).take b ++ l.drop (a + b) := by
      intro l a b
      rw [← List.drop_drop, List.take_append_drop]
    unfold CUID.mk6
    rw [List.append_assoc, List.append_assoc, List.append_assoc, List.append_assoc,
      ← e c 17 4, ← e c 13 4, ← e c 9 4, ← e c 1 8, List.take_append_drop]

theorem cuid_zero_eq_mk6 : CUID.zero = CUID.mk6 [0] (List.replicate 8 0) (List.replicate 4 0)
    (List.replicate 4 0) (List.replicate 4 0) (List.replicate 4 0) := by decide

end cuid
namespace Go

/-- A value decoded by `Varint` from at most four bytes lies in
`[-2^27, 2^27)`. -/
theorem Varint_range4 (buf : List Nat) (h : buf.length ≤ 4) :
    -134217728 ≤ Varint buf ∧ Varint buf < 134217728 := by
  have hU : Uvarint buf < 268435456 := by
    have h1 := Uvarint_lt buf
    have h2 : (128 : Nat) ^ buf.length ≤ 128 ^ 4 := Nat.pow_le_pow_right (by norm_num) h
    have h3 : (128 : Nat) ^ 4 = 268435456 := by norm_num
    omega
  unfold Varint
  simp only [Nat.shiftRight_eq_div_pow, Nat.and_one_is_mod]
  have hx : wrap64 ((Uvarint buf / 2 ^ 1 : Nat) : Int) = ((Uvarint buf / 2 ^ 1 : Nat) : Int) :=
    wrap64_eq (by omega) (by omega)
  rw [hx]
  split <;> omega

end Go

namespace cuid
open Go

theorem CUID_String_mk6 {p t c f r1 r2 : List Nat} (h : Widths p t c f r1 r2) :
    CUID.String (CUID.mk6 p t c f r1 r2) =
      (leftpad (FormatInt (Varint t)) 8).bind fun s1 =>
      (leftpad (FormatInt (Varint c)) 4).bind fun s2 =>
      (leftpad (FormatInt (Varint f)) 4).bind fun s3 =>
      (leftpad (FormatInt (Varint r1)) 4).bind fun s4 =>
      (leftpad (FormatInt (Varint r2)) 4).bind fun s5 =>
      some (ascii "c" ++ s1 ++ s2 ++ s3 ++ s4 ++ s5) := by
  unfold CUID.String
  rw [slice_time h, slice_counter h, slice_fingerprint h, slice_rand1 h, slice_rand2 h]
  rfl

/-- The text of a CUID whose five values are non-negative: the letter `c` and
the fixed-width base-36 texts of the values. -/
theorem CUID_String_mk6_nonneg {p t c f r1 r2 : List Nat} (h : Widths p t c f r1 r2)
    (ht : 0 ≤ Varint t ∧ Varint t < 36 ^ 13) (hc : 0 ≤ Varint c ∧ Varint c < 36 ^ 13)
    (hf : 0 ≤ Varint f ∧ Varint f < 36 ^ 13) (h1 : 0 ≤ Varint r1 ∧ Varint r1 < 36 ^ 13)
    (h2 : 0 ≤ Varint r2 ∧ Varint r2 < 36 ^ 13) :
    CUID.String (CUID.mk6 p t c f r1 r2) =
      some (CUID.mk6 (ascii "c") (base36 8 (Varint t).toNat) (base36 4 (Varint c).toNat)
        (base36 4 (Varint f).toNat) (base36 4 (Varint r1).toNat) (base36 4 (Varint r2).toNat)) := by
  rw [CUID_String_mk6 h, leftpad_FormatInt_base36 _ 8 (by norm_num) ht.1 ht.2,
    leftpad_FormatInt_base36 _ 4 (by norm_num) hc.1 hc.2,
    leftpad_FormatInt_base36 _ 4 (by norm_num) hf.1 hf.2,
    leftpad_FormatInt_base36 _ 4 (by norm_num) h1.1 h1.2,
    leftpad_FormatInt_base36 _ 4 (by norm_num) h2.1 h2.2]
  rfl

/-- The bytes assembled by the setter chain of `Generate` on `CUID{}`. -/
theorem cuid_generate_chain (now c fp a b : Int) :
    ((((CUID.SetTime CUID.zero now).bind fun v => CUID.SetCounter v c).bind
      fun v => CUID.SetFingerprint v fp).bind fun v => CUID.SetRandom v a b) =
    (PutVarint (List.replicate 8 0) (milliseconds now)).bind fun T =>
    (PutVarint (List.replicate 4 0) c).bind fun C =>
    (PutVarint (List.replicate 4 0) fp).bind fun F =>
    (PutVarint (List.replicate 4 0) a).bind fun A =>
    (PutVarint (List.replicate 4 0) b).bind fun B =>
      some (CUID.mk6 [0] T C F A B) := by
  have hw0 : Widths [0] (List.replicate 8 0) (List.replicate 4 0) (List.replicate 4 0)
      (List.replicate 4 0) (List.replicate 4 0) := by simp [Widths]
  rw [cuid_zero_eq_mk6, CUID_SetTime_mk6 hw0]
  cases hT : PutVarint (List.replicate 8 0) (milliseconds now) with
  | none => rfl
  | some T =>
    have hw1 : Widths [0] T (List.replicate 4 0) (List.replicate 4 0)
        (List.replicate 4 0) (List.replicate 4 0) := by
      simp [Widths, PutVarint_length _ _ _ hT]
    simp only [Option.map_some', Option.some_bind, CUID_SetCounter_mk6 hw1]
    cases hC : PutVarint (List.replicate 4 0) c with
    | none => rfl
    | some C =>
      have hw2 : Widths [0] T C (List.replicate 4 0) (List.replicate 4 0)
          (List.replicate 4 0) := by
        simp [Widths, PutVarint_length _ _ _ hT, PutVarint_length _ _ _ hC]
      simp only [Option.map_some', Option.some_bind, CUID_SetFingerprint_mk6 hw2]
      cases hF : PutVarint (List.replicate 4 0) fp with
      | none => rfl
      | some F =>
        have hw3 : Widths [0] T C F (List.replicate 4 0) (List.replicate 4 0) := by
          simp [Widths, PutVarint_length _ _ _ hT, PutVarint_length _ _ _ hC,
            PutVarint_length _ _ _ hF]
        simp only [Option.map_some', Option.some_bind, CUID_SetRandom_mk6 hw3]
        cases hA : PutVarint (List.replicate 4 0) a with
        | none => rfl
        | some A =>
          simp only [Option.some_bind]
          cases hB : PutVarint (List.replicate 4 0) b with
          | none => rfl
          | some B => rfl

/-- The value returned by `randomInt32` on a successful read lies in
`[0, 52488]`. -/
theorem randomInt32_range (buf : List Nat) :
    (randomInt32 (buf, none)).2 = none ∧ 0 ≤ (randomInt32 (buf, none)).1 ∧
      (randomInt32 (buf, none)).1 ≤ 52488 := by
  have hv := Varint_range4 (buf.take 4) (by simp)
  unfold randomInt32
  simp only [maxInt]
  refine ⟨trivial, ?_⟩
  by_cases hneg : Varint (buf.take 4) < 0
  · simp only [hneg, if_true]
    rw [wrap64_eq (x := -Varint (buf.take 4)) (by omega) (by omega),
      wrap64_eq (by omega) (by omega), wrap32_eq ⟨by omega, by omega⟩]
    constructor <;> omega
  · simp only [hneg, if_false]
    rw [wrap64_eq (by omega) (by omega), wrap32_eq ⟨by omega, by omega⟩]
    constructor <;> omega

end cuid
namespace cuid
open Go

/-- C11: for every CUID value `String()` returns, without panicking, a text of
exactly 25 characters; and `leftpad(value, size)` returns, for size 4 and for
size 8, exactly `size` characters: the value preceded by `0`s when it is not
longer than `size`, its last `size` characters when it is not shorter. -/
theorem string_length (c : CUID) :
    (∃ s, CUID.String c = some s ∧ s.length = 25) ∧
    ∀ (value : List Nat) (size : Nat), size = 4 ∨ size = 8 →
      ∃ r, leftpad value size = some r ∧ r.length = size ∧
        (value.length ≤ size → r = List.replicate (size - value.length) 48 ++ value) ∧
        (size ≤ value.length → r = value.drop (value.length - size)) := by
  constructor
  · obtain ⟨s1, e1, l1⟩ := leftpad_length (FormatInt (Varint (slice c 1 9))) (blockSize * 2)
      (by simp [blockSize])
    obtain ⟨s2, e2, l2⟩ := leftpad_length (FormatInt (Varint (slice c 9 13))) blockSize
      (by simp [blockSize])
    obtain ⟨s3, e3, l3⟩ := leftpad_length (FormatInt (Varint (slice c 13 17))) blockSize
      (by simp [blockSize])
    obtain ⟨s4, e4, l4⟩ := leftpad_length (FormatInt (Varint (slice c 17 21))) blockSize
      (by simp [blockSize])
    obtain ⟨s5, e5, l5⟩ := leftpad_length (FormatInt (Varint (slice c 21 25))) blockSize
      (by simp [blockSize])
    refine ⟨ascii "c" ++ s1 ++ s2 ++ s3 ++ s4 ++ s5, ?_, ?_⟩
    · simp only [CUID.String, e1, e2, e3, e4, e5, Option.some_bind]
    · have hc : (ascii "c").length = 1 := by decide
      simp only [List.length_append, hc, l1, l2, l3, l4, l5, blockSize]
  · intro value size hsize
    have h9 : size ≤ value.length + 9 := by omega
    refine ⟨_, leftpad_eq value size h9, by simp; omega, ?_, ?_⟩
    · intro h
      have : value.length - size = 0 := by omega
      rw [this, List.drop_zero]
    · intro h
      have : size - value.length = 0 := by omega
      rw [this]
      rfl

/-- Witness of C11: the zero CUID. -/
theorem string_length_witness :
    (∃ s, CUID.String CUID.zero = some s ∧ s.length = 25) ∧
    ∀ (value : List Nat) (size : Nat), size = 4 ∨ size = 8 →
      ∃ r, leftpad value size = some r ∧ r.length = size ∧
        (value.length ≤ size → r = List.replicate (size - value.length) 48 ++ value) ∧
        (size ≤ value.length → r = value.drop (value.length - size)) :=
  string_length CUID.zero

end cuid

namespace guid
open Go

/-- C13: when the read on the random source returns an error, `Generate`
returns that error together with the all-zero identifier: the guid generator
on its only read, the cuid generator on its first read and on its second read
after a successful first one. -/
theorem generate_read_error (g : stdGenerator) (now : Int) (buf : List Nat) (msg : String)
    (pfx : Nat × Nat) (c : cuid.Generator) (now' : Int) (buf1 buf2 : List Nat) :
    (g.Generate now (buf, some msg) pfx).2 = some (List.replicate 26 0, some (.reader msg)) ∧
    (c.Generate now' (buf1, some msg) (buf2, none)).2 =
      some (List.replicate 25 0, some (.reader msg)) ∧
    (c.Generate now' (buf1, none) (buf2, some msg)).2 =
      some (List.replicate 25 0, some (.reader msg)) := by
  refine ⟨rfl, rfl, ?_⟩
  have h1 := cuid.randomInt32_range buf1
  unfold cuid.Generator.Generate
  rcases hr : cuid.randomInt32 (buf1, none) with ⟨r, e⟩
  rw [hr] at h1
  obtain ⟨he, _⟩ := h1
  simp only at he
  subst he
  rfl

/-- C16: the text of `TestGUID` is the documented one. -/
theorem testGUID_string : GUID.String TestGUID = ascii "test0test0test0test0test00" := by
  decide

/-- C18, evaluated where it fails: three successive successful `Generate`
calls on a generator whose counter starts at `36^4 - 1` return identifiers
whose counter blocks read `zzzz`, `0000`, `0000`, in both families; the second
and the third are the same. -/
theorem successive_counters_repeat :
    (cuid.GenerateAll ⟨0, 1679615⟩
        (List.replicate 3 (0, ([0, 0, 0, 0], none), ([0, 0, 0, 0], none)))).map
      cuid.counterText = [some (ascii "zzzz"), some (ascii "0000"), some (ascii "0000")] ∧
    (GenerateAll (110, 119) ⟨0, 1679615, 5⟩
        (List.replicate 3 (0, (List.replicate 16 0, none)))).map
      incrText = [some (ascii "zzzz"), some (ascii "0000"), some (ascii "0000")] ∧
    (cuid.GenerateAll ⟨0, 1679615⟩
        (List.replicate 3 (0, ([0, 0, 0, 0], none), ([0, 0, 0, 0], none)))).map
      (fun r => r.map Prod.snd) = [some none, some none, some none] ∧
    (GenerateAll (110, 119) ⟨0, 1679615, 5⟩
        (List.replicate 3 (0, (List.replicate 16 0, none)))).map
      (fun r => r.map Prod.snd) = [some none, some none, some none] := by
  decide

end guid
namespace guid
open Go

theorem SetGlobalPrefixBytes_done (s : Globals) (b1 b2 : Nat) (h : s.prefixOnce = true) :
    SetGlobalPrefixBytes s b1 b2 = (s, false) := by
  unfold SetGlobalPrefixBytes
  rw [if_pos h]

theorem SetGlobalPrefixBytes_done_after (s : Globals) (b1 b2 : Nat) :
    (SetGlobalPrefixBytes s b1 b2).1.prefixOnce = true := by
  unfold SetGlobalPrefixBytes
  split
  · assumption
  · split <;> rfl

theorem SetGlobalPrefixBytes_valid (s : Globals) (b1 b2 : Nat)
    (h : isValidPrefixByte s.globalPrefix.1 = true ∧ isValidPrefixByte s.globalPrefix.2 = true) :
    isValidPrefixByte (SetGlobalPrefixBytes s b1 b2).1.globalPrefix.1 = true ∧
      isValidPrefixByte (SetGlobalPrefixBytes s b1 b2).1.globalPrefix.2 = true := by
  unfold SetGlobalPrefixBytes
  split
  · exact h
  · split
    · exact h
    · rename_i hv
      simp only [Bool.not_eq_true, Bool.not_eq_false', Bool.and_eq_true] at hv
      simpa using hv

theorem setPrefixCalls_valid (calls : List (Nat × Nat)) : ∀ s : Globals,
    isValidPrefixByte s.globalPrefix.1 = true ∧ isValidPrefixByte s.globalPrefix.2 = true →
    isValidPrefixByte (setPrefixCalls s calls).globalPrefix.1 = true ∧
      isValidPrefixByte (setPrefixCalls s calls).globalPrefix.2 = true := by
  induction calls with
  | nil => intro s h; exact h
  | cons b rest ih =>
    intro s h
    exact ih _ (SetGlobalPrefixBytes_valid s b.1 b.2 h)

theorem setPrefixCalls_done (calls : List (Nat × Nat)) : ∀ s : Globals,
    s.prefixOnce = true → setPrefixCalls s calls = s := by
  induction calls with
  | nil => intro s _; rfl
  | cons b rest ih =>
    intro s h
    simp only [setPrefixCalls, SetGlobalPrefixBytes_done s b.1 b.2 h]
    exact ih s h

/-- C15: a `SetGlobalPrefixBytes` call made after the first one changes nothing
and does not panic; the first call stores its two bytes when both are in
`[0-9a-z]`, and otherwise panics and leaves the prefix as it was; a call never
stores a byte outside `[0-9a-z]`; hence after any sequence of calls from the
initial state both prefix bytes are in `[0-9a-z]`. -/
theorem setGlobalPrefixBytes_once (s : Globals) (b1 b2 : Nat) (calls : List (Nat × Nat)) :
    (s.prefixOnce = true → SetGlobalPrefixBytes s b1 b2 = (s, false)) ∧
    (s.prefixOnce = false → isValidPrefixByte b1 = true → isValidPrefixByte b2 = true →
      SetGlobalPrefixBytes s b1 b2 = (⟨(b1, b2), true⟩, false)) ∧
    (s.prefixOnce = false → (isValidPrefixByte b1 = false ∨ isValidPrefixByte b2 = false) →
      SetGlobalPrefixBytes s b1 b2 = (⟨s.globalPrefix, true⟩, true)) ∧
    ((isValidPrefixByte b1 = false ∨ isValidPrefixByte b2 = false) →
      (SetGlobalPrefixBytes s b1 b2).1.globalPrefix = s.globalPrefix) ∧
    (setPrefixCalls (SetGlobalPrefixBytes s b1 b2).1 calls = (SetGlobalPrefixBytes s b1 b2).1) ∧
    (isValidPrefixByte (setPrefixCalls Globals.init calls).globalPrefix.1 = true ∧
      isValidPrefixByte (setPrefixCalls Globals.init calls).globalPrefix.2 = true) := by
  refine ⟨SetGlobalPrefixBytes_done s b1 b2, ?_, ?_, ?_,
    setPrefixCalls_done calls _ (SetGlobalPrefixBytes_done_after s b1 b2),
    setPrefixCalls_valid calls Globals.init (by decide)⟩
  · intro h h1 h2
    simp [SetGlobalPrefixBytes, h, h1, h2]
  · intro h hb
    rcases hb with hb | hb <;> simp [SetGlobalPrefixBytes, h, hb]
  · intro hb
    unfold SetGlobalPrefixBytes
    split
    · rfl
    · rcases hb with hb | hb <;> simp [hb]

/-- Witness of C15: from the initial state, the call `('z', '9')` followed by
the calls `('!', '!')` and `('a', 'a')`. -/
theorem setGlobalPrefixBytes_once_witness :
    SetGlobalPrefixBytes Globals.init 122 57 = (⟨(122, 57), true⟩, false) ∧
    SetGlobalPrefixBytes Globals.init 33 57 = (⟨(110, 119), true⟩, true) ∧
    setPrefixCalls (SetGlobalPrefixBytes Globals.init 122 57).1 [(33, 33), (97, 97)] =
      ⟨(122, 57), true⟩ :=
  ⟨(setGlobalPrefixBytes_once Globals.init 122 57 []).2.1 rfl (by decide) (by decide),
   (setGlobalPrefixBytes_once Globals.init 33 57 []).2.2.1 rfl (Or.inl (by decide)),
   (setGlobalPrefixBytes_once Globals.init 122 57 [(33, 33), (97, 97)]).2.2.2.2.1.trans
     (by decide)⟩

theorem String_take_two (a b : Nat) (t f i d r : List Nat) (h : Widths [a, b] t f i d r) :
    GUID.PrefixBytes (GUID.mk6 [a, b] t f i d r) = (a, b) ∧
      (GUID.String (GUID.mk6 [a, b] t f i d r)).take 2 = [a, b] := by
  constructor
  · simp [GUID.PrefixBytes, GUID.mk6]
  · rw [String_mk6 h]
    simp [GUID.mk6]

/-- C14: when the first `SetGlobalPrefixBytes` call is made with two bytes of
`[0-9a-z]`, every GUID that `Generate` returns afterwards, whatever
`SetGlobalPrefixBytes` calls are made in between, has these two bytes as its
`PrefixBytes()` and as the first two characters of its `String()`. -/
theorem generate_uses_global_prefix (b1 b2 : Nat) (h1 : isValidPrefixByte b1 = true)
    (h2 : isValidPrefixByte b2 = true) (later : List (Nat × Nat)) (g : stdGenerator)
    (now : Int) (rd : ReadResult) (g' : stdGenerator) (v : GUID)
    (h : g.Generate now rd
      (setPrefixCalls (SetGlobalPrefixBytes Globals.init b1 b2).1 later).globalPrefix =
        (g', some (v, none))) :
    GUID.PrefixBytes v = (b1, b2) ∧ (GUID.String v).take 2 = [b1, b2] := by
  have hset : SetGlobalPrefixBytes Globals.init b1 b2 = (⟨(b1, b2), true⟩, false) := by
    simp [SetGlobalPrefixBytes, Globals.init, h1, h2]
  rw [hset, setPrefixCalls_done later _ rfl] at h
  obtain ⟨r, T, F, I, D, R, _, hT, hF, hI, hD, hR, rfl⟩ := Generate_ok g now rd _ g' v h
  exact String_take_two b1 b2 T F I D R ⟨rfl, by rw [PutVarint_length _ _ _ hT]; rfl,
    by rw [PutVarint_length _ _ _ hF]; rfl, by rw [PutVarint_length _ _ _ hI]; rfl,
    by rw [PutVarint_length _ _ _ hD]; rfl, by rw [PutVarint_length _ _ _ hR]; rfl⟩

/-- Witness of C14: the prefix `('z', '9')`, a later call `('a', 'a')`, and the
generator with fingerprint 5 and counters 7 and 9 at 2021-01-01T00:00:00Z: the
text starts with `z9`. -/
theorem generate_uses_global_prefix_witness :
    GUID.PrefixBytes ([122, 57, 128, 192, 243, 179, 215, 93, 0, 0, 10, 0, 0, 0, 14, 0, 0, 0,
        18, 0, 0, 0, 160, 128, 129, 1]) = (122, 57) ∧
    (GUID.String [122, 57, 128, 192, 243, 179, 215, 93, 0, 0, 10, 0, 0, 0, 14, 0, 0, 0,
        18, 0, 0, 0, 160, 128, 129, 1]).take 2 = ascii "z9" :=
  generate_uses_global_prefix 122 57 (by decide) (by decide) [(97, 97)] ⟨5, 7, 9⟩
    1609459200000000000 (List.replicate 16 0, none) ⟨5, 8, 8⟩ _ (by decide)

end guid
namespace Go

/-- A block of `w` characters over `0-9a-z` is read by `ParseInt` as a value of
`[0, 36^w)`, of which it is the fixed-width base-36 text. -/
theorem canonical_block (s : List Nat) (w : Nat) (hlen : s.length = w) (hw1 : 1 ≤ w)
    (hw : w ≤ 8) (hs : ∀ c ∈ s, (48 ≤ c ∧ c ≤ 57) ∨ (97 ≤ c ∧ c ≤ 122)) :
    ∃ v : Int, ParseInt s = .ok v ∧ 0 ≤ v ∧ v < 36 ^ w ∧ base36 w v.toNat = s := by
  obtain ⟨ds, h1, h2, h3⟩ := exists_digits s hs
  have hlt := beVal_lt ds h2
  have hle : (36 : Nat) ^ ds.length ≤ 36 ^ 8 := Nat.pow_le_pow_right (by norm_num) (by omega)
  have h8 : (36 : Nat) ^ 8 = 2821109907456 := by norm_num
  have hne : ds ≠ [] := by
    rintro rfl
    simp at h3; omega
  refine ⟨(beVal 0 ds : Int), ?_, by omega, ?_, ?_⟩
  · rw [h1]; exact ParseInt_digits ds hne h2 (by omega)
  · rw [← hlen, ← h3]; exact_mod_cast hlt
  · have hfix := digitsFixed_beVal w ds h2
    have e1 : w - ds.length = 0 := by omega
    have e2 : ds.length - w = 0 := by omega
    rw [e1, e2] at hfix
    simp only [List.replicate_zero, List.nil_append, List.drop_zero] at hfix
    unfold base36
    rw [Int.toNat_ofNat, hfix, h1]

end Go

namespace cuid
open Go

/-- What `ParseBytes` computes on a text that starts with `c` and whose five
blocks parse to in-band values. -/
theorem ParseBytes_mk6 (s1 s2 s3 s4 s5 : List Nat)
    (hw : Widths [99] s1 s2 s3 s4 s5) (ms vc vf va vb : Int)
    (h1 : ParseInt s1 = .ok ms) (h2 : ParseInt s2 = .ok vc) (h3 : ParseInt s3 = .ok vf)
    (h4 : ParseInt s4 = .ok va) (h5 : ParseInt s5 = .ok vb)
    (hms : 0 ≤ ms ∧ ms < 36 ^ 8) (hvc : isInt32 vc) (hvf : isInt32 vf) (hva : isInt32 va)
    (hvb : isInt32 vb) :
    ParseBytes (CUID.mk6 [99] s1 s2 s3 s4 s5) =
      (PutVarint (List.replicate 8 0) ms).bind fun T =>
      (PutVarint (List.replicate 4 0) vc).bind fun C =>
      (PutVarint (List.replicate 4 0) vf).bind fun F =>
      (PutVarint (List.replicate 4 0) va).bind fun A =>
      (PutVarint (List.replicate 4 0) vb).bind fun B =>
        some (CUID.mk6 [99] T C F A B, none) := by
  have hw0 : Widths [99] (List.replicate 8 0) (List.replicate 4 0) (List.replicate 4 0)
      (List.replicate 4 0) (List.replicate 4 0) := by simp [Widths]
  have hg0 : CUID.zero.set 0 prefixByte =
      CUID.mk6 [99] (List.replicate 8 0) (List.replicate 4 0) (List.replicate 4 0)
        (List.replicate 4 0) (List.replicate 4 0) := by decide
  have hhead : (CUID.mk6 [99] s1 s2 s3 s4 s5).getD 0 0 = prefixByte := by
    simp [CUID.mk6, prefixByte]
  unfold ParseBytes
  rw [if_neg (by rw [cuid_mk6_length hw]; decide), if_neg (by rw [hhead]; decide), hg0,
    slice_time hw, slice_counter hw, slice_fingerprint hw, slice_rand1 hw, slice_rand2 hw,
    h1, h2, h3, h4, h5]
  simp only [CUID_SetTime_mk6 hw0, milliseconds_unixNanoOfMillis ms hms.1 hms.2, wrap32_eq hvc,
    wrap32_eq hvf, wrap32_eq hva, wrap32_eq hvb]
  cases hT : PutVarint (List.replicate 8 0) ms with
  | none => rfl
  | some T =>
    have hw1 : Widths [99] T (List.replicate 4 0) (List.replicate 4 0)
        (List.replicate 4 0) (List.replicate 4 0) := by
      simp [Widths, PutVarint_length _ _ _ hT]
    simp only [Option.map_some', Option.some_bind, CUID_SetCounter_mk6 hw1]
    cases hC : PutVarint (List.replicate 4 0) vc with
    | none => rfl
    | some C =>
      have hw2 : Widths [99] T C (List.replicate 4 0) (List.replicate 4 0)
          (List.replicate 4 0) := by
        simp [Widths, PutVarint_length _ _ _ hT, PutVarint_length _ _ _ hC]
      simp only [Option.map_some', Option.some_bind, CUID_SetFingerprint_mk6 hw2]
      cases hF : PutVarint (List.replicate 4 0) vf with
      | none => rfl
      | some F =>
        have hw3 : Widths [99] T C F (List.replicate 4 0) (List.replicate 4 0) := by
          simp [Widths, PutVarint_length _ _ _ hT, PutVarint_length _ _ _ hC,
            PutVarint_length _ _ _ hF]
        simp only [Option.map_some', Option.some_bind, CUID_SetRandom_mk6 hw3]
        cases hA : PutVarint (List.replicate 4 0) va with
        | none => rfl
        | some A =>
          simp only [Option.some_bind]
          cases hB : PutVarint (List.replicate 4 0) vb with
          | none => rfl
          | some B => rfl

end cuid
namespace guid
open Go

/-- The text of a GUID whose fields were written from in-band values. -/
theorem String_canonical (p : List Nat) (ms vf vi vd vr : Int) (T F I D R : List Nat)
    (hp : p.length = 2)
    (hT : PutVarint (List.replicate 8 0) ms = some T)
    (hF : PutVarint (List.replicate 4 0) vf = some F)
    (hI : PutVarint (List.replicate 4 0) vi = some I)
    (hD : PutVarint (List.replicate 4 0) vd = some D)
    (hR : PutVarint (List.replicate 4 0) vr = some R)
    (hms : 0 ≤ ms ∧ ms < 36 ^ 8) (hvf : 0 ≤ vf ∧ vf < 36 ^ 4) (hvi : 0 ≤ vi ∧ vi < 36 ^ 4)
    (hvd : 0 ≤ vd ∧ vd < 36 ^ 4) (hvr : 0 ≤ vr ∧ vr < 36 ^ 4) :
    Widths p T F I D R ∧ Varint T = ms ∧ Varint F = vf ∧ Varint I = vi ∧ Varint D = vd ∧
      Varint R = vr ∧
      GUID.String (GUID.mk6 p T F I D R) =
        GUID.mk6 p (base36 8 ms.toNat) (base36 4 vf.toNat) (base36 4 vi.toNat)
          (base36 4 vd.toNat) (base36 4 vr.toNat) := by
  have hw : Widths p T F I D R := by
    simp [Widths, hp, PutVarint_length _ _ _ hT, PutVarint_length _ _ _ hF,
      PutVarint_length _ _ _ hI, PutVarint_length _ _ _ hD, PutVarint_length _ _ _ hR]
  have h8 : (36 : Int) ^ 8 = 2821109907456 := by norm_num
  have h4 : (36 : Int) ^ 4 = 1679616 := by norm_num
  have eT := Varint_PutVarint _ ms T hT (by simp) (by omega) (by omega)
  have eF := Varint_PutVarint _ vf F hF (by simp) (by omega) (by omega)
  have eI := Varint_PutVarint _ vi I hI (by simp) (by omega) (by omega)
  have eD := Varint_PutVarint _ vd D hD (by simp) (by omega) (by omega)
  have eR := Varint_PutVarint _ vr R hR (by simp) (by omega) (by omega)
  refine ⟨hw, eT, eF, eI, eD, eR, ?_⟩
  rw [String_mk6 hw, eT, eF, eI, eD, eR,
    leftPad_FormatInt_base36 ms 8 (by norm_num) (by norm_num) hms.1 hms.2,
    leftPad_FormatInt_base36 vf 4 (by norm_num) (by norm_num) hvf.1 hvf.2,
    leftPad_FormatInt_base36 vi 4 (by norm_num) (by norm_num) hvi.1 hvi.2,
    leftPad_FormatInt_base36 vd 4 (by norm_num) (by norm_num) hvd.1 hvd.2,
    leftPad_FormatInt_base36 vr 4 (by norm_num) (by norm_num) hvr.1 hvr.2]

theorem PutVarint_block8 (v : Int) (h0 : 0 ≤ v) (hv : v < 36 ^ 8) :
    ∃ out, PutVarint (List.replicate 8 0) v = some out := by
  have h8 : (36 : Int) ^ 8 = 2821109907456 := by norm_num
  exact PutVarint_isSome _ v (by simp) h0 (by simp; omega) (by omega)

theorem PutVarint_block4 (v : Int) (h0 : 0 ≤ v) (hv : v < 134217728) :
    ∃ out, PutVarint (List.replicate 4 0) v = some out :=
  PutVarint_isSome _ v (by simp) h0 (by simp; omega) (by omega)

/-- Parsing a text of 26 characters over `0-9a-z`: the GUID returned, its text
and its decoded fields. -/
theorem Parse_canonical (s : List Nat) (hlen : s.length = 26)
    (hs : ∀ c ∈ s, (48 ≤ c ∧ c ≤ 57) ∨ (97 ≤ c ∧ c ≤ 122)) :
    ∃ g, Parse s = some (g, none) ∧ GUID.String g = s ∧
      ParseInt (slice s tsStart tsEnd) = .ok (Varint (slice g tsStart tsEnd)) ∧
      ParseInt (slice s fpStart fpEnd) = .ok (GUID.Fingerprint g) ∧
      ParseInt (slice s icStart icEnd) = .ok (GUID.Counters g).1 ∧
      ParseInt (slice s dcStart dcEnd) = .ok (GUID.Counters g).2 ∧
      ParseInt (slice s rdStart rdEnd) = .ok (GUID.Random g) := by
  obtain ⟨p, s1, s2, s3, s4, s5, hw, rfl⟩ := exists_mk6 s hlen
  obtain ⟨a, b, rfl⟩ := List.length_eq_two.1 hw.1
  have hmem : ∀ (l : List Nat), (∀ c ∈ l, c ∈ GUID.mk6 [a, b] s1 s2 s3 s4 s5) →
      ∀ c ∈ l, (48 ≤ c ∧ c ≤ 57) ∨ (97 ≤ c ∧ c ≤ 122) := fun l hl c hc => hs c (hl c hc)
  obtain ⟨v1, p1, n1, b1, t1⟩ := canonical_block s1 8 hw.2.1 (by norm_num) (by norm_num)
    (hmem s1 (fun c hc => by simp [GUID.mk6, hc]))
  obtain ⟨v2, p2, n2, b2, t2⟩ := canonical_block s2 4 hw.2.2.1 (by norm_num) (by norm_num)
    (hmem s2 (fun c hc => by simp [GUID.mk6, hc]))
  obtain ⟨v3, p3, n3, b3, t3⟩ := canonical_block s3 4 hw.2.2.2.1 (by norm_num) (by norm_num)
    (hmem s3 (fun c hc => by simp [GUID.mk6, hc]))
  obtain ⟨v4, p4, n4, b4, t4⟩ := canonical_block s4 4 hw.2.2.2.2.1 (by norm_num) (by norm_num)
    (hmem s4 (fun c hc => by simp [GUID.mk6, hc]))
  obtain ⟨v5, p5, n5, b5, t5⟩ := canonical_block s5 4 hw.2.2.2.2.2 (by norm_num) (by norm_num)
    (hmem s5 (fun c hc => by simp [GUID.mk6, hc]))
  have h4 : (36 : Int) ^ 4 = 1679616 := by norm_num
  have hmax : maxInt = 1679616 := rfl
  obtain ⟨T, hT⟩ := PutVarint_block8 v1 n1 b1
  obtain ⟨F, hF⟩ := PutVarint_block4 v2 n2 (by omega)
  obtain ⟨I, hI⟩ := PutVarint_block4 v3 n3 (by omega)
  obtain ⟨D, hD⟩ := PutVarint_block4 v4 n4 (by omega)
  obtain ⟨R, hR⟩ := PutVarint_block4 v5 n5 (by omega)
  have hparse := Parse_mk6 a b s1 s2 s3 s4 s5 hw v1 v2 v3 v4 v5 p1 p2 p3 p4 p5 ⟨n1, b1⟩
    ⟨n2, by omega⟩ ⟨n3, by omega⟩ ⟨n4, by omega⟩ ⟨n5, by omega⟩
  rw [hT, hF, hI, hD, hR] at hparse
  obtain ⟨hwg, eT, eF, eI, eD, eR, hstr⟩ := String_canonical [a, b] v1 v2 v3 v4 v5 T F I D R rfl
    hT hF hI hD hR ⟨n1, b1⟩ ⟨n2, b2⟩ ⟨n3, b3⟩ ⟨n4, b4⟩ ⟨n5, b5⟩
  refine ⟨GUID.mk6 [a, b] T F I D R, hparse, ?_, ?_, ?_, ?_, ?_, ?_⟩
  · rw [hstr, t1, t2, t3, t4, t5]
  · rw [slice_ts hw, slice_ts hwg, eT]; exact p1
  · rw [slice_fp hw, GUID.Fingerprint, slice_fp hwg, eF, wrap32_eq ⟨by omega, by omega⟩]
    exact p2
  · have hi : isInt32 v3 := ⟨by omega, by omega⟩
    simp only [GUID.Counters, slice_ic hw, slice_ic hwg, eI, wrap32_eq hi]
    exact p3
  · have hi : isInt32 v4 := ⟨by omega, by omega⟩
    simp only [GUID.Counters, slice_dc hw, slice_dc hwg, eD, wrap32_eq hi]
    exact p4
  · rw [slice_rd hw, GUID.Random, slice_rd hwg, eR, wrap32_eq ⟨by omega, by omega⟩]
    exact p5

end guid
namespace cuid
open Go

/-- The text and the decoded fields of a CUID whose fields were written from
non-negative values that fit them. -/
theorem CUID_String_canonical (ms vc vf va vb : Int) (T C F A B : List Nat)
    (hT : PutVarint (List.replicate 8 0) ms = some T)
    (hC : PutVarint (List.replicate 4 0) vc = some C)
    (hF : PutVarint (List.replicate 4 0) vf = some F)
    (hA : PutVarint (List.replicate 4 0) va = some A)
    (hB : PutVarint (List.replicate 4 0) vb = some B)
    (hms : 0 ≤ ms ∧ ms < 36 ^ 8) (hvc : 0 ≤ vc ∧ vc < 134217728)
    (hvf : 0 ≤ vf ∧ vf < 134217728) (hva : 0 ≤ va ∧ va < 134217728)
    (hvb : 0 ≤ vb ∧ vb < 134217728) :
    Widths [99] T C F A B ∧ Varint T = ms ∧ Varint C = vc ∧ Varint F = vf ∧ Varint A = va ∧
      Varint B = vb ∧
      CUID.String (CUID.mk6 [99] T C F A B) =
        some (CUID.mk6 (ascii "c") (base36 8 ms.toNat) (base36 4 vc.toNat) (base36 4 vf.toNat)
          (base36 4 va.toNat) (base36 4 vb.toNat)) := by
  have hw : Widths [99] T C F A B := by
    simp [Widths, PutVarint_length _ _ _ hT, PutVarint_length _ _ _ hC,
      PutVarint_length _ _ _ hF, PutVarint_length _ _ _ hA, PutVarint_length _ _ _ hB]
  have h8 : (36 : Int) ^ 8 = 2821109907456 := by norm_num
  have h13 : (36 : Int) ^ 13 = 170581728179578208256 := by norm_num
  have eT := Varint_PutVarint _ ms T hT (by simp) (by omega) (by omega)
  have eC := Varint_PutVarint _ vc C hC (by simp) (by omega) (by omega)
  have eF := Varint_PutVarint _ vf F hF (by simp) (by omega) (by omega)
  have eA := Varint_PutVarint _ va A hA (by simp) (by omega) (by omega)
  have eB := Varint_PutVarint _ vb B hB (by simp) (by omega) (by omega)
  refine ⟨hw, eT, eC, eF, eA, eB, ?_⟩
  rw [CUID_String_mk6_nonneg hw (by rw [eT]; omega) (by rw [eC]; omega) (by rw [eF]; omega)
    (by rw [eA]; omega) (by rw [eB]; omega), eT, eC, eF, eA, eB]

/-- C12: a generator with counter `c` and fingerprint `f` in `[0, 36^4)`, at a
clock reading within millisecond `t` of `[0, 36^8)`, with two reads that
succeed, returns without error a CUID whose first byte is `c`, whose `Time()`
is `t` ms, `Counter()` is `c`, `Fingerprint()` is `f` (the generator keeps its
fingerprint), and whose `String()` is `c` followed by the 8-digit base-36 text
of `t` and the 4-digit base-36 texts of `c`, `f` and the two random values. -/
theorem generate_spec (g : Generator) (hc : 0 ≤ g.Counter ∧ g.Counter < 36 ^ 4)
    (hf : 0 ≤ g.Fingerprint ∧ g.Fingerprint < 36 ^ 4) (now t : Int)
    (ht : 0 ≤ t ∧ t < 36 ^ 8) (hnow : t * 1000000 ≤ now ∧ now < (t + 1) * 1000000)
    (buf1 buf2 : List Nat) :
    ∃ v, (g.Generate now (buf1, none) (buf2, none)).2 = some (v, none) ∧
      (g.Generate now (buf1, none) (buf2, none)).1.Fingerprint = g.Fingerprint ∧
      v.length = 25 ∧ v.getD 0 0 = 99 ∧ CUID.Time v = t * 1000000 ∧
      CUID.Counter v = g.Counter ∧ CUID.Fingerprint v = g.Fingerprint ∧
      CUID.Random v = ((randomInt32 (buf1, none)).1, (randomInt32 (buf2, none)).1) ∧
      CUID.String v = some (ascii "c" ++ base36 8 t.toNat ++ base36 4 g.Counter.toNat ++
        base36 4 g.Fingerprint.toNat ++ base36 4 (randomInt32 (buf1, none)).1.toNat ++
        base36 4 (randomInt32 (buf2, none)).1.toNat) := by
  have h4 : (36 : Int) ^ 4 = 1679616 := by norm_num
  have h8 : (36 : Int) ^ 8 = 2821109907456 := by norm_num
  have hms : milliseconds now = t := by
    rw [milliseconds_eq now (by omega)]; omega
  obtain ⟨e1, l1, u1⟩ := randomInt32_range buf1
  obtain ⟨e2, l2, u2⟩ := randomInt32_range buf2
  rcases hr1 : randomInt32 (buf1, none) with ⟨r1, x1⟩
  rcases hr2 : randomInt32 (buf2, none) with ⟨r2, x2⟩
  rw [hr1] at e1 l1 u1
  rw [hr2] at e2 l2 u2
  simp only at e1 l1 u1 e2 l2 u2
  subst e1 e2
  obtain ⟨T, hT⟩ := guid.PutVarint_block8 t ht.1 ht.2
  obtain ⟨C, hC⟩ := guid.PutVarint_block4 g.Counter hc.1 (by omega)
  obtain ⟨F, hF⟩ := guid.PutVarint_block4 g.Fingerprint hf.1 (by omega)
  obtain ⟨A, hA⟩ := guid.PutVarint_block4 r1 l1 (by omega)
  obtain ⟨B, hB⟩ := guid.PutVarint_block4 r2 l2 (by omega)
  obtain ⟨hw, eT, eC, eF, eA, eB, hstr⟩ := CUID_String_canonical t g.Counter g.Fingerprint r1 r2
    T C F A B hT hC hF hA hB ht ⟨hc.1, by omega⟩ ⟨hf.1, by omega⟩ ⟨l1, by omega⟩
    ⟨l2, by omega⟩
  have hgen : g.Generate now (buf1, none) (buf2, none) =
      ({ g with Counter := if maxInt < wrap32 (g.Counter + 1) then 0 else wrap32 (g.Counter + 1) },
        some (CUID.mk6 [99] T C F A B, none)) := by
    unfold Generator.Generate
    simp only [hr1, hr2, cuid_generate_chain, hms, hT, hC, hF, hA, hB, Option.some_bind,
      Option.map_some']
    rfl
  refine ⟨CUID.mk6 [99] T C F A B, by rw [hgen], by rw [hgen], cuid_mk6_length hw, ?_, ?_, ?_, ?_,
    ?_, ?_⟩
  · simp [CUID.mk6]
  · rw [CUID.Time, slice_time hw, eT]
    unfold unixNanoOfMillis
    exact wrap64_eq (by omega) (by omega)
  · rw [CUID.Counter, slice_counter hw, eC]
    exact wrap32_eq ⟨by omega, by omega⟩
  · rw [CUID.Fingerprint, slice_fingerprint hw, eF]
    exact wrap32_eq ⟨by omega, by omega⟩
  · have i1 : isInt32 r1 := ⟨by omega, by omega⟩
    have i2 : isInt32 r2 := ⟨by omega, by omega⟩
    simp only [CUID.Random, slice_rand1 hw, slice_rand2 hw, eA, eB, wrap32_eq i1, wrap32_eq i2]
  · rw [hstr]; rfl

/-- Witness of C12: clock 2021-01-01T00:00:00Z, fingerprint 0, counter 0 and
all-zero random bytes give `ckjdigao00000000000000000`. -/
theorem generate_spec_witness :
    (Generator.Generate ⟨0, 0⟩ 1609459200000000000 ([0, 0, 0, 0], none)
        ([0, 0, 0, 0], none)).2 =
      some ([99, 128, 192, 243, 179, 215, 93, 0, 0] ++ List.replicate 16 0, none) ∧
    CUID.String ([99, 128, 192, 243, 179, 215, 93, 0, 0] ++ List.replicate 16 0) =
      some (ascii "ckjdigao00000000000000000") := by
  obtain ⟨v, h1, _, _, _, _, _, _, _, h9⟩ := generate_spec ⟨0, 0⟩ (by decide) (by decide)
    1609459200000000000 1609459200000 (by decide) (by decide) [0, 0, 0, 0] [0, 0, 0, 0]
  have hv : v = [99, 128, 192, 243, 179, 215, 93, 0, 0] ++ List.replicate 16 0 := by
    have h2 : (Generator.Generate ⟨0, 0⟩ 1609459200000000000 ([0, 0, 0, 0], none)
        ([0, 0, 0, 0], none)).2 =
      some ([99, 128, 192, 243, 179, 215, 93, 0, 0] ++ List.replicate 16 0, none) := by decide
    rw [h1] at h2
    exact (Prod.mk.inj (Option.some.inj h2)).1
  subst hv
  exact ⟨h1, by rw [h9]; decide⟩

end cuid
namespace cuid
open Go

/-- Parsing a text of 25 characters that starts with `c` and is otherwise over
`0-9a-z`: the CUID returned, its text and its decoded fields. -/
theorem ParseBytes_canonical (s : List Nat) (hlen : s.length = 25) (hc : s.getD 0 0 = 99)
    (hs : ∀ c ∈ s.drop 1, (48 ≤ c ∧ c ≤ 57) ∨ (97 ≤ c ∧ c ≤ 122)) :
    ∃ c, ParseBytes s = some (c, none) ∧ CUID.String c = some s ∧
      ParseInt (slice s 1 9) = .ok (Varint (slice c 1 9)) ∧
      ParseInt (slice s 9 13) = .ok (CUID.Counter c) ∧
      ParseInt (slice s 13 17) = .ok (CUID.Fingerprint c) ∧
      ParseInt (slice s 17 21) = .ok (CUID.Random c).1 ∧
      ParseInt (slice s 21 25) = .ok (CUID.Random c).2 := by
  obtain ⟨p, s1, s2, s3, s4, s5, hw, rfl⟩ := exists_cuid_mk6 s hlen
  obtain ⟨a, rfl⟩ := List.length_eq_one.1 hw.1
  have ha : a = 99 := by simpa [CUID.mk6] using hc
  subst ha
  have hdrop : (CUID.mk6 [99] s1 s2 s3 s4 s5).drop 1 = s1 ++ s2 ++ s3 ++ s4 ++ s5 := by
    simp [CUID.mk6]
  rw [hdrop] at hs
  obtain ⟨v1, p1, n1, b1, t1⟩ := canonical_block s1 8 hw.2.1 (by norm_num) (by norm_num)
    (fun c hc => hs c (by simp [hc]))
  obtain ⟨v2, p2, n2, b2, t2⟩ := canonical_block s2 4 hw.2.2.1 (by norm_num) (by norm_num)
    (fun c hc => hs c (by simp [hc]))
  obtain ⟨v3, p3, n3, b3, t3⟩ := canonical_block s3 4 hw.2.2.2.1 (by norm_num) (by norm_num)
    (fun c hc => hs c (by simp [hc]))
  obtain ⟨v4, p4, n4, b4, t4⟩ := canonical_block s4 4 hw.2.2.2.2.1 (by norm_num) (by norm_num)
    (fun c hc => hs c (by simp [hc]))
  obtain ⟨v5, p5, n5, b5, t5⟩ := canonical_block s5 4 hw.2.2.2.2.2 (by norm_num) (by norm_num)
    (fun c hc => hs c (by simp [hc]))
  have h4 : (36 : Int) ^ 4 = 1679616 := by norm_num
  have i2 : isInt32 v2 := ⟨by omega, by omega⟩
  have i3 : isInt32 v3 := ⟨by omega, by omega⟩
  have i4 : isInt32 v4 := ⟨by omega, by omega⟩
  have i5 : isInt32 v5 := ⟨by omega, by omega⟩
  obtain ⟨T, hT⟩ := guid.PutVarint_block8 v1 n1 b1
  obtain ⟨C, hC⟩ := guid.PutVarint_block4 v2 n2 (by omega)
  obtain ⟨F, hF⟩ := guid.PutVarint_block4 v3 n3 (by omega)
  obtain ⟨A, hA⟩ := guid.PutVarint_block4 v4 n4 (by omega)
  obtain ⟨B, hB⟩ := guid.PutVarint_block4 v5 n5 (by omega)
  have hparse := ParseBytes_mk6 s1 s2 s3 s4 s5 hw v1 v2 v3 v4 v5 p1 p2 p3 p4 p5 ⟨n1, b1⟩
    i2 i3 i4 i5
  rw [hT, hC, hF, hA, hB] at hparse
  obtain ⟨hwc, eT, eC, eF, eA, eB, hstr⟩ := CUID_String_canonical v1 v2 v3 v4 v5 T C F A B
    hT hC hF hA hB ⟨n1, b1⟩ ⟨n2, by omega⟩ ⟨n3, by omega⟩ ⟨n4, by omega⟩ ⟨n5, by omega⟩
  refine ⟨CUID.mk6 [99] T C F A B, hparse, ?_, ?_, ?_, ?_, ?_, ?_⟩
  · rw [hstr, t1, t2, t3, t4, t5]; rfl
  · rw [slice_time hw, slice_time hwc, eT]; exact p1
  · rw [slice_counter hw, CUID.Counter, slice_counter hwc, eC, wrap32_eq i2]; exact p2
  · rw [slice_fingerprint hw, CUID.Fingerprint, slice_fingerprint hwc, eF, wrap32_eq i3]
    exact p3
  · simp only [CUID.Random, slice_rand1 hw, slice_rand1 hwc, eA, wrap32_eq i4]
    exact p4
  · simp only [CUID.Random, slice_rand2 hw, slice_rand2 hwc, eB, wrap32_eq i5]
    exact p5

/-- C19: every text of 26 characters over `0-9a-z` is parsed without error by
`guid.ParseString` into a GUID whose `String()` is that text, and every text
of 25 characters that starts with `c` and is otherwise over `0-9a-z` is parsed
without error by `cuid.ParseString` into a CUID whose `String()` is that text;
in both, the value decoded from each field is the base-36 value of its block,
as read by `strconv.ParseInt`. -/
theorem parseString_then_string (s : List Nat) (hlen : s.length = 26)
    (hs : ∀ c ∈ s, (48 ≤ c ∧ c ≤ 57) ∨ (97 ≤ c ∧ c ≤ 122))
    (s' : List Nat) (hlen' : s'.length = 25) (hc : s'.getD 0 0 = 99)
    (hs' : ∀ c ∈ s'.drop 1, (48 ≤ c ∧ c ≤ 57) ∨ (97 ≤ c ∧ c ≤ 122)) :
    (∃ g, guid.ParseString s = some (g, none) ∧ guid.GUID.String g = s ∧
      ParseInt (slice s guid.tsStart guid.tsEnd) =
        .ok (Varint (slice g guid.tsStart guid.tsEnd)) ∧
      ParseInt (slice s guid.fpStart guid.fpEnd) = .ok (guid.GUID.Fingerprint g) ∧
      ParseInt (slice s guid.icStart guid.icEnd) = .ok (guid.GUID.Counters g).1 ∧
      ParseInt (slice s guid.dcStart guid.dcEnd) = .ok (guid.GUID.Counters g).2 ∧
      ParseInt (slice s guid.rdStart guid.rdEnd) = .ok (guid.GUID.Random g)) ∧
    (∃ c, ParseString s' = some (c, none) ∧ CUID.String c = some s' ∧
      ParseInt (slice s' 1 9) = .ok (Varint (slice c 1 9)) ∧
      ParseInt (slice s' 9 13) = .ok (CUID.Counter c) ∧
      ParseInt (slice s' 13 17) = .ok (CUID.Fingerprint c) ∧
      ParseInt (slice s' 17 21) = .ok (CUID.Random c).1 ∧
      ParseInt (slice s' 21 25) = .ok (CUID.Random c).2) :=
  ⟨guid.Parse_canonical s hlen hs, ParseBytes_canonical s' hlen' hc hs'⟩

end cuid
namespace cuid
open Go

/-- Witness of C19: the texts `test0test0test0test0test00` and
`ckjdigao00000000000000000`. -/
theorem parseString_then_string_witness :
    (∃ g, guid.ParseString (ascii "test0test0test0test0test00") = some (g, none) ∧
      guid.GUID.String g = ascii "test0test0test0test0test00" ∧
      ParseInt (slice (ascii "test0test0test0test0test00") guid.tsStart guid.tsEnd) =
        .ok (Varint (slice g guid.tsStart guid.tsEnd)) ∧
      ParseInt (slice (ascii "test0test0test0test0test00") guid.fpStart guid.fpEnd) =
        .ok (guid.GUID.Fingerprint g) ∧
      ParseInt (slice (ascii "test0test0test0test0test00") guid.icStart guid.icEnd) =
        .ok (guid.GUID.Counters g).1 ∧
      ParseInt (slice (ascii "test0test0test0test0test00") guid.dcStart guid.dcEnd) =
        .ok (guid.GUID.Counters g).2 ∧
      ParseInt (slice (ascii "test0test0test0test0test00") guid.rdStart guid.rdEnd) =
        .ok (guid.GUID.Random g)) ∧
    (∃ c, ParseString (ascii "ckjdigao00000000000000000") = some (c, none) ∧
      CUID.String c = some (ascii "ckjdigao00000000000000000") ∧
      ParseInt (slice (ascii "ckjdigao00000000000000000") 1 9) = .ok (Varint (slice c 1 9)) ∧
      ParseInt (slice (ascii "ckjdigao00000000000000000") 9 13) = .ok (CUID.Counter c) ∧
      ParseInt (slice (ascii "ckjdigao00000000000000000") 13 17) = .ok (CUID.Fingerprint c) ∧
      ParseInt (slice (ascii "ckjdigao00000000000000000") 17 21) = .ok (CUID.Random c).1 ∧
      ParseInt (slice (ascii "ckjdigao00000000000000000") 21 25) = .ok (CUID.Random c).2) :=
  parseString_then_string (ascii "test0test0test0test0test00") (by decide) (by decide)
    (ascii "ckjdigao00000000000000000") (by decide) (by decide) (by decide)

theorem PutVarint_wide (buf : List Nat) (hlen : buf.length ≤ 4) (v : Int)
    (h1 : 134217728 ≤ v) (h2 : v ≤ 2147483647) : PutVarint buf v = none := by
  cases h : PutVarint buf v with
  | none => rfl
  | some out =>
    exfalso
    unfold PutVarint at h
    simp only [show ¬ v < 0 from by omega, if_false] at h
    have hux : (v % 18446744073709551616).toNat * 2 % 18446744073709551616 = (2 * v).toNat := by
      omega
    rw [hux] at h
    have hlt := PutUvarint_lt buf _ out h
    have hle : (128 : Nat) ^ buf.length ≤ 128 ^ 4 := Nat.pow_le_pow_right (by norm_num) hlen
    have h4 : (128 : Nat) ^ 4 = 268435456 := by norm_num
    omega

theorem slice_length_le (c : List Nat) (lo hi : Nat) : (slice c lo hi).length ≤ hi - lo := by
  unfold Go.slice
  exact List.length_take_le _ _

theorem setters_none_of_wide (c : CUID) (v : Int) (h1 : 134217728 ≤ v) (h2 : v ≤ 2147483647) :
    CUID.SetCounter c v = none ∧ CUID.SetFingerprint c v = none ∧
      CUID.SetRandom c v v = none := by
  refine ⟨?_, ?_, ?_⟩
  · unfold CUID.SetCounter
    rw [PutVarint_wide _ (slice_length_le c 9 13) v h1 h2]; rfl
  · unfold CUID.SetFingerprint
    rw [PutVarint_wide _ (slice_length_le c 13 17) v h1 h2]; rfl
  · unfold CUID.SetRandom
    rw [PutVarint_wide _ (slice_length_le c 17 21) v h1 h2]; rfl

theorem String_blocks {p t k f r1 r2 : List Nat} (h : Widths p t k f r1 r2) :
    ∃ x1 x2 x3 x4 x5, Widths (ascii "c") x1 x2 x3 x4 x5 ∧
      CUID.String (CUID.mk6 p t k f r1 r2) = some (CUID.mk6 (ascii "c") x1 x2 x3 x4 x5) ∧
      leftpad (FormatInt (Varint t)) 8 = some x1 ∧ leftpad (FormatInt (Varint k)) 4 = some x2 ∧
      leftpad (FormatInt (Varint f)) 4 = some x3 ∧ leftpad (FormatInt (Varint r1)) 4 = some x4 ∧
      leftpad (FormatInt (Varint r2)) 4 = some x5 := by
  obtain ⟨x1, e1, l1⟩ := leftpad_length (FormatInt (Varint t)) 8 (by omega)
  obtain ⟨x2, e2, l2⟩ := leftpad_length (FormatInt (Varint k)) 4 (by omega)
  obtain ⟨x3, e3, l3⟩ := leftpad_length (FormatInt (Varint f)) 4 (by omega)
  obtain ⟨x4, e4, l4⟩ := leftpad_length (FormatInt (Varint r1)) 4 (by omega)
  obtain ⟨x5, e5, l5⟩ := leftpad_length (FormatInt (Varint r2)) 4 (by omega)
  refine ⟨x1, x2, x3, x4, x5, ⟨by decide, l1, l2, l3, l4, l5⟩, ?_, e1, e2, e3, e4, e5⟩
  rw [CUID_String_mk6 h, e1, e2, e3, e4, e5]
  rfl

/-- Below `2^27` the setters do not panic, and the text shows in the field the
four low-order base-36 digits of the value stored. -/
theorem setters_truncate (c : CUID) (hlen : c.length = 25) (v w : Int)
    (hv : 0 ≤ v ∧ v < 134217728) (hw : 0 ≤ w ∧ w < 134217728) :
    (∃ c1 s1, CUID.SetCounter c v = some c1 ∧ CUID.String c1 = some s1 ∧
      slice s1 9 13 = base36 4 v.toNat) ∧
    (∃ c2 s2, CUID.SetFingerprint c v = some c2 ∧ CUID.String c2 = some s2 ∧
      slice s2 13 17 = base36 4 v.toNat) ∧
    (∃ c3 s3, CUID.SetRandom c v w = some c3 ∧ CUID.String c3 = some s3 ∧
      slice s3 17 21 = base36 4 v.toNat ∧ slice s3 21 25 = base36 4 w.toNat) := by
  obtain ⟨p, t, k, f, r1, r2, hwd, rfl⟩ := exists_cuid_mk6 c hlen
  have h13 : (36 : Int) ^ 13 = 170581728179578208256 := by norm_num
  have put : ∀ (buf : List Nat) (x : Int), buf.length = 4 → 0 ≤ x ∧ x < 134217728 →
      ∃ out, PutVarint buf x = some out ∧ out.length = 4 ∧
        leftpad (FormatInt (Varint out)) 4 = some (base36 4 x.toNat) := by
    intro buf x hb hx
    have hne : buf ≠ [] := by
      rintro rfl
      simp at hb
    obtain ⟨out, hout⟩ := PutVarint_isSome buf x hne hx.1 (by rw [hb]; norm_num; omega)
      (by omega)
    have hV := Varint_PutVarint buf x out hout (by omega) (by omega) (by omega)
    refine ⟨out, hout, by rw [PutVarint_length _ _ _ hout, hb], ?_⟩
    rw [hV]
    exact leftpad_FormatInt_base36 x 4 (by norm_num) hx.1 (by omega)
  obtain ⟨h1, h2, h3, h4, h5, h6⟩ := hwd
  refine ⟨?_, ?_, ?_⟩
  · obtain ⟨K, hK, lK, tK⟩ := put k v h3 hv
    have hw' : Widths p t K f r1 r2 := ⟨h1, h2, lK, h4, h5, h6⟩
    obtain ⟨x1, x2, x3, x4, x5, hx, hs, _, e2, _, _, _⟩ := String_blocks hw'
    refine ⟨_, _, ?_, hs, ?_⟩
    · rw [CUID_SetCounter_mk6 ⟨h1, h2, h3, h4, h5, h6⟩, hK]; rfl
    · rw [slice_counter hx]
      rw [tK] at e2
      exact (Option.some.inj e2).symm
  · obtain ⟨K, hK, lK, tK⟩ := put f v h4 hv
    have hw' : Widths p t k K r1 r2 := ⟨h1, h2, h3, lK, h5, h6⟩
    obtain ⟨x1, x2, x3, x4, x5, hx, hs, _, _, e3, _, _⟩ := String_blocks hw'
    refine ⟨_, _, ?_, hs, ?_⟩
    · rw [CUID_SetFingerprint_mk6 ⟨h1, h2, h3, h4, h5, h6⟩, hK]; rfl
    · rw [slice_fingerprint hx]
      rw [tK] at e3
      exact (Option.some.inj e3).symm
  · obtain ⟨A, hA, lA, tA⟩ := put r1 v h5 hv
    obtain ⟨B, hB, lB, tB⟩ := put r2 w h6 hw
    have hw' : Widths p t k f A B := ⟨h1, h2, h3, h4, lA, lB⟩
    obtain ⟨x1, x2, x3, x4, x5, hx, hs, _, _, _, e4, e5⟩ := String_blocks hw'
    refine ⟨_, _, ?_, hs, ?_, ?_⟩
    · rw [CUID_SetRandom_mk6 ⟨h1, h2, h3, h4, h5, h6⟩, hA, hB]; rfl
    · rw [slice_rand1 hx]
      rw [tA] at e4
      exact (Option.some.inj e4).symm
    · rw [slice_rand2 hx]
      rw [tB] at e5
      exact (Option.some.inj e5).symm

/-- C17, evaluated where it fails: for every CUID, `SetCounter(v)`,
`SetFingerprint(v)` and `SetRandom(v, v)` panic for `v = 2^27 = 134217728` and
for `v = 2^31 - 1`: `binary.PutVarint` needs five bytes for such a value and
the field has four. -/
theorem setters_panic_on_wide_value (c : CUID) :
    CUID.SetCounter c 134217728 = none ∧ CUID.SetFingerprint c 134217728 = none ∧
    CUID.SetRandom c 134217728 134217728 = none ∧
    CUID.SetCounter c 2147483647 = none ∧ CUID.SetFingerprint c 2147483647 = none ∧
    CUID.SetRandom c 2147483647 2147483647 = none := by
  obtain ⟨a1, a2, a3⟩ := setters_none_of_wide c 134217728 (by norm_num) (by norm_num)
  obtain ⟨b1, b2, b3⟩ := setters_none_of_wide c 2147483647 (by norm_num) (by norm_num)
  exact ⟨a1, a2, a3, b1, b2, b3⟩

end cuid
namespace guid
open Go

/-- C21, evaluated where it fails: on a block of sixteen bytes `0xff`, read
without error, `randomInt32` returns `1887753`, which is not below
`36^4 = 1679616`; on sixteen zero bytes it returns `1056784`: the result is
`s0 + s1 % maxInt` with `s0` at least `2^20`. -/
theorem randomInt32_out_of_band :
    randomInt32 (List.replicate 16 255, none) = (1887753, none) ∧
    ¬ (1887753 : Int) < 36 ^ 4 ∧
    randomInt32 (List.replicate 16 0, none) = (1056784, none) := by
  decide

end guid

namespace cuid
open Go

theorem Uvarint_small_first_byte (b : Nat) (rest : List Nat) (hb : b < 128) :
    Uvarint (b :: rest) = b := by
  unfold Uvarint uvarintLoop
  have h10 : ¬ ((0 : Nat) = 10) := by decide
  have h9 : ¬ ((0 : Nat) = 9 ∧ 1 < b) := fun h => absurd h.1 (by decide)
  rw [if_neg h10, if_pos hb, if_neg h9, Nat.shiftLeft_eq]
  simp only [pow_zero, Nat.mul_one, Nat.zero_or]
  exact Nat.mod_eq_of_lt (by omega)

/-- What `randomInt32` computes: the reduction `(|v| * 1679616) >> 32` of the
integer `v` that `binary.Varint` decodes from the block, which lies in
`[-2^27, 2^27)`. -/
theorem randomInt32_eq_multiplyShift_varint (buf : List Nat) :
    randomInt32 (buf, none) = (multiplyShift (Varint (buf.take 4)), none) ∧
    -134217728 ≤ Varint (buf.take 4) ∧ Varint (buf.take 4) < 134217728 := by
  have hv := Varint_range4 (buf.take 4) (by simp)
  refine ⟨?_, hv⟩
  unfold randomInt32 multiplyShift
  simp only [maxInt]
  by_cases hneg : Varint (buf.take 4) < 0
  · have habs : ((Varint (buf.take 4)).natAbs : Int) = -Varint (buf.take 4) :=
      Int.ofNat_natAbs_of_nonpos (by omega)
    simp only [hneg, if_true, habs]
    rw [wrap64_eq (x := -Varint (buf.take 4)) (by omega) (by omega),
      wrap64_eq (by omega) (by omega), wrap32_eq ⟨by omega, by omega⟩]
  · have habs : ((Varint (buf.take 4)).natAbs : Int) = Varint (buf.take 4) :=
      Int.natAbs_of_nonneg (by omega)
    simp only [hneg, if_false, habs]
    rw [wrap64_eq (by omega) (by omega), wrap32_eq ⟨by omega, by omega⟩]

/-- On every block whose first byte is below `0x80` `randomInt32` returns 0:
`binary.Varint` stops at that byte. -/
theorem randomInt32_zero_of_small_first_byte (b : Nat) (rest : List Nat) (hb : b < 128) :
    randomInt32 (b :: rest, none) = (0, none) := by
  have hU : Uvarint ((b :: rest).take 4) = b := by
    rw [List.take_succ_cons]
    exact Uvarint_small_first_byte b _ hb
  have hV : -64 ≤ Varint ((b :: rest).take 4) ∧ Varint ((b :: rest).take 4) ≤ 63 := by
    unfold Varint
    simp only [hU, Nat.shiftRight_eq_div_pow, Nat.and_one_is_mod]
    have hx : wrap64 ((b / 2 ^ 1 : Nat) : Int) = ((b / 2 ^ 1 : Nat) : Int) :=
      wrap64_eq (by omega) (by omega)
    rw [hx]
    split <;> omega
  rw [(randomInt32_eq_multiplyShift_varint (b :: rest)).1]
  unfold multiplyShift
  simp only [maxInt]
  generalize Varint ((b :: rest).take 4) = v at hV
  have hn : (v.natAbs : Int) ≤ 64 := by omega
  have h0 : (0 : Int) ≤ (v.natAbs : Int) := by omega
  generalize (v.natAbs : Int) = n at hn h0
  have : n * 1679616 / 2 ^ 32 = 0 := by
    apply Int.ediv_eq_zero_of_lt (by omega)
    norm_num
    omega
  rw [this]

/-- C22, evaluated where it fails: on the block `ff ff ff 7f` `randomInt32`
returns `52488`, whereas the reduction of the 32-bit integer with these bytes
is `839807` when the least significant byte comes first and `0` when the most
significant byte comes first; on the block `12 34 56 78` it returns `0`,
whereas the two reductions are `789529` and `119439`. -/
theorem randomInt32_not_int32_reduction :
    randomInt32 ([255, 255, 255, 127], none) = (52488, none) ∧
    multiplyShift (int32LittleEndian [255, 255, 255, 127]) = 839807 ∧
    multiplyShift (int32BigEndian [255, 255, 255, 127]) = 0 ∧
    randomInt32 ([18, 52, 86, 120], none) = (0, none) ∧
    multiplyShift (int32LittleEndian [18, 52, 86, 120]) = 789529 ∧
    multiplyShift (int32BigEndian [18, 52, 86, 120]) = 119439 := by
  decide

/-- C23: for every block read without error `randomInt32` returns, with a nil
error, a value `r` with `0 ≤ r < 36^4`, and `r` never exceeds
`52488 = 36^4 / 32`, a bound reached on the block `ff ff ff 7f`. -/
theorem randomInt32_bounds (buf : List Nat) :
    (randomInt32 (buf, none)).2 = none ∧ 0 ≤ (randomInt32 (buf, none)).1 ∧
    (randomInt32 (buf, none)).1 < 36 ^ 4 ∧ (randomInt32 (buf, none)).1 ≤ 52488 ∧
    (52488 : Int) = 36 ^ 4 / 32 ∧ (randomInt32 ([255, 255, 255, 127], none)).1 = 52488 := by
  obtain ⟨h1, h2, h3⟩ := randomInt32_range buf
  have h4 : (36 : Int) ^ 4 = 1679616 := by norm_num
  refine ⟨h1, h2, by rw [h4]; omega, h3, by norm_num, by decide⟩

end cuid
namespace guid
open Go

theorem PutVarint_minInt32_short (buf : List Nat) (hlen : buf.length ≤ 4) :
    PutVarint buf (-2147483648) = none := by
  have hz : PutVarint buf (-2147483648) = PutUvarint buf 4294967295 := rfl
  rw [hz]
  cases h : PutUvarint buf 4294967295 with
  | none => rfl
  | some out =>
    exfalso
    have hlt := PutUvarint_lt buf _ out h
    have hle : (128 : Nat) ^ buf.length ≤ 128 ^ 4 := Nat.pow_le_pow_right (by norm_num) hlen
    have h4 : (128 : Nat) ^ 4 = 268435456 := by norm_num
    omega

theorem guid_slice_length_le (c : List Nat) (lo hi : Nat) : (slice c lo hi).length ≤ hi - lo := by
  unfold Go.slice
  exact List.length_take_le _ _

/-- Apart from the least `int32`, `filter` returns `|v| mod 36^4`, a value of
`[0, 36^4)`. -/
theorem filter_eq_natAbs_mod (v : Int) (hv : isInt32 v) (hmin : v ≠ -2147483648) :
    filter v = (v.natAbs : Int) % 1679616 ∧ 0 ≤ filter v ∧ filter v < 36 ^ 4 := by
  have hr := filter_range v hv hmin
  have h4 : (36 : Int) ^ 4 = 1679616 := by norm_num
  have hmax : maxInt = 1679616 := rfl
  refine ⟨?_, hr.1, by rw [h4, ← hmax]; exact hr.2⟩
  unfold isInt32 at hv
  have key : ∀ a : Int, 0 ≤ a →
      (if maxInt ≤ a then Int.tmod a maxInt else a) = a % 1679616 := by
    intro a ha
    rw [hmax]
    by_cases hc : (1679616 : Int) ≤ a
    · rw [if_pos hc, Int.tmod_eq_emod ha (by norm_num)]
    · rw [if_neg hc]; omega
  unfold filter
  by_cases hneg : v < 0
  · have hw : wrap32 (-v) = -v := wrap32_eq ⟨by omega, by omega⟩
    have habs : (v.natAbs : Int) = -v := Int.ofNat_natAbs_of_nonpos (by omega)
    simp only [hneg, if_true, hw, habs]
    exact key (-v) (by omega)
  · have habs : (v.natAbs : Int) = v := Int.natAbs_of_nonneg (by omega)
    simp only [hneg, if_false, habs]
    exact key v (by omega)

/-- C24, evaluated where it fails: `filter(math.MinInt32)` is `-2147483648`,
neither in `[0, 36^4)` nor `|v| mod 36^4 = 934400`, and with this argument
`SetFingerprint`, `SetCounters` and `SetRandom` panic on every GUID: the
varint of the value needs five bytes and the field has four. -/
theorem filter_minInt32 (g : GUID) :
    filter (-2147483648) = -2147483648 ∧
    ((-2147483648 : Int).natAbs : Int) % 1679616 = 934400 ∧
    GUID.SetFingerprint g (-2147483648) = none ∧
    GUID.SetCounters g (-2147483648) 0 = none ∧
    GUID.SetRandom g (-2147483648) = none := by
  refine ⟨by decide, by decide, ?_, ?_, ?_⟩
  · unfold GUID.SetFingerprint
    rw [filter_minInt, PutVarint_minInt32_short _ (guid_slice_length_le g fpStart fpEnd)]; rfl
  · unfold GUID.SetCounters
    rw [filter_minInt, PutVarint_minInt32_short _ (guid_slice_length_le g icStart icEnd)]; rfl
  · unfold GUID.SetRandom
    rw [filter_minInt, PutVarint_minInt32_short _ (guid_slice_length_le g rdStart rdEnd)]; rfl

end guid

namespace cuid
open Go

/-- When `Slug` returns, its text has at most 10 characters. -/
theorem Slug_length (c : CUID) (s : List Nat) (h : CUID.Slug c = some s) : s.length ≤ 10 := by
  unfold CUID.Slug at h
  simp only at h
  split at h
  · exact absurd h (by simp)
  · split at h
    · exact absurd h (by simp)
    · rename_i h2 h1
      have := Option.some.inj h
      subst this
      simp only [List.length_append, List.length_drop, List.length_take]
      split <;> split <;> (try simp only [List.length_drop]) <;> omega

/-- C25, evaluated where it fails: `Slug()` panics on the zero CUID, whose
timestamp is printed as the single character `0`, and on the CUID generated
at a clock reading of 35 ms after the epoch, printed as `z`: the slice
expression `nanosStr[len(nanosStr)-2:]` has a negative bound. -/
theorem slug_panics_on_small_time :
    CUID.Slug CUID.zero = none ∧
    FormatInt (Varint (slice CUID.zero 1 9)) = ascii "0" ∧
    (Generator.Generate ⟨0, 0⟩ 35999999 ([0, 0, 0, 0], none) ([0, 0, 0, 0], none)).2 =
      some (99 :: 70 :: List.replicate 23 0, none) ∧
    CUID.Slug (99 :: 70 :: List.replicate 23 0) = none := by
  decide

end cuid
namespace Go

/-- Writing a value of `[0, 2^27)` over any four bytes succeeds, and `Varint`
reads the value back, whatever the four bytes were. -/
theorem put_then_get (buf : List Nat) (x : Int) (hb : buf.length = 4)
    (hx : 0 ≤ x ∧ x < 134217728) :
    ∃ out, PutVarint buf x = some out ∧ out.length = 4 ∧ Varint out = x := by
  have hne : buf ≠ [] := by
    rintro rfl
    simp at hb
  obtain ⟨out, hout⟩ := PutVarint_isSome buf x hne hx.1 (by rw [hb]; norm_num; omega)
    (by omega)
  exact ⟨out, hout, by rw [PutVarint_length _ _ _ hout, hb],
    Varint_PutVarint buf x out hout (by omega) (by omega) (by omega)⟩

end Go

namespace guid
open Go

/-- C26: for every CUID and every GUID, and all `v`, `w` in `[0, 36^4)`, each
setter returns without panicking and the matching accessor reads back what
was stored: `Counter`, `Fingerprint` and `Random` of a CUID, `Counters`,
`Fingerprint` and `Random` of a GUID, whatever bytes the field held before. -/
theorem setters_read_back (x : cuid.CUID) (hx : x.length = 25) (y : GUID) (hy : y.length = 26)
    (v w : Int) (hv : 0 ≤ v ∧ v < 36 ^ 4) (hw : 0 ≤ w ∧ w < 36 ^ 4) :
    (∃ x1, cuid.CUID.SetCounter x v = some x1 ∧ cuid.CUID.Counter x1 = v) ∧
    (∃ x2, cuid.CUID.SetFingerprint x v = some x2 ∧ cuid.CUID.Fingerprint x2 = v) ∧
    (∃ x3, cuid.CUID.SetRandom x v w = some x3 ∧ cuid.CUID.Random x3 = (v, w)) ∧
    (∃ y1, GUID.SetCounters y v w = some y1 ∧ GUID.Counters y1 = (v, w)) ∧
    (∃ y2, GUID.SetFingerprint y v = some y2 ∧ GUID.Fingerprint y2 = v) ∧
    (∃ y3, GUID.SetRandom y v = some y3 ∧ GUID.Random y3 = v) := by
  have h4 : (36 : Int) ^ 4 = 1679616 := by norm_num
  have hmax : maxInt = 1679616 := rfl
  have iv : isInt32 v := ⟨by omega, by omega⟩
  have iw : isInt32 w := ⟨by omega, by omega⟩
  have fv : filter v = v := filter_inBand v hv.1 (by omega)
  have fw : filter w = w := filter_inBand w hw.1 (by omega)
  obtain ⟨p, t, k, f, r1, r2, hwx, rfl⟩ := cuid.exists_cuid_mk6 x hx
  obtain ⟨q, t', f', i', d', r', hwy, rfl⟩ := exists_mk6 y hy
  obtain ⟨c1, c2, c3, c4, c5, c6⟩ := hwx
  obtain ⟨g1, g2, g3, g4, g5, g6⟩ := hwy
  refine ⟨?_, ?_, ?_, ?_, ?_, ?_⟩
  · obtain ⟨K, hK, lK, eK⟩ := put_then_get k v c3 ⟨hv.1, by omega⟩
    refine ⟨_, by rw [cuid.CUID_SetCounter_mk6 ⟨c1, c2, c3, c4, c5, c6⟩, hK]; rfl, ?_⟩
    rw [cuid.CUID.Counter, cuid.slice_counter ⟨c1, c2, lK, c4, c5, c6⟩, eK, wrap32_eq iv]
  · obtain ⟨K, hK, lK, eK⟩ := put_then_get f v c4 ⟨hv.1, by omega⟩
    refine ⟨_, by rw [cuid.CUID_SetFingerprint_mk6 ⟨c1, c2, c3, c4, c5, c6⟩, hK]; rfl, ?_⟩
    rw [cuid.CUID.Fingerprint, cuid.slice_fingerprint ⟨c1, c2, c3, lK, c5, c6⟩, eK,
      wrap32_eq iv]
  · obtain ⟨A, hA, lA, eA⟩ := put_then_get r1 v c5 ⟨hv.1, by omega⟩
    obtain ⟨B, hB, lB, eB⟩ := put_then_get r2 w c6 ⟨hw.1, by omega⟩
    refine ⟨_, by rw [cuid.CUID_SetRandom_mk6 ⟨c1, c2, c3, c4, c5, c6⟩, hA, hB]; rfl, ?_⟩
    simp only [cuid.CUID.Random, cuid.slice_rand1 ⟨c1, c2, c3, c4, lA, lB⟩,
      cuid.slice_rand2 ⟨c1, c2, c3, c4, lA, lB⟩, eA, eB, wrap32_eq iv, wrap32_eq iw]
  · obtain ⟨A, hA, lA, eA⟩ := put_then_get i' v g4 ⟨hv.1, by omega⟩
    obtain ⟨B, hB, lB, eB⟩ := put_then_get d' w g5 ⟨hw.1, by omega⟩
    refine ⟨_, by rw [SetCounters_mk6 ⟨g1, g2, g3, g4, g5, g6⟩, fv, fw, hA, hB]; rfl, ?_⟩
    simp only [GUID.Counters, slice_ic ⟨g1, g2, g3, lA, lB, g6⟩,
      slice_dc ⟨g1, g2, g3, lA, lB, g6⟩, eA, eB, wrap32_eq iv, wrap32_eq iw]
  · obtain ⟨K, hK, lK, eK⟩ := put_then_get f' v g3 ⟨hv.1, by omega⟩
    refine ⟨_, by rw [SetFingerprint_mk6 ⟨g1, g2, g3, g4, g5, g6⟩, fv, hK]; rfl, ?_⟩
    rw [GUID.Fingerprint, slice_fp ⟨g1, g2, lK, g4, g5, g6⟩, eK, wrap32_eq iv]
  · obtain ⟨K, hK, lK, eK⟩ := put_then_get r' v g6 ⟨hv.1, by omega⟩
    refine ⟨_, by rw [SetRandom_mk6 ⟨g1, g2, g3, g4, g5, g6⟩, fv, hK]; rfl, ?_⟩
    rw [GUID.Random, slice_rd ⟨g1, g2, g3, g4, g5, lK⟩, eK, wrap32_eq iv]

/-- Witness of C26: `v = 1679615`, `w = 7`, on a CUID of 25 bytes `0xff` and on
`TestGUID`. -/
theorem setters_read_back_witness :
    (∃ x1, cuid.CUID.SetCounter (List.replicate 25 255) 1679615 = some x1 ∧
      cuid.CUID.Counter x1 = 1679615) ∧
    (∃ x2, cuid.CUID.SetFingerprint (List.replicate 25 255) 1679615 = some x2 ∧
      cuid.CUID.Fingerprint x2 = 1679615) ∧
    (∃ x3, cuid.CUID.SetRandom (List.replicate 25 255) 1679615 7 = some x3 ∧
      cuid.CUID.Random x3 = (1679615, 7)) ∧
    (∃ y1, GUID.SetCounters TestGUID 1679615 7 = some y1 ∧ GUID.Counters y1 = (1679615, 7)) ∧
    (∃ y2, GUID.SetFingerprint TestGUID 1679615 = some y2 ∧ GUID.Fingerprint y2 = 1679615) ∧
    (∃ y3, GUID.SetRandom TestGUID 1679615 = some y3 ∧ GUID.Random y3 = 1679615) :=
  setters_read_back (List.replicate 25 255) (by decide) TestGUID (by decide) 1679615 7
    (by decide) (by decide)

theorem advance_ne (c : Int) :
    (if (1679616 : Int) < wrap32 (c + 1) then 0 else wrap32 (c + 1)) ≠ c := by
  unfold wrap32
  split <;> omega

/-- C27: a `Generate` call whose random read fails leaves the generator with
its increasing counter advanced: in cuid `Counter` (on a failure of the first
read and of the second), in guid `IncrCounter`, while `DecrCounter` and the
fingerprint are unchanged; the advanced value differs from the one the call
started with. -/
theorem generate_failure_not_atomic (g : stdGenerator) (now : Int) (buf : List Nat)
    (msg : String) (pfx : Nat × Nat) (c : cuid.Generator) (now' : Int) (buf1 buf2 : List Nat)
    (rd2 : cuid.ReadResult) :
    (g.Generate now (buf, some msg) pfx).1 =
      ⟨g.Fingerprint,
        if maxInt < wrap32 (g.IncrCounter + 1) then 0 else wrap32 (g.IncrCounter + 1),
        g.DecrCounter⟩ ∧
    (g.Generate now (buf, some msg) pfx).1.IncrCounter ≠ g.IncrCounter ∧
    (c.Generate now' (buf1, some msg) rd2).1 =
      ⟨c.Fingerprint,
        if cuid.maxInt < wrap32 (c.Counter + 1) then 0 else wrap32 (c.Counter + 1)⟩ ∧
    (c.Generate now' (buf1, none) (buf2, some msg)).1 =
      ⟨c.Fingerprint,
        if cuid.maxInt < wrap32 (c.Counter + 1) then 0 else wrap32 (c.Counter + 1)⟩ ∧
    (c.Generate now' (buf1, some msg) rd2).1.Counter ≠ c.Counter ∧
    (c.Generate now' (buf1, none) (buf2, some msg)).1.Counter ≠ c.Counter := by
  have h2 : (c.Generate now' (buf1, none) (buf2, some msg)).1 =
      ⟨c.Fingerprint,
        if cuid.maxInt < wrap32 (c.Counter + 1) then 0 else wrap32 (c.Counter + 1)⟩ := by
    unfold cuid.Generator.Generate
    split
    · rfl
    · rfl
  refine ⟨rfl, ?_, rfl, h2, ?_, ?_⟩
  · rw [Generate_incrCounter]; exact advance_ne _
  · rw [cuid.Generate_counter]; exact advance_ne _
  · rw [cuid.Generate_counter]; exact advance_ne _

end guid
namespace guid
open Go

/-- For every `int32` other than the least one, the three setters return
without panicking on every GUID, and the accessor reads the in-band value
`filter v`. -/
theorem setters_accept (y : GUID) (hy : y.length = 26) (v w : Int) (hv : isInt32 v)
    (hvm : v ≠ -2147483648) (hw : isInt32 w) (hwm : w ≠ -2147483648) :
    (∃ y1, GUID.SetCounters y v w = some y1 ∧ GUID.Counters y1 = (filter v, filter w)) ∧
    (∃ y2, GUID.SetFingerprint y v = some y2 ∧ GUID.Fingerprint y2 = filter v) ∧
    (∃ y3, GUID.SetRandom y v = some y3 ∧ GUID.Random y3 = filter v) := by
  have hmax : maxInt = 1679616 := rfl
  obtain ⟨a0, a1⟩ := filter_range v hv hvm
  obtain ⟨b0, b1⟩ := filter_range w hw hwm
  have iv : isInt32 (filter v) := ⟨by omega, by omega⟩
  have iw : isInt32 (filter w) := ⟨by omega, by omega⟩
  obtain ⟨q, t', f', i', d', r', hwy, rfl⟩ := exists_mk6 y hy
  obtain ⟨g1, g2, g3, g4, g5, g6⟩ := hwy
  refine ⟨?_, ?_, ?_⟩
  · obtain ⟨A, hA, lA, eA⟩ := put_then_get i' (filter v) g4 ⟨a0, by omega⟩
    obtain ⟨B, hB, lB, eB⟩ := put_then_get d' (filter w) g5 ⟨b0, by omega⟩
    refine ⟨_, by rw [SetCounters_mk6 ⟨g1, g2, g3, g4, g5, g6⟩, hA, hB]; rfl, ?_⟩
    simp only [GUID.Counters, slice_ic ⟨g1, g2, g3, lA, lB, g6⟩,
      slice_dc ⟨g1, g2, g3, lA, lB, g6⟩, eA, eB, wrap32_eq iv, wrap32_eq iw]
  · obtain ⟨K, hK, lK, eK⟩ := put_then_get f' (filter v) g3 ⟨a0, by omega⟩
    refine ⟨_, by rw [SetFingerprint_mk6 ⟨g1, g2, g3, g4, g5, g6⟩, hK]; rfl, ?_⟩
    rw [GUID.Fingerprint, slice_fp ⟨g1, g2, lK, g4, g5, g6⟩, eK, wrap32_eq iv]
  · obtain ⟨K, hK, lK, eK⟩ := put_then_get r' (filter v) g6 ⟨a0, by omega⟩
    refine ⟨_, by rw [SetRandom_mk6 ⟨g1, g2, g3, g4, g5, g6⟩, hK]; rfl, ?_⟩
    rw [GUID.Random, slice_rd ⟨g1, g2, g3, g4, g5, lK⟩, eK, wrap32_eq iv]

end guid
